import Mathlib

/-!
# simplelb: pull-based and watch-based gRPC resolvers

A shallow embedding of `simplelb/simplelb.go` and `simplelb/simplelb_watcher.go`.

* Addresses and Go errors are strings; a Go slice is a `List` (a nil slice and an
  empty slice are both `[]`).
* `time.Duration` is a signed 64-bit nanosecond count: an `Int` that every arithmetic
  step brings back into `[-2^63, 2^63)` with `wrap64`.
* The collaborators (puller, watcher, client connection, random source, context) are
  environments: what each call returns is read from a script, and every call the code
  makes is recorded as an `Event` in the order the code makes it.
* A Go panic is an explicit outcome.
-/

namespace SimpleLB

/-! ## Data model -/

/-- The type `Address`, declared as `type Address string`. -/
abbrev Address := String

/-- A Go `error`, identified by its message. -/
abbrev GoError := String

/-- The grpc type `resolver.Address`; a field the code never sets keeps its zero value. -/
structure ResolverAddress where
  Addr : String
  ServerName : String := ""
  Attributes : Option Nat := none
  BalancerAttributes : Option Nat := none
  Metadata : Option Nat := none
  deriving DecidableEq, Repr

/-- The grpc type `resolver.State`; a field the code never sets keeps its zero value. -/
structure ResolverState where
  Addresses : List ResolverAddress
  Endpoints : List (List ResolverAddress) := []
  ServiceConfig : Option Nat := none
  Attributes : Option Nat := none
  deriving DecidableEq, Repr

/-- Every call on a collaborator, and every wait, that the code performs. -/
inductive Event where
  /-- A call `puller.Pull(ctx, serviceName)`. -/
  | pull (serviceName : String)
  /-- A call `watcher.Watch(ctx, serviceName)`. -/
  | watch (serviceName : String)
  /-- The `select` of `retryWithJitter` took the `time.After(wait)` branch. -/
  | wait (d : Int)
  /-- The `select` of `retryWithJitter` took the `ctx.Done()` branch while waiting `d`. -/
  | cancelledWait (d : Int)
  /-- A fixed delay (`time.After(time.Second)`, `time.Sleep(time.Second)`) that ran to its end. -/
  | sleep (d : Int)
  /-- A call `cc.UpdateState(st)`. -/
  | updateState (st : ResolverState)
  /-- A call `cc.ReportError(err)`. -/
  | reportError (err : GoError)
  | logError (msg : String)
  | logInfo (msg : String)
  | logWarn (msg : String)
  | lock
  | unlock
  /-- The statement `go spResolver.run()`. -/
  | spawn
  /-- The deferred `s.doneCh <- struct{}{}`. -/
  | done
  deriving DecidableEq, Repr

/-- One nanosecond count brought back into the range of `int64` (twos-complement wrap-around). -/
def wrap64 (x : Int) : Int := Int.bmod x (2 ^ 64)

/-- The constant `time.Second`, in nanoseconds. -/
def second : Int := 1000000000

/-! ## `lo.Difference` and the change test -/

/-- The library function `lo.Difference` (github.com/samber/lo): the elements of `list1`
that do not occur in `list2`, and the elements of `list2` that do not occur in `list1`,
each in the order of its own list. -/
def Difference (list1 list2 : List Address) : List Address × List Address :=
  (list1.filter (fun a => !list2.contains a), list2.filter (fun a => !list1.contains a))

/-- The change test of both engines:
`diff1, diff2 := lo.Difference(s.lastAddress, addresses)` followed by
`len(diff1) != 0 || len(diff2) != 0`. -/
def changed (lastAddress addresses : List Address) : Bool :=
  let (diff1, diff2) := Difference lastAddress addresses
  diff1.length != 0 || diff2.length != 0

/-- The mapping `lo.Map(addresses, func(ad Address, _ int) resolver.Address {...})`. -/
def toResolverAddresses (addresses : List Address) : List ResolverAddress :=
  addresses.map (fun ad => { Addr := ad })

/-! ## `retryWithJitter` -/

/-- What one call of `puller.Pull` returns. -/
inductive PullResult where
  | ok (addresses : List Address)
  | fail (err : GoError)
  deriving DecidableEq, Repr

/-- The surroundings of one call of `retryWithJitter`, indexed by the attempt `i`:
what `Pull` returns, the raw value of the random source, and whether the context is
cancelled before the timer of the wait fires. -/
structure RetryEnv where
  pull : Nat → PullResult
  rand : Nat → Nat
  cancelled : Nat → Bool
  /-- The value of `ctx.Err()` once the context is done. -/
  ctxErr : GoError := "context canceled"

/-- The function `rand.Int63n(n)`: it panics (`none`) when `n <= 0`, and otherwise returns a
value of `[0, n)`. The raw value `r` is reduced modulo `n`, so every value of `[0, n)` is a
possible draw and no other is. -/
def Int63n (r : Nat) (n : Int) : Option Int :=
  if n ≤ 0 then none else some ((r : Int) % n)

/-- How a call ended: with its two return values, or in a panic. -/
inductive RetryOutcome where
  | returned (addresses : List Address) (err : Option GoError)
  | panicked
  deriving DecidableEq, Repr

/-- The error `errors.New("still got error after retrying")`. -/
def errRetryExhausted : GoError := "still got error after retrying"

/-- The loop `for i := 0; i < attempts; i++` of `retryWithJitter`, entered at index `i` with
`left = attempts - i` iterations to go and the current `backoff`. -/
def retryLoop (env : RetryEnv) (serviceName : String) :
    Nat → Nat → Int → List Event × RetryOutcome
  | 0, _, _ => ([], .returned [] (some errRetryExhausted))
  | left + 1, i, backoff =>
    match env.pull i with
    | .ok addresses => ([.pull serviceName], .returned addresses none)
    | .fail _ =>
      match Int63n (env.rand i) (Int.tdiv backoff 2) with
      | none => ([.pull serviceName], .panicked)
      | some jitter =>
        let wait := wrap64 (backoff + jitter)
        if env.cancelled i then
          ([.pull serviceName, .cancelledWait wait], .returned [] (some env.ctxErr))
        else
          let r := retryLoop env serviceName left (i + 1) (wrap64 (backoff * 2))
          (.pull serviceName :: .wait wait :: r.1, r.2)

/-- The function `retryWithJitter(ctx, attempts, initial, serviceName, puller)`. -/
def retryWithJitter (env : RetryEnv) (attempts : Int) (initial : Int) (serviceName : String) :
    List Event × RetryOutcome :=
  retryLoop env serviceName attempts.toNat 0 initial

/-! ## The pull engine (`simplelb.go`) -/

/-- The struct `simpleLBResolver`; `cc` and `puller` name the injected collaborators. The
mutex, the channel and the context have no data of their own: their use is recorded as
events. -/
structure simpleLBResolver where
  cc : Nat
  serviceName : String
  puller : Nat
  lastAddress : List Address
  interval : Int
  deriving DecidableEq, Repr

/-- The surroundings of one call of the closure `updateAddresses`: those of its
`retryWithJitter` call, and what `cc.UpdateState` returns if it is called. -/
structure CycleEnv where
  retry : RetryEnv
  updateResult : Option GoError

/-- What one piece of an engine did: the state it left, the events it produced in order,
and whether it ended in a panic. -/
structure StepResult (σ : Type) where
  state : σ
  events : List Event
  panicked : Bool := false

/-- Lines 114-130 of `simplelb.go`: the part of `updateAddresses` that follows a successful
acquisition of `addresses`. -/
def simpleLBResolver.diffPublish (s : simpleLBResolver) (addresses : List Address)
    (updateResult : Option GoError) : StepResult simpleLBResolver :=
  let (diff1, diff2) := Difference s.lastAddress addresses
  if diff1.length != 0 || diff2.length != 0 then
    let s1 := { s with lastAddress := addresses }
    let resolverAddresses := toResolverAddresses addresses
    let newState : ResolverState := { Addresses := resolverAddresses }
    match updateResult with
    | some err =>
      { state := s1
        events := [.lock, .updateState newState, .logError "can not update state",
          .reportError err, .logInfo "successfully update the state", .unlock] }
    | none =>
      { state := s1
        events := [.lock, .updateState newState, .logInfo "successfully update the state",
          .unlock] }
  else
    { state := s, events := [] }

/-- The closure `updateAddresses` of `simpleLBResolver.run`, continued from what its call
`retryWithJitter(s.ctx, 3, time.Second, s.serviceName, s.puller)` produced. -/
def simpleLBResolver.afterRetry (s : simpleLBResolver) (updateResult : Option GoError) :
    List Event × RetryOutcome → StepResult simpleLBResolver
  | (evs, .panicked) => { state := s, events := evs, panicked := true }
  | (evs, .returned _ (some err)) =>
    { state := s, events := evs ++ [.logError "can not pull addresses", .reportError err] }
  | (evs, .returned addresses none) =>
    let r := s.diffPublish addresses updateResult
    { state := r.state, events := evs ++ r.events }

/-- The closure `updateAddresses` of `simpleLBResolver.run`. -/
def simpleLBResolver.updateAddresses (s : simpleLBResolver) (env : CycleEnv) :
    StepResult simpleLBResolver :=
  s.afterRetry env.updateResult (retryWithJitter env.retry 3 second s.serviceName)

/-- What a background task did: the state it left, the events of each of its steps, whether
it ended in a panic, and the events of its exit. -/
structure RunResult (σ : Type) where
  state : σ
  steps : List (List Event)
  panicked : Bool
  exit : List Event

/-- The whole trace of a background task. -/
def RunResult.trace {σ : Type} (r : RunResult σ) : List Event :=
  r.steps.flatten ++ r.exit

/-- The loop `for { select { case <-s.ctx.Done(): return; case <-ticker.C: updateAddresses() } }`:
one cycle per tick of the script, then the context is done. Each step is one call of
`updateAddresses`. -/
def simpleLBResolver.tickLoop (s : simpleLBResolver) :
    List CycleEnv → simpleLBResolver × List (List Event) × Bool
  | [] => (s, [], false)
  | env :: rest =>
    let r := s.updateAddresses env
    if r.panicked then (r.state, [r.events], true)
    else
      let t := simpleLBResolver.tickLoop r.state rest
      (t.1, r.events :: t.2.1, t.2.2)

/-- The method `simpleLBResolver.run`: the initial call of `updateAddresses`, then
`time.NewTicker(s.interval)`, which panics for an interval that is not positive, then the
tick loop. The deferred send on `doneCh` runs on every way out. -/
def simpleLBResolver.run (s : simpleLBResolver) (first : CycleEnv) (ticks : List CycleEnv) :
    RunResult simpleLBResolver :=
  let r := s.updateAddresses first
  if r.panicked then
    { state := r.state, steps := [r.events], panicked := true, exit := [.done] }
  else if s.interval ≤ 0 then
    { state := r.state, steps := [r.events], panicked := true, exit := [.done] }
  else
    let t := simpleLBResolver.tickLoop r.state ticks
    { state := t.1, steps := r.events :: t.2.1, panicked := t.2.2, exit := [.done] }

/-- The struct `SimpleLBBuilder`; `puller` names the injected collaborator. -/
structure SimpleLBBuilder where
  puller : Nat
  interval : Int
  deriving DecidableEq, Repr

/-- The two return values of a `Build`, and the events of the call. -/
structure BuildResult (σ : Type) where
  resolver : Option σ
  err : Option GoError
  events : List Event

/-- The method `SimpleLBBuilder.Build`; `host` is `target.URL.Host`. -/
def SimpleLBBuilder.Build (b : SimpleLBBuilder) (host : String) (cc : Nat) :
    BuildResult simpleLBResolver :=
  let service := host
  if service == "" then
    { resolver := none, err := some "empty service name in target",
      events := [.logError "empty service name"] }
  else
    let spResolver : simpleLBResolver :=
      { serviceName := service, cc := cc, puller := b.puller, lastAddress := [],
        interval := b.interval }
    { resolver := some spResolver, err := none, events := [.spawn] }

/-! ## The watch engine (`simplelb_watcher.go`) -/

/-- The struct `simpleLBWatcherResolver`; `cc` and `watcher` name the injected
collaborators. -/
structure simpleLBWatcherResolver where
  cc : Nat
  serviceName : String
  watcher : Nat
  lastAddress : List Address
  interval : Int
  deriving DecidableEq, Repr

/-- Lines 125-142 of `simplelb_watcher.go`: what the consumption loop does with one batch
`addresses` received from the channel. -/
def simpleLBWatcherResolver.diffPublish (s : simpleLBWatcherResolver)
    (addresses : List Address) (updateResult : Option GoError) :
    StepResult simpleLBWatcherResolver :=
  let (diff1, diff2) := Difference s.lastAddress addresses
  if diff1.length != 0 || diff2.length != 0 then
    let s1 := { s with lastAddress := addresses }
    let resolverAddresses := toResolverAddresses addresses
    let newState : ResolverState := { Addresses := resolverAddresses }
    match updateResult with
    | some err =>
      { state := s1
        events := [.lock, .updateState newState, .logError "can not update state",
          .reportError err, .unlock] }
    | none =>
      { state := s1
        events := [.lock, .updateState newState, .logInfo "successfully update the state",
          .unlock] }
  else
    { state := s, events := [] }

/-- One batch delivered on the address channel, with what `cc.UpdateState` returns if it is
called for it. -/
abbrev Delivery := List Address × Option GoError

/-- How the consumption loop of one stream ends: the channel is closed, or the context is
done. -/
inductive StreamEnd where
  | closed
  | cancelled
  deriving DecidableEq, Repr

/-- One pass of the reconnection loop, as the surroundings decide it: `Watch` fails (and
the context is or is not cancelled during the delay that follows), or `Watch` returns a
channel that delivers `batches` and then ends. -/
inductive WatchAttempt where
  | openFailed (err : GoError) (cancelledInDelay : Bool)
  | opened (batches : List Delivery) (fin : StreamEnd)

/-- The consumption loop on the batches of one stream: one step per batch. -/
def simpleLBWatcherResolver.consume (s : simpleLBWatcherResolver) :
    List Delivery → simpleLBWatcherResolver × List (List Event)
  | [] => (s, [])
  | (addresses, updateResult) :: rest =>
    let r := s.diffPublish addresses updateResult
    let t := simpleLBWatcherResolver.consume r.state rest
    (t.1, r.events :: t.2)

/-- What one pass of the reconnection loop did: the events of opening the stream, the
events of each received batch, and the events after the stream ended. -/
structure AttemptRecord where
  openEvents : List Event
  batchEvents : List (List Event)
  closeEvents : List Event
  deriving DecidableEq, Repr

/-- The events of one pass, in order. -/
def AttemptRecord.events (a : AttemptRecord) : List Event :=
  a.openEvents ++ a.batchEvents.flatten ++ a.closeEvents

/-- The reconnection loop of `simpleLBWatcherResolver.run`: one pass per attempt of the
script; when the script is used up the context is done at the check that opens a pass. -/
def simpleLBWatcherResolver.reconnectLoop (s : simpleLBWatcherResolver) :
    List WatchAttempt → simpleLBWatcherResolver × List AttemptRecord
  | [] => (s, [])
  | .openFailed err cancelledInDelay :: rest =>
    let opening : List Event :=
      [.watch s.serviceName, .logError "failed to start watching addresses", .reportError err]
    if cancelledInDelay then
      (s, [{ openEvents := opening, batchEvents := [], closeEvents := [] }])
    else
      let t := simpleLBWatcherResolver.reconnectLoop s rest
      (t.1, { openEvents := opening ++ [.sleep second], batchEvents := [], closeEvents := [] }
        :: t.2)
  | .opened batches fin :: rest =>
    let c := s.consume batches
    match fin with
    | .cancelled =>
      (c.1, [{ openEvents := [.watch s.serviceName], batchEvents := c.2, closeEvents := [] }])
    | .closed =>
      let t := simpleLBWatcherResolver.reconnectLoop c.1 rest
      (t.1, { openEvents := [.watch s.serviceName], batchEvents := c.2,
              closeEvents := [.logWarn "address channel closed, attempting to reconnect...",
                .sleep second] } :: t.2)

/-- What the background task of the watch engine did: the state it left, the record of each
pass of the reconnection loop, and the events of its exit. -/
structure WatchRunResult where
  state : simpleLBWatcherResolver
  passes : List AttemptRecord
  exit : List Event

/-- The whole trace of the background task of the watch engine. -/
def WatchRunResult.trace (r : WatchRunResult) : List Event :=
  (r.passes.map AttemptRecord.events).flatten ++ r.exit

/-- The events of each received batch of a run, over all its streams, in order. -/
def WatchRunResult.batchSteps (r : WatchRunResult) : List (List Event) :=
  (r.passes.map AttemptRecord.batchEvents).flatten

/-- The method `simpleLBWatcherResolver.run`: the reconnection loop, with the deferred send
on `doneCh` on the way out. -/
def simpleLBWatcherResolver.run (s : simpleLBWatcherResolver) (script : List WatchAttempt) :
    WatchRunResult :=
  let t := s.reconnectLoop script
  { state := t.1, passes := t.2, exit := [.done] }

/-- The batches that one pass of a script delivers. -/
def WatchAttempt.batches : WatchAttempt → List Delivery
  | .openFailed _ _ => []
  | .opened batches _ => batches

/-- Whether the context is cancelled during one pass of a script. -/
def WatchAttempt.isCancelled : WatchAttempt → Bool
  | .openFailed _ cancelledInDelay => cancelledInDelay
  | .opened _ fin => fin == .cancelled

/-- The struct `SimpleLBWatcherBuilder`; `watcher` names the injected collaborator. -/
structure SimpleLBWatcherBuilder where
  watcher : Nat
  interval : Int
  deriving DecidableEq, Repr

/-- The method `SimpleLBWatcherBuilder.Build`; `host` is `target.URL.Host`. -/
def SimpleLBWatcherBuilder.Build (b : SimpleLBWatcherBuilder) (host : String) (cc : Nat) :
    BuildResult simpleLBWatcherResolver :=
  let service := host
  if service == "" then
    { resolver := none, err := some "empty service name in target",
      events := [.logError "empty service name"] }
  else
    let spResolver : simpleLBWatcherResolver :=
      { serviceName := service, cc := cc, watcher := b.watcher, lastAddress := [],
        interval := b.interval }
    { resolver := some spResolver, err := none, events := [.spawn] }

/-! ## Observers of a trace -/

/-- The arguments of the `cc.UpdateState` calls of a trace, in order. -/
def updateStateCalls : List Event → List ResolverState
  | [] => []
  | .updateState st :: rest => st :: updateStateCalls rest
  | _ :: rest => updateStateCalls rest

/-- The arguments of the `cc.ReportError` calls of a trace, in order. -/
def reportErrorCalls : List Event → List GoError
  | [] => []
  | .reportError err :: rest => err :: reportErrorCalls rest
  | _ :: rest => reportErrorCalls rest

/-- The number of `puller.Pull` calls of a trace. -/
def pullCalls : List Event → Nat
  | [] => 0
  | .pull _ :: rest => pullCalls rest + 1
  | _ :: rest => pullCalls rest

/-- The durations of the backoff waits of a trace that ran to their end, in order. -/
def waits : List Event → List Int
  | [] => []
  | .wait d :: rest => d :: waits rest
  | _ :: rest => waits rest

/-- The durations of the backoff waits that a trace chose, in order, whether the wait ran to
its end or was cut short by the cancellation of the context. -/
def chosenWaits : List Event → List Int
  | [] => []
  | .wait d :: rest => d :: chosenWaits rest
  | .cancelledWait d :: rest => d :: chosenWaits rest
  | _ :: rest => chosenWaits rest

/-- The addresses most recently passed to `cc.UpdateState` in a trace, and the empty list
when the trace has no such call. -/
def lastPublished (trace : List Event) : List Address :=
  match (updateStateCalls trace).getLast? with
  | some st => st.Addresses.map (fun a => a.Addr)
  | none => []

/-- The `resolver.State` that carries the batch `addresses` and nothing else. -/
def stateOf (addresses : List Address) : ResolverState :=
  { Addresses := addresses.map (fun ad =>
      { Addr := ad, ServerName := "", Attributes := none, BalancerAttributes := none,
        Metadata := none })
    Endpoints := [], ServiceConfig := none, Attributes := none }

/-- The calls on the client connection in a trace (`cc.UpdateState`, `cc.ReportError`), in
order. -/
def sinkCalls : List Event → List Event
  | [] => []
  | .updateState st :: rest => .updateState st :: sinkCalls rest
  | .reportError err :: rest => .reportError err :: sinkCalls rest
  | _ :: rest => sinkCalls rest

/-- The calls on the address source in a trace (`puller.Pull`, `watcher.Watch`), in order. -/
def sourceCalls : List Event → List Event
  | [] => []
  | .pull name :: rest => .pull name :: sourceCalls rest
  | .watch name :: rest => .watch name :: sourceCalls rest
  | _ :: rest => sourceCalls rest

/-! ## The backoff of `retryWithJitter` -/

/-- The value of the variable `backoff` of `retryWithJitter` at the attempt of index `i`, that
is after `i` completed waits: `initial`, doubled `i` times by `backoff *= 2` in `int64`. -/
def backoffAt (initial : Int) : Nat → Int
  | 0 => initial
  | i + 1 => wrap64 (backoffAt initial i * 2)

/-- The argument `int64(backoff / 2)` that `retryWithJitter` passes to `rand.Int63n` when the
attempt of index `i` fails. -/
def jitterBound (initial : Int) (i : Nat) : Int :=
  Int.tdiv (backoffAt initial i) 2

/-! ## `Close` -/

/-- The method `Close` of either resolver (`s.cancelFun()` followed by `<-s.doneCh`), against
the trace `task` of the background task. The receive on the unbuffered channel completes
together with the first send of the task, so `Close` returns exactly when the task has a
send (`some`), and the result is what the task still does after `Close` has returned;
without a send `Close` blocks for ever (`none`). -/
def Close (task : List Event) : Option (List Event) :=
  match task.dropWhile (fun e => e != Event.done) with
  | [] => none
  | _ :: rest => some rest

/-! ## The Kubernetes puller (`k8s_puller.go`) -/

/-- The type `corev1.EndpointAddress`, reduced to the field the code reads. -/
structure EndpointAddress where
  IP : String
  deriving DecidableEq, Repr

/-- The type `corev1.EndpointPort`, reduced to the field the code reads (an `int32`). -/
structure EndpointPort where
  Port : Int
  deriving DecidableEq, Repr

/-- The type `corev1.EndpointSubset`, reduced to the fields the code reads. -/
structure EndpointSubset where
  Addresses : List EndpointAddress
  Ports : List EndpointPort
  deriving DecidableEq, Repr

/-- The type `corev1.Endpoints`, reduced to the field the code reads. -/
structure Endpoints where
  Subsets : List EndpointSubset
  deriving DecidableEq, Repr

/-- The function `extractAddresses`: three nested `for ... range` loops that append to the
slice `addresses`; `fmt.Sprintf("%s:%d", addr.IP, port.Port)` is the IP, a colon and the port
in decimal. -/
def extractAddresses (endpoints : Endpoints) : List Address :=
  endpoints.Subsets.foldl
    (fun addresses subset =>
      subset.Addresses.foldl
        (fun addresses addr =>
          if subset.Ports.length > 0 then
            subset.Ports.foldl
              (fun addresses port => addresses ++ [addr.IP ++ ":" ++ toString port.Port])
              addresses
          else
            addresses ++ [addr.IP])
        addresses)
    []

/-- The method `K8sAddressPuller.Pull`; `get` is what
`k.client.CoreV1().Endpoints(k.namespace).Get(ctx, serviceName, ...)` returns. The error of a
failed `Get` is wrapped by `fmt.Errorf("failed to get endpoints for service %s: %w", ...)`. -/
def K8sAddressPuller.Pull (get : Except GoError Endpoints) (serviceName : String) :
    List Address × Option GoError :=
  match get with
  | .error err => ([], some ("failed to get endpoints for service " ++ serviceName ++ ": " ++ err))
  | .ok endpoints => (extractAddresses endpoints, none)

/-- The flattening of an `Endpoints` object in the words of its description: subsets in
order, the addresses of a subset in order, and for each address one entry `IP:port` per port
of the subset, in port order, or the single entry `IP` when the subset has no port. -/
def flattenedEndpoints (endpoints : Endpoints) : List Address :=
  endpoints.Subsets.flatMap (fun subset =>
    subset.Addresses.flatMap (fun addr =>
      if subset.Ports = [] then [addr.IP]
      else subset.Ports.map (fun port => addr.IP ++ ":" ++ toString port.Port)))

/-! ## Observers of a script -/

/-- The batch that a poll cycle acquires: the addresses that its call
`retryWithJitter(s.ctx, 3, time.Second, s.serviceName, s.puller)` returns with a nil error,
and nothing when the call returns an error. -/
def acquiredBatch (serviceName : String) (env : CycleEnv) : Option (List Address) :=
  match (retryWithJitter env.retry 3 second serviceName).2 with
  | .returned addresses none => some addresses
  | _ => none

/-- The cycles of a script that the background task of the poll engine gets to: the initial
one, and one per tick when `time.NewTicker` got a positive interval. -/
def simpleLBResolver.performedCycles (s : simpleLBResolver) (first : CycleEnv)
    (ticks : List CycleEnv) : List CycleEnv :=
  if s.interval ≤ 0 then [first] else first :: ticks

/-- The batches of a script that the consumption loop of the watch engine receives, in
order: those of every opened stream up to and including the first pass during which the
context is cancelled. -/
def receivedBatches : List WatchAttempt → List Delivery
  | [] => []
  | .openFailed _ cancelledInDelay :: rest =>
    if cancelledInDelay then [] else receivedBatches rest
  | .opened batches .cancelled :: _ => batches
  | .opened batches .closed :: rest => batches ++ receivedBatches rest

/-! ## Sample inputs -/

/-- A pull resolver as `Build` makes it for the host "test-service". -/
def exPoll : simpleLBResolver :=
  { cc := 1, serviceName := "test-service", puller := 2, lastAddress := [], interval := 10000000 }

/-- A watch resolver as `Build` makes it for the host "test-service". -/
def exWatch : simpleLBWatcherResolver :=
  { cc := 1, serviceName := "test-service", watcher := 2, lastAddress := [],
    interval := 10000000 }

/-- A puller that returns `addresses` at once, as the `DynamicPuller` of the tests. -/
def exPuller (addresses : List Address) : RetryEnv :=
  { pull := fun _ => .ok addresses, rand := fun _ => 0, cancelled := fun _ => false }

/-- A puller that fails at every call, a random source that returns `r`, no cancellation. -/
def exDown (r : Nat) : RetryEnv :=
  { pull := fun _ => .fail "unreachable", rand := fun _ => r, cancelled := fun _ => false }

/-- A puller that fails at every call, with the context cancelled during the wait that
follows the attempt of index `k`. -/
def exCancelAt (k : Nat) : RetryEnv :=
  { pull := fun _ => .fail "unreachable", rand := fun _ => 0, cancelled := fun i => i == k }

/-- A poll cycle whose first `Pull` returns `addresses`. -/
def exCycle (addresses : List Address) (updateResult : Option GoError) : CycleEnv :=
  { retry := exPuller addresses, updateResult := updateResult }

end SimpleLB

namespace Daogen

/-! ## The struct parser of `tools/daogen` (`parser.go`) -/

/-- A Go `error`, identified by its message. -/
abbrev GoError := String

/-- A type expression of `go/ast`, in the cases that `extractTypeString` tells apart; `other`
carries the name of the Go type of the node, which is what `%T` prints. -/
inductive Expr where
  | Ident (Name : String)
  | StarExpr (X : Expr)
  | SelectorExpr (X : Expr) (Sel : String)
  | ArrayType (Elt : Expr)
  | other (goType : String)
  deriving DecidableEq, Repr

/-- The function `extractTypeString`. -/
def extractTypeString : Expr → String
  | .Ident name => name
  | .StarExpr x => "*" ++ extractTypeString x
  | .SelectorExpr x sel => extractTypeString x ++ "." ++ sel
  | .ArrayType elt => "[]" ++ extractTypeString elt
  | .other goType => goType

/-- The type `ast.Field`: the declared names (none for an embedded field), the type, and the
text of the tag literal as written in the file (`field.Tag.Value`), if there is a tag. -/
structure Field where
  Names : List String
  Type_ : Expr
  Tag : Option String
  deriving DecidableEq, Repr

/-- The struct `FieldMetadata`. -/
structure FieldMetadata where
  FieldName : String
  FieldType : String
  ColumnName : String
  IsIdentifier : Bool
  IsMandatory : Bool
  IsUpdatable : Bool
  IsSkipped : Bool
  deriving DecidableEq, Repr

/-- The struct `StructMetadata`. -/
structure StructMetadata where
  StructName : String
  TableName : String
  Fields : List FieldMetadata
  deriving DecidableEq, Repr

/-- The type `ast.TypeSpec`: its name and, when its type is an `ast.StructType`, the list
`st.Fields.List`. -/
structure TypeSpec where
  Name : String
  Struct : Option (List Field)
  deriving DecidableEq, Repr

/-- The backquote character. -/
def backquote : Char := Char.ofNat 96

/-- The call `strings.Trim(s, cutset)` for a cutset of one character: `s` without its
leading and trailing occurrences of that character. -/
def Trim (s : String) (cutset : Char) : String :=
  String.mk (((s.toList.dropWhile (fun c => c == cutset)).reverse.dropWhile
    (fun c => c == cutset)).reverse)

/-- The metadata that the body of the loop over `field.Names` builds for one name, before the
test of `IsSkipped`. `Get tagStr key` is `reflect.StructTag(tagStr).Get(key)` of the standard
library, and `ToSnakeCase` is the helper of the package. -/
def fieldMetadata (Get : String → String → String) (ToSnakeCase : String → String)
    (field : Field) (name : String) : FieldMetadata :=
  let fMeta : FieldMetadata :=
    { FieldName := name, FieldType := "", ColumnName := "", IsIdentifier := false,
      IsMandatory := false, IsUpdatable := false, IsSkipped := false }
  let fMeta := { fMeta with FieldType := extractTypeString field.Type_ }
  let fMeta :=
    match field.Tag with
    | some value =>
      let tagStr := Trim value backquote
      { fMeta with
        ColumnName := Get tagStr "sql-col"
        IsIdentifier := Get tagStr "sql-identifier" == "true"
        IsMandatory := Get tagStr "sql-insert" == "true"
        IsUpdatable := Get tagStr "sql-update" == "true"
        IsSkipped := Get tagStr "sql-skip" == "true" }
    | none => fMeta
  if fMeta.ColumnName == "" then { fMeta with ColumnName := ToSnakeCase name } else fMeta

/-- The loop `for _, field := range st.Fields.List` of `ParseStruct`, with its inner loop over
`field.Names`, appending to `metadata.Fields`. -/
def structFields (Get : String → String → String) (ToSnakeCase : String → String)
    (fields : List Field) : List FieldMetadata :=
  fields.foldl
    (fun acc field =>
      if field.Names.length == 0 then acc
      else
        field.Names.foldl
          (fun acc name =>
            let fMeta := fieldMetadata Get ToSnakeCase field name
            if !fMeta.IsSkipped then acc ++ [fMeta] else acc)
          acc)
    []

/-- The method `ASTParser.ParseStruct`. `file` is what `parser.ParseFile` returns: an error,
or the type specifications of the file in the order in which `ast.Inspect` visits them. The
callback sets `metadata` anew at every specification of the wanted name whose type is a
struct type, so the last such specification is the one returned. -/
def ParseStruct (Get : String → String → String) (ToSnakeCase : String → String)
    (file : Except GoError (List TypeSpec)) (filename structName tableName : String) :
    Except GoError StructMetadata :=
  match file with
  | .error err => .error ("failed to parse file: " ++ err)
  | .ok specs =>
    let metadata : Option StructMetadata :=
      specs.foldl
        (fun metadata ts =>
          if ts.Name != structName then metadata
          else
            match ts.Struct with
            | none => metadata
            | some fields =>
              some { StructName := structName
                     TableName := if tableName == "" then ToSnakeCase structName else tableName
                     Fields := structFields Get ToSnakeCase fields })
        none
    match metadata with
    | none => .error ("struct " ++ structName ++ " not found in file " ++ filename)
    | some m => .ok m

/-- The value of the tag `key` of a field, as `ParseStruct` reads it: `Get` on the tag literal
without its backquotes, and the empty string for a field without a tag. -/
def tagValue (Get : String → String → String) (field : Field) (key : String) : String :=
  match field.Tag with
  | some value => Get (Trim value backquote) key
  | none => ""

/-- The field list in the words of its description: the declared names in declaration order
(a declaration with several names gives each of them, an embedded field gives none), without
those whose tag `sql-skip` is "true"; the column is the tag `sql-col` when it is not empty and
the snake case of the field name otherwise, and the three flags tell whether the tags
`sql-identifier`, `sql-insert` and `sql-update` are "true". -/
def describedFields (Get : String → String → String) (ToSnakeCase : String → String)
    (fields : List Field) : List FieldMetadata :=
  ((fields.flatMap (fun field => field.Names.map (fun name => (field, name)))).filter
    (fun p => tagValue Get p.1 "sql-skip" != "true")).map
    (fun p =>
      { FieldName := p.2
        FieldType := extractTypeString p.1.Type_
        ColumnName :=
          if tagValue Get p.1 "sql-col" != "" then tagValue Get p.1 "sql-col"
          else ToSnakeCase p.2
        IsIdentifier := tagValue Get p.1 "sql-identifier" == "true"
        IsMandatory := tagValue Get p.1 "sql-insert" == "true"
        IsUpdatable := tagValue Get p.1 "sql-update" == "true"
        IsSkipped := false })

/-! ## Sample inputs -/

/-- The tags of the struct `TestUser` of `TestParseStruct`, as `reflect.StructTag.Get` reads
them. -/
def exGet (tagStr key : String) : String :=
  if tagStr == "sql-col:\"id\" sql-identifier:\"true\"" then
    (if key == "sql-col" then "id" else if key == "sql-identifier" then "true" else "")
  else if tagStr == "sql-col:\"name\" sql-insert:\"true\"" then
    (if key == "sql-col" then "name" else if key == "sql-insert" then "true" else "")
  else if tagStr == "sql-col:\"email\" sql-update:\"true\"" then
    (if key == "sql-col" then "email" else if key == "sql-update" then "true" else "")
  else if tagStr == "sql-skip:\"true\"" then
    (if key == "sql-skip" then "true" else "")
  else ""

/-- The snake case of the field names of `TestUser`, as the tests of `ToSnakeCase` give it. -/
def exSnake (name : String) : String :=
  if name == "OtherField" then "other_field"
  else if name == "FirstName" then "first_name"
  else if name == "ID" then "id"
  else name

/-- The struct `TestUser` of `TestParseStruct`. -/
def exTestUser : TypeSpec :=
  { Name := "TestUser"
    Struct := some
      [ { Names := ["ID"], Type_ := .Ident "int64",
          Tag := some "`sql-col:\"id\" sql-identifier:\"true\"`" },
        { Names := ["Name"], Type_ := .Ident "string",
          Tag := some "`sql-col:\"name\" sql-insert:\"true\"`" },
        { Names := ["Email"], Type_ := .Ident "string",
          Tag := some "`sql-col:\"email\" sql-update:\"true\"`" },
        { Names := ["Age"], Type_ := .Ident "int", Tag := some "`sql-skip:\"true\"`" },
        { Names := ["OtherField"], Type_ := .Ident "string", Tag := none } ] }

/-- The metadata that `TestParseStruct` expects for `TestUser` and the table "users". -/
def exTestUserMetadata : StructMetadata :=
  { StructName := "TestUser"
    TableName := "users"
    Fields :=
      [ { FieldName := "ID", FieldType := "int64", ColumnName := "id", IsIdentifier := true,
          IsMandatory := false, IsUpdatable := false, IsSkipped := false },
        { FieldName := "Name", FieldType := "string", ColumnName := "name",
          IsIdentifier := false, IsMandatory := true, IsUpdatable := false,
          IsSkipped := false },
        { FieldName := "Email", FieldType := "string", ColumnName := "email",
          IsIdentifier := false, IsMandatory := false, IsUpdatable := true,
          IsSkipped := false },
        { FieldName := "OtherField", FieldType := "string", ColumnName := "other_field",
          IsIdentifier := false, IsMandatory := false, IsUpdatable := false,
          IsSkipped := false } ] }

end Daogen

namespace RateLimiter

/-! ## The Redis token bucket (`redis_ratelimiter.go`) -/

/-- A Go `error`, identified by its message. -/
abbrev GoError := String

/-- The operations on Lua numbers that `tokenBucketScript` uses: the constants `0` and `1`,
`+`, `-`, `*`, `math.min`, `math.max` and `>=`. Nothing is assumed about them, so what is
proved of the script holds for the floating-point arithmetic of Lua as for any other. -/
structure LuaArith (α : Type) where
  zero : α
  one : α
  add : α → α → α
  sub : α → α → α
  mul : α → α → α
  min : α → α → α
  max : α → α → α
  ge : α → α → Bool

/-- What one run of `tokenBucketScript` does: the values it passes to `HMSET` for the fields
`tokens` and `last_refill`, the seconds it passes to `EXPIRE`, and the value it returns. -/
structure ScriptRun (α : Type) where
  tokens : α
  last_refill : α
  expire : Int
  allowed : Int
  deriving DecidableEq, Repr

/-- The Lua script `tokenBucketScript`. `data` is `tonumber(data[1])` and `tonumber(data[2])`
of the `HMGET` reply, `none` for a field that the hash does not hold; `now`, `rate` and
`capacity` are `tonumber(ARGV[1..3])`. Arithmetic on a `last_refill` that is nil while
`tokens` is not raises a Lua error. -/
def tokenBucketScript {α : Type} (A : LuaArith α) (data : Option α × Option α)
    (now rate capacity : α) : Except GoError (ScriptRun α) :=
  let tokens := data.1
  let last_refill := data.2
  let (tokens, last_refill) :=
    match tokens with
    | none => (capacity, some now)
    | some t => (t, last_refill)
  match last_refill with
  | none => .error "attempt to perform arithmetic on a nil value"
  | some last_refill =>
    let elapsed := A.max A.zero (A.sub now last_refill)
    let refill := A.mul elapsed rate
    let tokens := A.min capacity (A.add tokens refill)
    let (tokens, allowed) :=
      if A.ge tokens A.one then (A.sub tokens A.one, (1 : Int)) else (tokens, (0 : Int))
    .ok { tokens := tokens, last_refill := now, expire := 3600, allowed := allowed }

/-- The method `RedisTokenBucket.Allow`; `result` is what
`tokenBucketScript.Run(...).Result()` returns: an error, or the integer reply of the script. -/
def RedisTokenBucket.Allow (result : Except GoError Int) : Bool × Option GoError :=
  match result with
  | .error err => (false, some err)
  | .ok result => (result == 1, none)

/-! ## Sample inputs -/

/-- The operations of `LuaArith` on whole numbers. -/
def exArith : LuaArith Int :=
  { zero := 0, one := 1, add := fun a b => a + b, sub := fun a b => a - b,
    mul := fun a b => a * b, min := fun a b => if a ≤ b then a else b,
    max := fun a b => if a ≤ b then b else a, ge := fun a b => decide (b ≤ a) }

end RateLimiter

namespace SimpleLB

/-! # Theorems -/

/-! ## The change test -/

theorem changed_eq_false_iff (old new : List Address) :
    changed old new = false ↔ ∀ a, a ∈ old ↔ a ∈ new := by
  simp only [changed, Difference]
  simp [List.filter_eq_nil_iff]
  constructor
  · rintro ⟨h1, h2⟩ a
    exact ⟨h1 a, h2 a⟩
  · intro h
    exact ⟨fun a ha => (h a).1 ha, fun a ha => (h a).2 ha⟩

theorem changed_eq_true_iff (old new : List Address) :
    changed old new = true ↔ old.toFinset ≠ new.toFinset := by
  rw [← Bool.not_eq_false, Ne, changed_eq_false_iff]
  simp [Finset.ext_iff]

/-- C1: the change test of both engines is false exactly when the two address lists have
the same members, whatever the order and the repetitions; so it is false on `[A,A,B]`,
`[B,A]` and true on `[A,B]`, `[A,C]`. -/
theorem C1_changed_iff_sets_differ (old new : List Address) :
    (changed old new = false ↔ ∀ a, a ∈ old ↔ a ∈ new) ∧
    (changed old new = true ↔ old.toFinset ≠ new.toFinset) ∧
    changed ["A", "A", "B"] ["B", "A"] = false ∧
    changed ["A", "B"] ["A", "C"] = true :=
  ⟨changed_eq_false_iff old new, changed_eq_true_iff old new, by decide, by decide⟩

/-! ## Build -/

/-- C3: both `Build` methods fail exactly for an empty host. For an empty host they return
no resolver and the error "empty service name in target", start no task and call neither
`Pull` nor `Watch`; for any other host, whatever the builder and the connection, they
return a resolver bound to that host and no error, and start exactly one task. -/
theorem C3_build_fails_iff_empty_host (b : SimpleLBBuilder) (bw : SimpleLBWatcherBuilder)
    (host : String) (cc : Nat) :
    ((b.Build host cc).err ≠ none ↔ host = "") ∧
    ((bw.Build host cc).err ≠ none ↔ host = "") ∧
    (host = "" →
      (b.Build host cc).resolver = none ∧
      (b.Build host cc).err = some "empty service name in target" ∧
      (b.Build host cc).events.count .spawn = 0 ∧
      pullCalls (b.Build host cc).events = 0 ∧
      (bw.Build host cc).resolver = none ∧
      (bw.Build host cc).err = some "empty service name in target" ∧
      (bw.Build host cc).events.count .spawn = 0 ∧
      (∀ n, Event.watch n ∉ (bw.Build host cc).events)) ∧
    (host ≠ "" →
      (∃ r, (b.Build host cc).resolver = some r ∧ r.serviceName = host ∧ r.cc = cc ∧
        r.lastAddress = []) ∧
      (b.Build host cc).err = none ∧
      (b.Build host cc).events.count .spawn = 1 ∧
      (∃ r, (bw.Build host cc).resolver = some r ∧ r.serviceName = host ∧ r.cc = cc ∧
        r.lastAddress = []) ∧
      (bw.Build host cc).err = none ∧
      (bw.Build host cc).events.count .spawn = 1) := by
  by_cases h : host = ""
  · subst h
    simp [SimpleLBBuilder.Build, SimpleLBWatcherBuilder.Build, pullCalls]
  · simp [SimpleLBBuilder.Build, SimpleLBWatcherBuilder.Build, h]

/-- C3 at the empty host and at the host "test-service". -/
theorem C3_build_witness :
    ((SimpleLBBuilder.Build ⟨7, 0⟩ "" 1).resolver = none ∧
      (SimpleLBBuilder.Build ⟨7, 0⟩ "" 1).err = some "empty service name in target" ∧
      (SimpleLBWatcherBuilder.Build ⟨8, 10⟩ "" 1).resolver = none) ∧
    ((SimpleLBBuilder.Build ⟨7, 0⟩ "test-service" 1).err = none ∧
      (SimpleLBBuilder.Build ⟨7, 0⟩ "test-service" 1).events.count .spawn = 1) := by
  have h1 := (C3_build_fails_iff_empty_host ⟨7, 0⟩ ⟨8, 10⟩ "" 1).2.2.1 rfl
  have h2 := (C3_build_fails_iff_empty_host ⟨7, 0⟩ ⟨8, 10⟩ "test-service" 1).2.2.2 (by decide)
  exact ⟨⟨h1.1, h1.2.1, h1.2.2.2.2.1⟩, ⟨h2.2.1, h2.2.2.1⟩⟩

/-! ## Traces -/

theorem updateStateCalls_append (xs ys : List Event) :
    updateStateCalls (xs ++ ys) = updateStateCalls xs ++ updateStateCalls ys := by
  induction xs with
  | nil => rfl
  | cons x xs ih => cases x <;> simp [updateStateCalls, ih]

theorem reportErrorCalls_append (xs ys : List Event) :
    reportErrorCalls (xs ++ ys) = reportErrorCalls xs ++ reportErrorCalls ys := by
  induction xs with
  | nil => rfl
  | cons x xs ih => cases x <;> simp [reportErrorCalls, ih]

theorem updateStateCalls_flatten (xss : List (List Event)) :
    updateStateCalls xss.flatten = (xss.map updateStateCalls).flatten := by
  induction xss with
  | nil => rfl
  | cons xs xss ih => simp [updateStateCalls_append, ih]

/-- A call of `retryWithJitter` makes no call on the client connection. -/
theorem retryLoop_no_sink_call (env : RetryEnv) (name : String) (left i : Nat) (backoff : Int) :
    updateStateCalls (retryLoop env name left i backoff).1 = [] ∧
    reportErrorCalls (retryLoop env name left i backoff).1 = [] := by
  induction left generalizing i backoff with
  | zero => simp [retryLoop, updateStateCalls, reportErrorCalls]
  | succ left ih =>
    unfold retryLoop
    cases env.pull i with
    | ok addresses => simp [updateStateCalls, reportErrorCalls]
    | fail err =>
      cases Int63n (env.rand i) (Int.tdiv backoff 2) with
      | none => simp [updateStateCalls, reportErrorCalls]
      | some jitter =>
        cases env.cancelled i with
        | true => simp [updateStateCalls, reportErrorCalls]
        | false => simpa [updateStateCalls, reportErrorCalls] using ih (i + 1) _

/-! ## The diff-and-publish step -/

theorem toResolverAddresses_eq (addresses : List Address) :
    ({ Addresses := toResolverAddresses addresses } : ResolverState) = stateOf addresses := rfl

theorem poll_diffPublish_state (s : simpleLBResolver) (b : List Address) (u : Option GoError) :
    (s.diffPublish b u).state =
      if changed s.lastAddress b then { s with lastAddress := b } else s := by
  simp only [simpleLBResolver.diffPublish, changed]
  split <;> [skip; rfl]
  cases u <;> rfl

theorem poll_diffPublish_updates (s : simpleLBResolver) (b : List Address)
    (u : Option GoError) :
    updateStateCalls (s.diffPublish b u).events =
      if changed s.lastAddress b then [stateOf b] else [] := by
  simp only [simpleLBResolver.diffPublish, changed]
  split <;> [skip; rfl]
  cases u <;> rfl

theorem poll_diffPublish_reports (s : simpleLBResolver) (b : List Address)
    (u : Option GoError) :
    reportErrorCalls (s.diffPublish b u).events =
      if changed s.lastAddress b then u.toList else [] := by
  simp only [simpleLBResolver.diffPublish, changed]
  split <;> [skip; rfl]
  cases u <;> rfl

theorem watch_diffPublish_state (s : simpleLBWatcherResolver) (b : List Address)
    (u : Option GoError) :
    (s.diffPublish b u).state =
      if changed s.lastAddress b then { s with lastAddress := b } else s := by
  simp only [simpleLBWatcherResolver.diffPublish, changed]
  split <;> [skip; rfl]
  cases u <;> rfl

theorem watch_diffPublish_updates (s : simpleLBWatcherResolver) (b : List Address)
    (u : Option GoError) :
    updateStateCalls (s.diffPublish b u).events =
      if changed s.lastAddress b then [stateOf b] else [] := by
  simp only [simpleLBWatcherResolver.diffPublish, changed]
  split <;> [skip; rfl]
  cases u <;> rfl

theorem watch_diffPublish_reports (s : simpleLBWatcherResolver) (b : List Address)
    (u : Option GoError) :
    reportErrorCalls (s.diffPublish b u).events =
      if changed s.lastAddress b then u.toList else [] := by
  simp only [simpleLBWatcherResolver.diffPublish, changed]
  split <;> [skip; rfl]
  cases u <;> rfl

/-- A poll cycle whose acquisition succeeded with `b` is the diff-and-publish step on `b`,
after the events of the acquisition. -/
theorem updateAddresses_of_acquired (s : simpleLBResolver) (env : CycleEnv) (b : List Address)
    (h : (retryWithJitter env.retry 3 second s.serviceName).2 = .returned b none) :
    (s.updateAddresses env).state = (s.diffPublish b env.updateResult).state ∧
    (s.updateAddresses env).events =
      (retryWithJitter env.retry 3 second s.serviceName).1 ++
        (s.diffPublish b env.updateResult).events ∧
    (s.updateAddresses env).panicked = false := by
  unfold simpleLBResolver.updateAddresses
  generalize retryWithJitter env.retry 3 second s.serviceName = r at h ⊢
  obtain ⟨evs, out⟩ := r
  simp only at h
  subst h
  simp [simpleLBResolver.afterRetry]

theorem updateAddresses_updates_of_acquired (s : simpleLBResolver) (env : CycleEnv)
    (b : List Address)
    (h : (retryWithJitter env.retry 3 second s.serviceName).2 = .returned b none) :
    updateStateCalls (s.updateAddresses env).events =
      if changed s.lastAddress b then [stateOf b] else [] := by
  rw [(updateAddresses_of_acquired s env b h).2.1, updateStateCalls_append,
    poll_diffPublish_updates]
  simp [retryWithJitter, (retryLoop_no_sink_call _ _ _ _ _).1]

theorem stateOf_addrs (b : List Address) :
    (stateOf b).Addresses.map (fun a => a.Addr) = b := by
  simp [stateOf, Function.comp_def]

/-- A poll cycle calls `cc.UpdateState` only after an acquisition that succeeded. -/
theorem updateAddresses_updates_cases (s : simpleLBResolver) (env : CycleEnv) :
    (∃ b, (retryWithJitter env.retry 3 second s.serviceName).2 = .returned b none) ∨
    updateStateCalls (s.updateAddresses env).events = [] := by
  unfold simpleLBResolver.updateAddresses
  have hno := (retryLoop_no_sink_call env.retry s.serviceName (3 : Int).toNat 0 second).1
  change updateStateCalls (retryWithJitter env.retry 3 second s.serviceName).1 = [] at hno
  generalize retryWithJitter env.retry 3 second s.serviceName = r at hno ⊢
  obtain ⟨evs, out⟩ := r
  cases out with
  | panicked => right; simpa [simpleLBResolver.afterRetry] using hno
  | returned addresses err =>
    cases err with
    | none => left; exact ⟨addresses, rfl⟩
    | some e =>
      right
      simp only at hno
      simp [simpleLBResolver.afterRetry, updateStateCalls_append, hno, updateStateCalls]

/-- C4: every `UpdateState` call of a poll cycle or of a watch step carries the state whose
`Addresses` are the acquired batch mapped element by element (`Addr` the address, every
other field zero), in the order and with the length of the batch, and whose other fields
are zero. -/
theorem C4_published_content_and_order (s : simpleLBResolver) (env : CycleEnv)
    (w : simpleLBWatcherResolver) (b : List Address) (u : Option GoError)
    (st : ResolverState) :
    (st ∈ updateStateCalls (s.updateAddresses env).events →
      ∃ acquired, (retryWithJitter env.retry 3 second s.serviceName).2 = .returned acquired none ∧
        st = stateOf acquired ∧ st.Addresses.length = acquired.length ∧
        st.Addresses.map (fun a => a.Addr) = acquired) ∧
    (st ∈ updateStateCalls (w.diffPublish b u).events →
      st = stateOf b ∧ st.Addresses.length = b.length ∧
        st.Addresses.map (fun a => a.Addr) = b) := by
  constructor
  · intro hst
    rcases updateAddresses_updates_cases s env with ⟨acq, hacq⟩ | hnone
    · rw [updateAddresses_updates_of_acquired s env acq hacq] at hst
      split at hst
      · simp only [List.mem_singleton] at hst
        subst hst
        exact ⟨acq, hacq, rfl, by simp [stateOf], stateOf_addrs acq⟩
      · simp at hst
    · rw [hnone] at hst
      simp at hst
  · intro hst
    rw [watch_diffPublish_updates] at hst
    split at hst
    · simp only [List.mem_singleton] at hst
      subst hst
      exact ⟨rfl, by simp [stateOf], stateOf_addrs b⟩
    · simp at hst

/-- C4 on the two batches of `TestSimpleLBRun` and of the watcher test. -/
theorem C4_published_content_witness :
    (∃ acquired,
      (retryWithJitter
        { pull := fun _ => .ok ["127.0.0.1:8080", "127.0.0.1:8081"], rand := fun _ => 0,
          cancelled := fun _ => false } 3 second "test-service").2 = .returned acquired none ∧
      stateOf ["127.0.0.1:8080", "127.0.0.1:8081"] = stateOf acquired ∧
      (stateOf ["127.0.0.1:8080", "127.0.0.1:8081"]).Addresses.length = acquired.length ∧
      (stateOf ["127.0.0.1:8080", "127.0.0.1:8081"]).Addresses.map (fun a => a.Addr) =
        acquired) ∧
    (stateOf ["1.2.3.4:80"] = stateOf ["1.2.3.4:80"] ∧
      (stateOf ["1.2.3.4:80"]).Addresses.length = 1 ∧
      (stateOf ["1.2.3.4:80"]).Addresses.map (fun a => a.Addr) = ["1.2.3.4:80"]) :=
  ⟨(C4_published_content_and_order
      { cc := 1, serviceName := "test-service", puller := 2, lastAddress := [], interval := 10 }
      { retry := { pull := fun _ => .ok ["127.0.0.1:8080", "127.0.0.1:8081"],
                   rand := fun _ => 0, cancelled := fun _ => false },
        updateResult := none }
      { cc := 1, serviceName := "test-service", watcher := 2, lastAddress := [], interval := 10 }
      ["1.2.3.4:80"] none (stateOf ["127.0.0.1:8080", "127.0.0.1:8081"])).1 (by decide),
   (C4_published_content_and_order
      { cc := 1, serviceName := "test-service", puller := 2, lastAddress := [], interval := 10 }
      { retry := { pull := fun _ => .ok [], rand := fun _ => 0, cancelled := fun _ => false },
        updateResult := none }
      { cc := 1, serviceName := "test-service", watcher := 2, lastAddress := [], interval := 10 }
      ["1.2.3.4:80"] none (stateOf ["1.2.3.4:80"])).2 (by decide)⟩

/-- C6: a poll cycle whose `retryWithJitter` call returns an error makes exactly one
`ReportError` call, with that error, makes no `UpdateState` call, and leaves the resolver,
`lastAddress` included, as it was. -/
theorem C6_failed_cycle_leaves_state (s : simpleLBResolver) (env : CycleEnv)
    (addresses : List Address) (err : GoError)
    (h : (retryWithJitter env.retry 3 second s.serviceName).2 = .returned addresses (some err)) :
    reportErrorCalls (s.updateAddresses env).events = [err] ∧
    updateStateCalls (s.updateAddresses env).events = [] ∧
    (s.updateAddresses env).state = s ∧
    (s.updateAddresses env).state.lastAddress = s.lastAddress := by
  unfold simpleLBResolver.updateAddresses
  have hno := retryLoop_no_sink_call env.retry s.serviceName (3 : Int).toNat 0 second
  change updateStateCalls (retryWithJitter env.retry 3 second s.serviceName).1 = [] ∧
    reportErrorCalls (retryWithJitter env.retry 3 second s.serviceName).1 = [] at hno
  generalize retryWithJitter env.retry 3 second s.serviceName = r at hno h ⊢
  obtain ⟨evs, out⟩ := r
  simp only at h hno
  subst h
  simp [simpleLBResolver.afterRetry, updateStateCalls_append, reportErrorCalls_append, hno,
    updateStateCalls, reportErrorCalls]

/-- C6 on a puller that fails at each of the three attempts. -/
theorem C6_failed_cycle_witness :
    (retryWithJitter
      { pull := fun _ => .fail "unreachable", rand := fun _ => 0, cancelled := fun _ => false }
      3 second "svc").2 = .returned [] (some errRetryExhausted) ∧
    reportErrorCalls
      ((simpleLBResolver.updateAddresses
        { cc := 1, serviceName := "svc", puller := 2, lastAddress := ["a"], interval := 10 }
        { retry := { pull := fun _ => .fail "unreachable", rand := fun _ => 0,
                     cancelled := fun _ => false },
          updateResult := none }).events) = [errRetryExhausted] :=
  ⟨by decide,
   (C6_failed_cycle_leaves_state
      { cc := 1, serviceName := "svc", puller := 2, lastAddress := ["a"], interval := 10 }
      { retry := { pull := fun _ => .fail "unreachable", rand := fun _ => 0,
                   cancelled := fun _ => false },
        updateResult := none } [] errRetryExhausted (by decide)).1⟩

/-! ## Update suppression -/

theorem zipWith_pred_cons {β : Type} (f : List Address → List Address → β)
    (p b : List Address) (bs : List (List Address)) :
    List.zipWith f (p :: b :: bs) (b :: bs) = f p b :: List.zipWith f (b :: bs) bs := rfl

theorem sum_zipWith_indicator (xs ys : List (List Address)) :
    (List.zipWith (fun p b => if p.toFinset = b.toFinset then 0 else 1) xs ys).sum =
      (List.zip xs ys).countP (fun pb => decide (pb.1.toFinset ≠ pb.2.toFinset)) := by
  induction xs generalizing ys with
  | nil => simp
  | cons x xs ih =>
    cases ys with
    | nil => simp
    | cons y ys =>
      simp only [List.zipWith_cons_cons, List.sum_cons, List.zip_cons_cons, List.countP_cons, ih]
      by_cases h : x.toFinset = y.toFinset <;> simp [h, Nat.add_comm]

theorem length_updateStateCalls_flatten (xss : List (List Event)) :
    (updateStateCalls xss.flatten).length =
      (xss.map (fun evs => (updateStateCalls evs).length)).sum := by
  induction xss with
  | nil => rfl
  | cons xs xss ih => simp [updateStateCalls_append, ih]

theorem watch_consume_suppression (ds : List Delivery) :
    ∀ (s : simpleLBWatcherResolver) (prev : List Address),
      s.lastAddress.toFinset = prev.toFinset →
      ∃ prev1, (s.consume ds).1.lastAddress.toFinset = prev1.toFinset ∧
        (s.consume ds).1.serviceName = s.serviceName ∧
        ∀ ys, List.zipWith (fun p b => if p.toFinset = b.toFinset then 0 else 1)
            (prev :: (ds.map Prod.fst ++ ys)) (ds.map Prod.fst ++ ys) =
          (s.consume ds).2.map (fun evs => (updateStateCalls evs).length) ++
            List.zipWith (fun p b => if p.toFinset = b.toFinset then 0 else 1) (prev1 :: ys) ys := by
  induction ds with
  | nil => intro s prev hinv; exact ⟨prev, by simpa [simpleLBWatcherResolver.consume] using hinv⟩
  | cons d ds ih =>
    obtain ⟨b, u⟩ := d
    intro s prev hinv
    have hch : changed s.lastAddress b = true ↔ ¬ prev.toFinset = b.toFinset := by
      rw [changed_eq_true_iff, hinv]
    have hname1 : (s.diffPublish b u).state.serviceName = s.serviceName := by
      rw [watch_diffPublish_state]; split <;> rfl
    have hinv1 : (s.diffPublish b u).state.lastAddress.toFinset = b.toFinset := by
      rw [watch_diffPublish_state]
      by_cases hc : changed s.lastAddress b = true
      · simp [hc]
      · simp only [hc]
        by_contra hne
        exact hc ((changed_eq_true_iff _ _).2 hne)
    obtain ⟨prev1, h1, h2, h3⟩ := ih (s.diffPublish b u).state b hinv1
    refine ⟨prev1, by simpa [simpleLBWatcherResolver.consume] using h1,
      by simpa [simpleLBWatcherResolver.consume, hname1] using h2, ?_⟩
    intro ys
    simp only [simpleLBWatcherResolver.consume, List.map_cons, List.cons_append,
      zipWith_pred_cons, h3 ys, watch_diffPublish_updates]
    congr 1
    by_cases hc : prev.toFinset = b.toFinset
    · have : ¬ changed s.lastAddress b = true := fun h => hch.1 h hc
      simp [hc, this]
    · simp [hc, hch.2 hc]

theorem watch_reconnectLoop_frame (script : List WatchAttempt) :
    ∀ (s : simpleLBWatcherResolver), ∀ a ∈ (s.reconnectLoop script).2,
      updateStateCalls a.openEvents = [] ∧ updateStateCalls a.closeEvents = [] := by
  induction script with
  | nil => intro s a ha; simp [simpleLBWatcherResolver.reconnectLoop] at ha
  | cons x script ih =>
    intro s a ha
    cases x with
    | openFailed err c =>
      cases c with
      | true =>
        simp only [simpleLBWatcherResolver.reconnectLoop, if_true, List.mem_singleton] at ha
        subst ha
        simp [updateStateCalls]
      | false =>
        simp only [simpleLBWatcherResolver.reconnectLoop, Bool.false_eq_true, if_false,
          List.mem_cons] at ha
        rcases ha with ha | ha
        · subst ha
          simp [updateStateCalls]
        · exact ih s a ha
    | opened ds fin =>
      cases fin with
      | cancelled =>
        simp only [simpleLBWatcherResolver.reconnectLoop, List.mem_singleton] at ha
        subst ha
        simp [updateStateCalls]
      | closed =>
        simp only [simpleLBWatcherResolver.reconnectLoop, List.mem_cons] at ha
        rcases ha with ha | ha
        · subst ha
          simp [updateStateCalls]
        · exact ih _ a ha

theorem updateStateCalls_passes (passes : List AttemptRecord)
    (h : ∀ a ∈ passes, updateStateCalls a.openEvents = [] ∧ updateStateCalls a.closeEvents = []) :
    updateStateCalls (passes.map AttemptRecord.events).flatten =
      updateStateCalls (passes.map AttemptRecord.batchEvents).flatten.flatten := by
  induction passes with
  | nil => rfl
  | cons a passes ih =>
    have ha := h a (List.mem_cons_self _ _)
    have ih1 := ih (fun x hx => h x (List.mem_cons_of_mem _ hx))
    simp [AttemptRecord.events, updateStateCalls_append, ha.1, ha.2, ih1]

/-! ## No rollback -/

theorem lastPublished_append (pre evs : List Event) :
    lastPublished (pre ++ evs) =
      if updateStateCalls evs = [] then lastPublished pre else lastPublished evs := by
  unfold lastPublished
  rw [updateStateCalls_append]
  by_cases h : updateStateCalls evs = []
  · simp [h]
  · rw [if_neg h, List.getLast?_append]
    cases hl : (updateStateCalls evs).getLast? with
    | none => exact absurd (List.getLast?_eq_none_iff.1 hl) h
    | some st => simp

theorem lastPublished_step (pre evs : List Event) (old new : List Address)
    (hold : old = lastPublished pre)
    (h : (updateStateCalls evs = [] ∧ new = old) ∨
      (∃ b, updateStateCalls evs = [stateOf b] ∧ new = b)) :
    new = lastPublished (pre ++ evs) := by
  rw [lastPublished_append]
  rcases h with ⟨h1, h2⟩ | ⟨b, h1, h2⟩
  · rw [if_pos h1, h2, hold]
  · rw [if_neg (by rw [h1]; simp), h2]
    simp [lastPublished, h1, stateOf_addrs]

theorem poll_cycle_step (s : simpleLBResolver) (env : CycleEnv) :
    (updateStateCalls (s.updateAddresses env).events = [] ∧
      (s.updateAddresses env).state.lastAddress = s.lastAddress) ∨
    (∃ b, updateStateCalls (s.updateAddresses env).events = [stateOf b] ∧
      (s.updateAddresses env).state.lastAddress = b) := by
  have hno := (retryLoop_no_sink_call env.retry s.serviceName (3 : Int).toNat 0 second).1
  change updateStateCalls (retryWithJitter env.retry 3 second s.serviceName).1 = [] at hno
  unfold simpleLBResolver.updateAddresses
  generalize retryWithJitter env.retry 3 second s.serviceName = r at hno ⊢
  obtain ⟨evs, out⟩ := r
  simp only at hno
  cases out with
  | panicked => left; simp [simpleLBResolver.afterRetry, hno]
  | returned addresses err =>
    cases err with
    | some e =>
      left
      simp [simpleLBResolver.afterRetry, updateStateCalls_append, hno, updateStateCalls]
    | none =>
      simp only [simpleLBResolver.afterRetry, updateStateCalls_append, hno, List.nil_append,
        poll_diffPublish_updates, poll_diffPublish_state]
      by_cases hc : changed s.lastAddress addresses = true
      · right; exact ⟨addresses, by simp [hc]⟩
      · left; simp [hc]

theorem watch_batch_step (s : simpleLBWatcherResolver) (b : List Address)
    (u : Option GoError) :
    (updateStateCalls (s.diffPublish b u).events = [] ∧
      (s.diffPublish b u).state.lastAddress = s.lastAddress) ∨
    (∃ c, updateStateCalls (s.diffPublish b u).events = [stateOf c] ∧
      (s.diffPublish b u).state.lastAddress = c) := by
  rw [watch_diffPublish_updates, watch_diffPublish_state]
  by_cases hc : changed s.lastAddress b = true
  · right; exact ⟨b, by simp [hc]⟩
  · left; simp [hc]

theorem poll_tickLoop_lastPublished (envs : List CycleEnv) :
    ∀ (s : simpleLBResolver) (pre : List Event), s.lastAddress = lastPublished pre →
      (s.tickLoop envs).1.lastAddress = lastPublished (pre ++ (s.tickLoop envs).2.1.flatten) := by
  induction envs with
  | nil => intro s pre h; simpa [simpleLBResolver.tickLoop] using h
  | cons env envs ih =>
    intro s pre h
    have hstep := lastPublished_step pre (s.updateAddresses env).events _ _ h
      (poll_cycle_step s env)
    by_cases hp : (s.updateAddresses env).panicked = true
    · simpa [simpleLBResolver.tickLoop, hp] using hstep
    · have := ih (s.updateAddresses env).state (pre ++ (s.updateAddresses env).events) hstep
      simpa [simpleLBResolver.tickLoop, hp] using this

theorem lastPublished_nil : lastPublished [] = [] := rfl

theorem poll_run_lastPublished (s : simpleLBResolver) (first : CycleEnv)
    (ticks : List CycleEnv) (h0 : s.lastAddress = []) :
    (s.run first ticks).state.lastAddress = lastPublished (s.run first ticks).trace := by
  have hstep := lastPublished_step [] (s.updateAddresses first).events _ _
    (h0.trans lastPublished_nil.symm) (poll_cycle_step s first)
  rw [List.nil_append] at hstep
  rw [RunResult.trace, lastPublished_append]
  by_cases hp : (s.updateAddresses first).panicked = true
  · simpa [simpleLBResolver.run, hp, updateStateCalls] using hstep
  · by_cases hi : s.interval ≤ 0
    · simpa [simpleLBResolver.run, hp, hi, updateStateCalls] using hstep
    · have := poll_tickLoop_lastPublished ticks (s.updateAddresses first).state
        ([] ++ (s.updateAddresses first).events) (by simpa using hstep)
      simpa [simpleLBResolver.run, hp, hi, updateStateCalls] using this

theorem watch_consume_lastPublished (ds : List Delivery) :
    ∀ (s : simpleLBWatcherResolver) (pre : List Event), s.lastAddress = lastPublished pre →
      (s.consume ds).1.lastAddress = lastPublished (pre ++ (s.consume ds).2.flatten) := by
  induction ds with
  | nil => intro s pre h; simpa [simpleLBWatcherResolver.consume] using h
  | cons d ds ih =>
    obtain ⟨b, u⟩ := d
    intro s pre h
    have hstep := lastPublished_step pre (s.diffPublish b u).events _ _ h
      (watch_batch_step s b u)
    have := ih (s.diffPublish b u).state (pre ++ (s.diffPublish b u).events) hstep
    simpa [simpleLBWatcherResolver.consume] using this

theorem lastPublished_append_quiet (pre evs : List Event) (h : updateStateCalls evs = []) :
    lastPublished (pre ++ evs) = lastPublished pre := by
  rw [lastPublished_append, if_pos h]

theorem watch_reconnectLoop_lastPublished (script : List WatchAttempt) :
    ∀ (s : simpleLBWatcherResolver) (pre : List Event), s.lastAddress = lastPublished pre →
      (s.reconnectLoop script).1.lastAddress =
        lastPublished (pre ++ ((s.reconnectLoop script).2.map AttemptRecord.events).flatten) := by
  induction script with
  | nil => intro s pre h; simpa [simpleLBWatcherResolver.reconnectLoop] using h
  | cons a script ih =>
    intro s pre h
    cases a with
    | openFailed err c =>
      cases c with
      | true =>
        simp only [simpleLBWatcherResolver.reconnectLoop, if_true, List.map_cons, List.map_nil,
          List.flatten_cons, List.flatten_nil, List.append_nil, AttemptRecord.events]
        rw [lastPublished_append_quiet _ _ (by simp [updateStateCalls])]
        exact h
      | false =>
        have h1 : s.lastAddress = lastPublished (pre ++
            [.watch s.serviceName, .logError "failed to start watching addresses",
              .reportError err, .sleep second]) := by
          rw [lastPublished_append_quiet _ _ (by simp [updateStateCalls])]
          exact h
        have := ih s _ h1
        simpa [simpleLBWatcherResolver.reconnectLoop, AttemptRecord.events] using this
    | opened ds fin =>
      have h1 : s.lastAddress = lastPublished (pre ++ [.watch s.serviceName]) := by
        rw [lastPublished_append_quiet _ _ (by simp [updateStateCalls])]
        exact h
      have h2 := watch_consume_lastPublished ds s _ h1
      cases fin with
      | cancelled =>
        simpa [simpleLBWatcherResolver.reconnectLoop, AttemptRecord.events] using h2
      | closed =>
        have h3 : (s.consume ds).1.lastAddress = lastPublished
            ((pre ++ [.watch s.serviceName] ++ (s.consume ds).2.flatten) ++
              [.logWarn "address channel closed, attempting to reconnect...",
                .sleep second]) := by
          rw [lastPublished_append_quiet _ _ (by simp [updateStateCalls])]
          exact h2
        have := ih (s.consume ds).1 _ h3
        simpa [simpleLBWatcherResolver.reconnectLoop, AttemptRecord.events] using this

theorem watch_run_lastPublished (s : simpleLBWatcherResolver) (script : List WatchAttempt)
    (h0 : s.lastAddress = []) :
    (s.run script).state.lastAddress = lastPublished (s.run script).trace := by
  have := watch_reconnectLoop_lastPublished script s [] (h0.trans lastPublished_nil.symm)
  rw [WatchRunResult.trace, lastPublished_append_quiet _ _ (by simp [simpleLBWatcherResolver.run, updateStateCalls])]
  simpa [simpleLBWatcherResolver.run] using this

theorem poll_failed_publish_then_same (s : simpleLBResolver) (env1 env2 : CycleEnv)
    (b b2 : List Address) (e : GoError)
    (h1 : (retryWithJitter env1.retry 3 second s.serviceName).2 = .returned b none)
    (hch : changed s.lastAddress b = true) (hfail : env1.updateResult = some e)
    (h2 : (retryWithJitter env2.retry 3 second s.serviceName).2 = .returned b2 none)
    (hsame : ∀ a, a ∈ b ↔ a ∈ b2) :
    updateStateCalls (s.updateAddresses env1).events = [stateOf b] ∧
    reportErrorCalls (s.updateAddresses env1).events = [e] ∧
    (s.updateAddresses env1).state.lastAddress = b ∧
    updateStateCalls ((s.updateAddresses env1).state.updateAddresses env2).events = [] ∧
    ((s.updateAddresses env1).state.updateAddresses env2).state.lastAddress = b := by
  obtain ⟨hst, hev, _⟩ := updateAddresses_of_acquired s env1 b h1
  have hstate : (s.updateAddresses env1).state = { s with lastAddress := b } := by
    rw [hst, poll_diffPublish_state, if_pos hch]
  have hnot : changed b b2 = false := (changed_eq_false_iff b b2).2 hsame
  have h2s : (retryWithJitter env2.retry 3 second
      (s.updateAddresses env1).state.serviceName).2 = .returned b2 none := by
    rw [hstate]; exact h2
  obtain ⟨hst2, _, _⟩ := updateAddresses_of_acquired _ env2 b2 h2s
  refine ⟨?_, ?_, ?_, ?_, ?_⟩
  · rw [updateAddresses_updates_of_acquired s env1 b h1, if_pos hch]
  · rw [hev, reportErrorCalls_append, poll_diffPublish_reports, if_pos hch, hfail]
    simp [retryWithJitter, (retryLoop_no_sink_call _ _ _ _ _).2]
  · rw [hstate]
  · rw [updateAddresses_updates_of_acquired _ env2 b2 h2s, hstate]
    simp [hnot]
  · rw [hst2, poll_diffPublish_state, hstate]
    simp [hnot]

theorem watch_failed_publish_then_same (s : simpleLBWatcherResolver) (b b2 : List Address)
    (e : GoError) (u : Option GoError) (hch : changed s.lastAddress b = true)
    (hsame : ∀ a, a ∈ b ↔ a ∈ b2) :
    updateStateCalls (s.diffPublish b (some e)).events = [stateOf b] ∧
    reportErrorCalls (s.diffPublish b (some e)).events = [e] ∧
    (s.diffPublish b (some e)).state.lastAddress = b ∧
    updateStateCalls ((s.diffPublish b (some e)).state.diffPublish b2 u).events = [] ∧
    ((s.diffPublish b (some e)).state.diffPublish b2 u).state.lastAddress = b := by
  have hnot : changed b b2 = false := (changed_eq_false_iff b b2).2 hsame
  have hstate : (s.diffPublish b (some e)).state = { s with lastAddress := b } := by
    rw [watch_diffPublish_state, if_pos hch]
  refine ⟨?_, ?_, ?_, ?_, ?_⟩
  · rw [watch_diffPublish_updates, if_pos hch]
  · rw [watch_diffPublish_reports, if_pos hch]; rfl
  · rw [hstate]
  · rw [watch_diffPublish_updates, hstate]
    simp [hnot]
  · rw [watch_diffPublish_state, hstate]
    simp [hnot]

/-- C5: in every run of either engine that starts with an empty `lastAddress`, the
`lastAddress` left by the run is the batch of the most recent `UpdateState` call of the
trace, whatever that call returned, and is empty when the trace has no such call. So when
`UpdateState` fails on a batch, `lastAddress` is that batch all the same, and a batch with
the same members that comes next causes no `UpdateState` call. -/
theorem C5_no_rollback (sp : simpleLBResolver) (first : CycleEnv) (ticks : List CycleEnv)
    (sw : simpleLBWatcherResolver) (script : List WatchAttempt)
    (hp0 : sp.lastAddress = []) (hw0 : sw.lastAddress = []) :
    (sp.run first ticks).state.lastAddress = lastPublished (sp.run first ticks).trace ∧
    (sw.run script).state.lastAddress = lastPublished (sw.run script).trace ∧
    (∀ (s : simpleLBResolver) (env1 env2 : CycleEnv) (b b2 : List Address) (e : GoError),
      (retryWithJitter env1.retry 3 second s.serviceName).2 = .returned b none →
      changed s.lastAddress b = true → env1.updateResult = some e →
      (retryWithJitter env2.retry 3 second s.serviceName).2 = .returned b2 none →
      (∀ a, a ∈ b ↔ a ∈ b2) →
      updateStateCalls (s.updateAddresses env1).events = [stateOf b] ∧
      reportErrorCalls (s.updateAddresses env1).events = [e] ∧
      (s.updateAddresses env1).state.lastAddress = b ∧
      updateStateCalls ((s.updateAddresses env1).state.updateAddresses env2).events = [] ∧
      ((s.updateAddresses env1).state.updateAddresses env2).state.lastAddress = b) ∧
    (∀ (s : simpleLBWatcherResolver) (b b2 : List Address) (e : GoError) (u : Option GoError),
      changed s.lastAddress b = true → (∀ a, a ∈ b ↔ a ∈ b2) →
      updateStateCalls (s.diffPublish b (some e)).events = [stateOf b] ∧
      reportErrorCalls (s.diffPublish b (some e)).events = [e] ∧
      (s.diffPublish b (some e)).state.lastAddress = b ∧
      updateStateCalls ((s.diffPublish b (some e)).state.diffPublish b2 u).events = [] ∧
      ((s.diffPublish b (some e)).state.diffPublish b2 u).state.lastAddress = b) :=
  ⟨poll_run_lastPublished sp first ticks hp0, watch_run_lastPublished sw script hw0,
   fun s env1 env2 b b2 e h1 hch hfail h2 hsame =>
     poll_failed_publish_then_same s env1 env2 b b2 e h1 hch hfail h2 hsame,
   fun s b b2 e u hch hsame => watch_failed_publish_then_same s b b2 e u hch hsame⟩

/-- C5 on a run whose only `UpdateState` call, for `[A, B]`, fails and is followed by the
batch `[B, A]`. -/
theorem C5_no_rollback_witness :
    (simpleLBResolver.run exPoll (exCycle ["A", "B"] (some "rejected"))
      [exCycle ["B", "A"] none]).state.lastAddress = ["A", "B"] ∧
    (simpleLBWatcherResolver.run exWatch
      [.opened [(["A", "B"], some "rejected"), (["B", "A"], none)] .cancelled]).state.lastAddress
      = ["A", "B"] ∧
    updateStateCalls ((simpleLBResolver.updateAddresses exPoll
      (exCycle ["A", "B"] (some "rejected"))).state.updateAddresses
        (exCycle ["B", "A"] none)).events = [] ∧
    updateStateCalls ((simpleLBWatcherResolver.diffPublish exWatch ["A", "B"]
      (some "rejected")).state.diffPublish ["B", "A"] none).events = [] := by
  have h := C5_no_rollback exPoll (exCycle ["A", "B"] (some "rejected"))
    [exCycle ["B", "A"] none] exWatch
    [.opened [(["A", "B"], some "rejected"), (["B", "A"], none)] .cancelled] rfl rfl
  have hp := h.2.2.1 exPoll (exCycle ["A", "B"] (some "rejected")) (exCycle ["B", "A"] none)
    ["A", "B"] ["B", "A"] "rejected" (by decide) (by decide) rfl (by decide)
    ((changed_eq_false_iff _ _).1 (by decide))
  have hw := h.2.2.2 exWatch ["A", "B"] ["B", "A"] "rejected" none (by decide)
    ((changed_eq_false_iff _ _).1 (by decide))
  exact ⟨h.1.trans (by decide), h.2.1.trans (by decide), hp.2.2.2.1, hw.2.2.2.1⟩

/-! ## `retryWithJitter` -/

theorem wrap64_of_fit (x : Int) (h0 : 0 ≤ x) (h : x < 2 ^ 63) : wrap64 x = x := by
  unfold wrap64
  rw [Int.bmod_def]
  norm_num
  omega

theorem two_le_of_tdiv_pos (b : Int) (h : 0 < Int.tdiv b 2) : 2 ≤ b := by
  by_contra hlt
  rcases le_or_lt 0 b with h0 | h0
  · rw [Int.tdiv_eq_zero_of_lt h0 (by omega)] at h
    exact absurd h (by decide)
  · have h1 : 0 ≤ Int.tdiv (-b) 2 := Int.tdiv_nonneg (by omega) (by decide)
    rw [Int.neg_tdiv] at h1
    omega

theorem tdiv_two_of_two_le (b : Int) (h : 2 ≤ b) : Int.tdiv b 2 = b / 2 ∧ 0 < b / 2 := by
  refine ⟨Int.tdiv_eq_ediv (by omega) (by decide), ?_⟩
  omega

theorem Int63n_of_pos (r : Nat) (n : Int) (h : 0 < n) : Int63n r n = some ((r : Int) % n) := by
  simp [Int63n, not_le.mpr h]

theorem Int63n_eq_some (r : Nat) (n j : Int) (h : Int63n r n = some j) :
    0 < n ∧ j = (r : Int) % n := by
  unfold Int63n at h
  split at h
  · exact absurd h (by simp)
  · exact ⟨by omega, by simpa using h.symm⟩

theorem double_fits (b : Int) (m : Nat) (hb : 2 ≤ b) (h : b * 2 ^ (m + 1) < 2 ^ 63) :
    wrap64 (b * 2) = b * 2 ∧ 2 ≤ b * 2 ∧ b * 2 * 2 ^ m < 2 ^ 63 := by
  have hpow : (1 : Int) ≤ 2 ^ m := one_le_pow₀ (by decide)
  have h1 : b * 2 * 2 ^ m < 2 ^ 63 := by
    rw [pow_succ] at h
    linarith [mul_comm (2 ^ m : Int) 2, mul_assoc b (2 ^ m : Int) 2, mul_assoc b 2 (2 ^ m : Int)]
  have h2 : b * 2 ≤ b * 2 * 2 ^ m := le_mul_of_one_le_right (by omega) hpow
  exact ⟨wrap64_of_fit _ (by omega) (by omega), by omega, h1⟩

/-- Permanent failure: `left` pulls, `left` waits that run to their end, then the
exhaustion error, when no jitter bound is reached that is not positive. -/
theorem retryLoop_all_fail (env : RetryEnv) (name : String)
    (hc : ∀ j, env.cancelled j = false) :
    ∀ (left i : Nat) (backoff : Int), 2 ≤ backoff → backoff * 2 ^ (left - 1) < 2 ^ 63 →
      (∀ j, i ≤ j → j < i + left → ∃ e, env.pull j = .fail e) →
      (retryLoop env name left i backoff).2 = .returned [] (some errRetryExhausted) ∧
      pullCalls (retryLoop env name left i backoff).1 = left := by
  intro left
  induction left with
  | zero => intro i backoff _ _ _; simp [retryLoop, pullCalls]
  | succ left ih =>
    intro i backoff hb hfit hfail
    obtain ⟨e, he⟩ := hfail i (le_refl _) (by omega)
    obtain ⟨hdiv, hpos⟩ := tdiv_two_of_two_le backoff hb
    have hrec : (retryLoop env name left (i + 1) (wrap64 (backoff * 2))).2 =
        .returned [] (some errRetryExhausted) ∧
        pullCalls (retryLoop env name left (i + 1) (wrap64 (backoff * 2))).1 = left := by
      cases left with
      | zero => simp [retryLoop, pullCalls]
      | succ m =>
        obtain ⟨hw, h2, h3⟩ := double_fits backoff m hb (by simpa using hfit)
        rw [hw]
        exact ih (i + 1) (backoff * 2) h2 (by simpa using h3)
          (fun j hj1 hj2 => hfail j (by omega) (by omega))
    unfold retryLoop
    simp only [he, hdiv, Int63n_of_pos _ _ hpos, hc i, Bool.false_eq_true, if_false]
    exact ⟨hrec.1, by simp [pullCalls, hrec.2]⟩

/-- First success at the call of index `i + m`: `m + 1` pulls and the addresses of the
last one. -/
theorem retryLoop_first_success (env : RetryEnv) (name : String)
    (hc : ∀ j, env.cancelled j = false) :
    ∀ (m left i : Nat) (backoff : Int) (addresses : List Address), m < left → 2 ≤ backoff →
      backoff * 2 ^ m < 2 ^ 63 →
      (∀ j, i ≤ j → j < i + m → ∃ e, env.pull j = .fail e) →
      env.pull (i + m) = .ok addresses →
      (retryLoop env name left i backoff).2 = .returned addresses none ∧
      pullCalls (retryLoop env name left i backoff).1 = m + 1 := by
  intro m
  induction m with
  | zero =>
    intro left i backoff addresses hlt _ _ _ hok
    obtain ⟨l, rfl⟩ : ∃ l, left = l + 1 := ⟨left - 1, by omega⟩
    unfold retryLoop
    simp only [Nat.add_zero] at hok
    simp [hok, pullCalls]
  | succ m ih =>
    intro left i backoff addresses hlt hb hfit hfail hok
    obtain ⟨l, rfl⟩ : ∃ l, left = l + 1 := ⟨left - 1, by omega⟩
    obtain ⟨e, he⟩ := hfail i (le_refl _) (by omega)
    obtain ⟨hdiv, hpos⟩ := tdiv_two_of_two_le backoff hb
    obtain ⟨hw, h2, h3⟩ := double_fits backoff m hb hfit
    have hrec := ih l (i + 1) (backoff * 2) addresses (by omega) h2 h3
      (fun j hj1 hj2 => hfail j (by omega) (by omega))
      (by rw [← hok]; congr 1; omega)
    unfold retryLoop
    simp only [he, hdiv, Int63n_of_pos _ _ hpos, hc i, Bool.false_eq_true, if_false, hw]
    exact ⟨hrec.1, by simp [pullCalls, hrec.2]⟩

/-- C7 as stated fails: with one attempt and an initial delay of one nanosecond the jitter
bound is `0` and `rand.Int63n` panics after the first failed pull; with 35 attempts and an
initial delay of one second the doubled backoff leaves `int64` and `rand.Int63n` panics
after the 35th failed pull. Neither call returns the exhaustion error. -/
theorem C7_retry_attempts_counterexample :
    (∀ i, (exDown 0).pull i = .fail "unreachable") ∧
    (∀ i, (exDown 0).cancelled i = false) ∧
    retryWithJitter (exDown 0) 1 1 "svc" = ([.pull "svc"], .panicked) ∧
    (retryWithJitter (exDown 0) 35 second "svc").2 = .panicked ∧
    pullCalls (retryWithJitter (exDown 0) 35 second "svc").1 = 35 :=
  ⟨fun _ => rfl, fun _ => rfl, by decide, by decide, by decide⟩

/-- C7, amended: for `attempts >= 1`, an initial delay of at least 2ns and
`initial * 2^(attempts-1)` within `int64`, and no cancellation: a puller that fails at
every call is called exactly `attempts` times and the exhaustion error is returned with an
empty list; a puller whose `k`-th call is the first to succeed is called exactly `k` times
and the addresses of that call are returned with a nil error. -/
theorem C7_retry_attempts (env : RetryEnv) (attempts initial : Int) (name : String)
    (h1 : 1 ≤ attempts) (h2 : 2 ≤ initial) (h3 : initial * 2 ^ (attempts.toNat - 1) < 2 ^ 63)
    (hc : ∀ i, env.cancelled i = false) :
    ((∀ i : Nat, (i : Int) < attempts → ∃ e, env.pull i = .fail e) →
      (retryWithJitter env attempts initial name).2 = .returned [] (some errRetryExhausted) ∧
      (pullCalls (retryWithJitter env attempts initial name).1 : Int) = attempts) ∧
    (∀ (k : Nat) (addresses : List Address), 1 ≤ k → (k : Int) ≤ attempts →
      (∀ i, i + 1 < k → ∃ e, env.pull i = .fail e) → env.pull (k - 1) = .ok addresses →
      (retryWithJitter env attempts initial name).2 = .returned addresses none ∧
      pullCalls (retryWithJitter env attempts initial name).1 = k) := by
  have hnat : (attempts.toNat : Int) = attempts := Int.toNat_of_nonneg (by omega)
  constructor
  · intro hfail
    have h := retryLoop_all_fail env name hc attempts.toNat 0 initial h2 h3
      (fun j _ hj => hfail j (by omega))
    exact ⟨h.1, by unfold retryWithJitter; rw [h.2, hnat]⟩
  · intro k addresses hk1 hk2 hfail hok
    have hpow : (2 : Int) ^ (k - 1) ≤ 2 ^ (attempts.toNat - 1) :=
      pow_le_pow_right₀ (by decide) (by omega)
    have hfit : initial * 2 ^ (k - 1) < 2 ^ 63 :=
      lt_of_le_of_lt (mul_le_mul_of_nonneg_left hpow (by omega)) h3
    have h := retryLoop_first_success env name hc (k - 1) attempts.toNat 0 initial addresses
      (by omega) h2 hfit (fun j _ hj => hfail j (by omega)) (by simpa using hok)
    exact ⟨h.1, by unfold retryWithJitter; rw [h.2]; omega⟩

/-- C7 at `attempts = 3` and an initial delay of one second, on a puller that fails at every
call: three pulls, then the exhaustion error. -/
theorem C7_retry_attempts_witness :
    (retryWithJitter (exDown 5) 3 second "svc").2 = .returned [] (some errRetryExhausted) ∧
    (pullCalls (retryWithJitter (exDown 5) 3 second "svc").1 : Int) = 3 :=
  (C7_retry_attempts (exDown 5) 3 second "svc" (by decide) (by decide) (by decide)
    (fun _ => rfl)).1 (fun i _ => ⟨"unreachable", rfl⟩)

/-- The wait chosen after the failed attempt of index `idx + i`, when the loop is entered at
index `idx` with the delay `backoff`. -/
theorem retryLoop_chosenWait (env : RetryEnv) (name : String) :
    ∀ (i left idx : Nat) (backoff w : Int),
      (chosenWaits (retryLoop env name left idx backoff).1)[i]? = some w →
      backoff * 2 ^ i < 2 ^ 63 →
      0 < backoff * 2 ^ i / 2 ∧
      w = wrap64 (backoff * 2 ^ i + (env.rand (idx + i) : Int) % (backoff * 2 ^ i / 2)) := by
  intro i
  induction i with
  | zero =>
    intro left idx backoff w hw _
    cases left with
    | zero => simp [retryLoop, chosenWaits] at hw
    | succ left =>
      unfold retryLoop at hw
      cases hp : env.pull idx with
      | ok addresses => simp [hp, chosenWaits] at hw
      | fail e =>
        cases hj : Int63n (env.rand idx) (Int.tdiv backoff 2) with
        | none => simp [hp, hj, chosenWaits] at hw
        | some jitter =>
          obtain ⟨hpos, hjit⟩ := Int63n_eq_some _ _ _ hj
          obtain ⟨hdiv, hpos2⟩ := tdiv_two_of_two_le backoff (two_le_of_tdiv_pos _ hpos)
          rw [hdiv] at hjit
          cases hcn : env.cancelled idx with
          | true =>
            simp only [hp, hj, hcn, if_true, chosenWaits, List.getElem?_cons_zero,
              Option.some.injEq] at hw
            simp [← hw, hjit, hpos2]
          | false =>
            simp only [hp, hj, hcn, Bool.false_eq_true, if_false, chosenWaits,
              List.getElem?_cons_zero, Option.some.injEq] at hw
            simp [← hw, hjit, hpos2]
  | succ i ih =>
    intro left idx backoff w hw hfit
    cases left with
    | zero => simp [retryLoop, chosenWaits] at hw
    | succ left =>
      unfold retryLoop at hw
      cases hp : env.pull idx with
      | ok addresses => simp [hp, chosenWaits] at hw
      | fail e =>
        cases hj : Int63n (env.rand idx) (Int.tdiv backoff 2) with
        | none => simp [hp, hj, chosenWaits] at hw
        | some jitter =>
          obtain ⟨hpos, _⟩ := Int63n_eq_some _ _ _ hj
          have hb := two_le_of_tdiv_pos _ hpos
          cases hcn : env.cancelled idx with
          | true => simp [hp, hj, hcn, chosenWaits] at hw
          | false =>
            simp only [hp, hj, hcn, Bool.false_eq_true, if_false, chosenWaits,
              List.getElem?_cons_succ] at hw
            obtain ⟨hwrap, _, h3⟩ := double_fits backoff i hb hfit
            rw [hwrap] at hw
            have := ih left (idx + 1) (backoff * 2) w hw h3
            have hpow : backoff * 2 ^ (i + 1) = backoff * 2 * 2 ^ i := by ring
            have hidx : idx + (i + 1) = idx + 1 + i := by omega
            rw [hpow, hidx]
            exact this

theorem retryLoop_chosenWaits_length (env : RetryEnv) (name : String) :
    ∀ (left idx : Nat) (backoff : Int),
      (chosenWaits (retryLoop env name left idx backoff).1).length ≤ left := by
  intro left
  induction left with
  | zero => intro idx backoff; simp [retryLoop, chosenWaits]
  | succ left ih =>
    intro idx backoff
    unfold retryLoop
    cases env.pull idx with
    | ok addresses => simp [chosenWaits]
    | fail e =>
      cases Int63n (env.rand idx) (Int.tdiv backoff 2) with
      | none => simp [chosenWaits]
      | some jitter =>
        cases env.cancelled idx with
        | true => simp [chosenWaits]
        | false => simpa [chosenWaits] using ih (idx + 1) _

/-- A wait that the cancellation of the context cuts short ends the call. -/
theorem retryLoop_cancelled (env : RetryEnv) (name : String) :
    ∀ (i left idx : Nat) (backoff w : Int),
      (chosenWaits (retryLoop env name left idx backoff).1)[i]? = some w →
      env.cancelled (idx + i) = true →
      (retryLoop env name left idx backoff).2 = .returned [] (some env.ctxErr) ∧
      pullCalls (retryLoop env name left idx backoff).1 = i + 1 ∧
      (retryLoop env name left idx backoff).1.getLast? = some (.cancelledWait w) ∧
      (waits (retryLoop env name left idx backoff).1).length = i := by
  intro i
  induction i with
  | zero =>
    intro left idx backoff w hw hcn
    simp only [Nat.add_zero] at hcn
    cases left with
    | zero => simp [retryLoop, chosenWaits] at hw
    | succ left =>
      unfold retryLoop at hw ⊢
      cases hp : env.pull idx with
      | ok addresses => simp [hp, chosenWaits] at hw
      | fail e =>
        cases hj : Int63n (env.rand idx) (Int.tdiv backoff 2) with
        | none => simp [hp, hj, chosenWaits] at hw
        | some jitter =>
          simp only [hp, hj, hcn, if_true, chosenWaits, List.getElem?_cons_zero,
            Option.some.injEq] at hw
          simp [hw, hcn, pullCalls, waits]
  | succ i ih =>
    intro left idx backoff w hw hcn
    cases left with
    | zero => simp [retryLoop, chosenWaits] at hw
    | succ left =>
      unfold retryLoop at hw ⊢
      cases hp : env.pull idx with
      | ok addresses => simp [hp, chosenWaits] at hw
      | fail e =>
        cases hj : Int63n (env.rand idx) (Int.tdiv backoff 2) with
        | none => simp [hp, hj, chosenWaits] at hw
        | some jitter =>
          cases hc0 : env.cancelled idx with
          | true => simp [hp, hj, hc0, chosenWaits] at hw
          | false =>
            simp only [hp, hj, hc0, Bool.false_eq_true, if_false, chosenWaits,
              List.getElem?_cons_succ] at hw
            have hidx : idx + (i + 1) = idx + 1 + i := by omega
            rw [hidx] at hcn
            obtain ⟨h1, h2, h3, h4⟩ := ih left (idx + 1) _ w hw hcn
            simp only [Bool.false_eq_true, if_false]
            refine ⟨h1, by simp [pullCalls, h2], ?_, by simp [waits, h4]⟩
            rw [List.getLast?_cons, List.getLast?_cons, h3]
            rfl

/-- C8 as stated fails: with an initial delay of 8*10^18 ns, which fits in `int64`, and the
jitter draw 3*10^18 (below the bound 4*10^18), the sum leaves `int64` and the wait chosen
after attempt 0 is the wrapped value -7446744073709551616, not `initial * 2^0 + j`. -/
theorem C8_backoff_formula_counterexample :
    (8000000000000000000 : Int) * 2 ^ 0 < 2 ^ 63 ∧
    Int63n 3000000000000000000 (8000000000000000000 * 2 ^ 0 / 2) = some 3000000000000000000 ∧
    (chosenWaits (retryWithJitter (exDown 3000000000000000000) 1 8000000000000000000
      "svc").1)[0]? = some (-7446744073709551616) ∧
    (-7446744073709551616 : Int) ≠ 8000000000000000000 * 2 ^ 0 + 3000000000000000000 :=
  ⟨by decide, by decide, by decide, by decide⟩

/-- C8, amended: when a wait is chosen after the failed attempt `i` (so `i < attempts`) and
`initial * 2^i` fits in `int64`, the jitter draw `j` satisfies `0 <= j < (initial * 2^i) / 2`
and the wait is `initial * 2^i + j` brought back into `int64`; it is `initial * 2^i + j`
itself provided that sum fits in `int64` too. -/
theorem C8_backoff_formula (env : RetryEnv) (attempts initial : Int) (name : String)
    (i : Nat) (w : Int)
    (hw : (chosenWaits (retryWithJitter env attempts initial name).1)[i]? = some w)
    (hfit : initial * 2 ^ i < 2 ^ 63) :
    (i : Int) < attempts ∧
    ∃ j, Int63n (env.rand i) (initial * 2 ^ i / 2) = some j ∧ 0 ≤ j ∧
      j < initial * 2 ^ i / 2 ∧ w = wrap64 (initial * 2 ^ i + j) ∧
      (initial * 2 ^ i + j < 2 ^ 63 → w = initial * 2 ^ i + j) := by
  have hlen := retryLoop_chosenWaits_length env name attempts.toNat 0 initial
  have hi : i < (chosenWaits (retryWithJitter env attempts initial name).1).length := by
    by_contra hge
    rw [List.getElem?_eq_none (not_lt.mp hge)] at hw
    exact absurd hw (by simp)
  obtain ⟨hpos, hwait⟩ := retryLoop_chosenWait env name i attempts.toNat 0 initial w hw hfit
  rw [Nat.zero_add] at hwait
  have hj0 := Int.emod_nonneg (env.rand i : Int) (ne_of_gt hpos)
  have hj1 := Int.emod_lt_of_pos (env.rand i : Int) hpos
  refine ⟨?_, (env.rand i : Int) % (initial * 2 ^ i / 2), Int63n_of_pos _ _ hpos, hj0, hj1,
    hwait, ?_⟩
  · have : i < attempts.toNat := lt_of_lt_of_le hi hlen
    omega
  · intro hsum
    rw [hwait]
    exact wrap64_of_fit _ (by omega) hsum

/-- C8 at the second attempt of a call with an initial delay of one second and the raw
random value 7: the wait is `2s + 7ns`. -/
theorem C8_backoff_formula_witness :
    ((1 : Nat) : Int) < 3 ∧
    ∃ j, Int63n 7 (second * 2 ^ 1 / 2) = some j ∧ 0 ≤ j ∧ j < second * 2 ^ 1 / 2 ∧
      (2000000007 : Int) = wrap64 (second * 2 ^ 1 + j) ∧
      (second * 2 ^ 1 + j < 2 ^ 63 → (2000000007 : Int) = second * 2 ^ 1 + j) :=
  C8_backoff_formula (exDown 7) 3 second "svc" 1 2000000007 (by decide) (by decide)

/-- C9 as stated fails: the jitter draw may be `0`, and then every wait equals its lower
bound `initial * 2^i`, which is not strictly below it. -/
theorem C9_strict_bounds_counterexample :
    chosenWaits (retryWithJitter (exDown 0) 3 second "svc").1 =
      [second * 2 ^ 0, second * 2 ^ 1, second * 2 ^ 2] ∧
    ¬ (second * 2 ^ 0 < second * 2 ^ 0) :=
  ⟨by decide, by decide⟩

/-- C9, amended: for `attempts = 3` and an initial delay of one second, and in general
whenever `initial * 2^i` plus its jitter bound fits in `int64`, every wait `w_i` chosen after
the failed attempt `i`, for every jitter draw, satisfies
`initial * 2^i <= w_i < initial * 2^(i+1)`; the lower bound is reached by the draw `0`. -/
theorem C9_backoff_bounds (env : RetryEnv) (name : String) (i : Nat) (w : Int) :
    ((chosenWaits (retryWithJitter env 3 second name).1)[i]? = some w →
      second * 2 ^ i ≤ w ∧ w < second * 2 ^ (i + 1)) ∧
    (∀ attempts initial : Int,
      (chosenWaits (retryWithJitter env attempts initial name).1)[i]? = some w →
      initial * 2 ^ i + initial * 2 ^ i / 2 ≤ 2 ^ 63 →
      initial * 2 ^ i ≤ w ∧ w < initial * 2 ^ (i + 1)) := by
  have general : ∀ attempts initial : Int,
      (chosenWaits (retryWithJitter env attempts initial name).1)[i]? = some w →
      initial * 2 ^ i + initial * 2 ^ i / 2 ≤ 2 ^ 63 →
      initial * 2 ^ i ≤ w ∧ w < initial * 2 ^ (i + 1) := by
    intro attempts initial hw hsum
    have hfit : initial * 2 ^ i < 2 ^ 63 := by
      generalize initial * 2 ^ i = x at hsum
      omega
    obtain ⟨hpos, hwait⟩ := retryLoop_chosenWait env name i attempts.toNat 0 initial w hw hfit
    have hj0 := Int.emod_nonneg (env.rand (0 + i) : Int) (ne_of_gt hpos)
    have hj1 := Int.emod_lt_of_pos (env.rand (0 + i) : Int) hpos
    have hpow : initial * 2 ^ (i + 1) = initial * 2 ^ i * 2 := by ring
    rw [hpow]
    rw [wrap64_of_fit _ (by omega) (by omega)] at hwait
    generalize initial * 2 ^ i = x at hsum hpos hwait hj0 hj1 ⊢
    omega
  refine ⟨?_, general⟩
  intro hw
  have hlen := retryLoop_chosenWaits_length env name (3 : Int).toNat 0 second
  have hi : i < (chosenWaits (retryWithJitter env 3 second name).1).length := by
    by_contra hge
    rw [List.getElem?_eq_none (not_lt.mp hge)] at hw
    exact absurd hw (by simp)
  have hi3 : i < 3 := lt_of_lt_of_le hi hlen
  refine general 3 second hw ?_
  interval_cases i <;> decide

/-- C9 at the third attempt of a call with an initial delay of one second and the raw random
value 7: the wait `4s + 7ns` lies in `[4s, 8s)`. -/
theorem C9_backoff_bounds_witness :
    second * 2 ^ 2 ≤ (4000000007 : Int) ∧ (4000000007 : Int) < second * 2 ^ (2 + 1) :=
  (C9_backoff_bounds (exDown 7) "svc" 2 4000000007).1 (by decide)

/-- C10: when the context is cancelled during the wait `w` that follows the failed attempt
`i`, `retryWithJitter` returns the error of the context with an empty address list, the
cancelled wait is the last thing it does, and it has called `Pull` exactly `i + 1` times:
for the attempts `0 .. i` and for none after. -/
theorem C10_cancellation_aborts_retry (env : RetryEnv) (attempts initial : Int)
    (name : String) (i : Nat) (w : Int)
    (hw : (chosenWaits (retryWithJitter env attempts initial name).1)[i]? = some w)
    (hcancel : env.cancelled i = true) :
    (retryWithJitter env attempts initial name).2 = .returned [] (some env.ctxErr) ∧
    pullCalls (retryWithJitter env attempts initial name).1 = i + 1 ∧
    (retryWithJitter env attempts initial name).1.getLast? = some (.cancelledWait w) ∧
    (waits (retryWithJitter env attempts initial name).1).length = i :=
  retryLoop_cancelled env name i attempts.toNat 0 initial w hw (by simpa using hcancel)

/-- C10 on a call with three attempts whose context is cancelled during the wait after the
second failed pull: two pulls, no third. -/
theorem C10_cancellation_aborts_retry_witness :
    (retryWithJitter (exCancelAt 1) 3 second "svc").2 = .returned [] (some "context canceled") ∧
    pullCalls (retryWithJitter (exCancelAt 1) 3 second "svc").1 = 1 + 1 ∧
    (retryWithJitter (exCancelAt 1) 3 second "svc").1.getLast? =
      some (.cancelledWait 2000000000) ∧
    (waits (retryWithJitter (exCancelAt 1) 3 second "svc").1).length = 1 :=
  C10_cancellation_aborts_retry (exCancelAt 1) 3 second "svc" 1 2000000000 (by decide) rfl

/-! ## Panics -/

/-- While the delay stays at least 2ns and its doublings stay within `int64`, the loop of
`retryWithJitter` does not panic, whatever the puller, the draws and the cancellation do. -/
theorem retryLoop_no_panic (env : RetryEnv) (name : String) :
    ∀ (left i : Nat) (backoff : Int), 2 ≤ backoff → backoff * 2 ^ (left - 1) < 2 ^ 63 →
      (retryLoop env name left i backoff).2 ≠ .panicked := by
  intro left
  induction left with
  | zero => intro i backoff _ _; simp [retryLoop]
  | succ left ih =>
    intro i backoff hb hfit
    obtain ⟨hdiv, hpos⟩ := tdiv_two_of_two_le backoff hb
    have hrec : (retryLoop env name left (i + 1) (wrap64 (backoff * 2))).2 ≠ .panicked := by
      cases left with
      | zero => simp [retryLoop]
      | succ m =>
        obtain ⟨hw, h2, h3⟩ := double_fits backoff m hb (by simpa using hfit)
        rw [hw]
        exact ih (i + 1) (backoff * 2) h2 (by simpa using h3)
    unfold retryLoop
    cases env.pull i with
    | ok addresses => simp
    | fail e =>
      simp only [hdiv, Int63n_of_pos _ _ hpos]
      cases env.cancelled i with
      | true => simp
      | false => simpa using hrec

theorem retry3_no_panic (env : RetryEnv) (name : String) :
    (retryWithJitter env 3 second name).2 ≠ .panicked :=
  retryLoop_no_panic env name (3 : Int).toNat 0 second (by decide) (by decide)

theorem updateAddresses_not_panicked (s : simpleLBResolver) (env : CycleEnv) :
    (s.updateAddresses env).panicked = false := by
  have h := retry3_no_panic env.retry s.serviceName
  unfold simpleLBResolver.updateAddresses
  generalize retryWithJitter env.retry 3 second s.serviceName = r at h ⊢
  obtain ⟨evs, out⟩ := r
  cases out with
  | panicked => exact absurd rfl h
  | returned addresses err =>
    cases err with
    | none => simp [simpleLBResolver.afterRetry]
    | some e => simp [simpleLBResolver.afterRetry]

theorem tickLoop_all_processed (envs : List CycleEnv) :
    ∀ (s : simpleLBResolver), (s.tickLoop envs).2.2 = false ∧
      (s.tickLoop envs).2.1.length = envs.length := by
  induction envs with
  | nil => intro s; simp [simpleLBResolver.tickLoop]
  | cons env envs ih =>
    intro s
    have hp := updateAddresses_not_panicked s env
    obtain ⟨h1, h2⟩ := ih (s.updateAddresses env).state
    simp [simpleLBResolver.tickLoop, hp, h1, h2]

theorem poll_run_all_processed (s : simpleLBResolver) (first : CycleEnv)
    (ticks : List CycleEnv) (hint : 0 < s.interval) :
    (s.run first ticks).panicked = false ∧
    (s.run first ticks).steps.length = ticks.length + 1 := by
  have hp := updateAddresses_not_panicked s first
  have hi : ¬ s.interval ≤ 0 := not_le.mpr hint
  obtain ⟨h1, h2⟩ := tickLoop_all_processed ticks (s.updateAddresses first).state
  simp [simpleLBResolver.run, hp, hi, h1, h2]

/-! ## The completion signal -/

theorem retryLoop_no_done (env : RetryEnv) (name : String) :
    ∀ (left i : Nat) (backoff : Int), Event.done ∉ (retryLoop env name left i backoff).1 := by
  intro left
  induction left with
  | zero => intro i backoff; simp [retryLoop]
  | succ left ih =>
    intro i backoff
    unfold retryLoop
    cases env.pull i with
    | ok addresses => simp
    | fail e =>
      cases Int63n (env.rand i) (Int.tdiv backoff 2) with
      | none => simp
      | some jitter =>
        cases env.cancelled i with
        | true => simp
        | false => simpa using ih (i + 1) _

theorem poll_diffPublish_no_done (s : simpleLBResolver) (b : List Address)
    (u : Option GoError) : Event.done ∉ (s.diffPublish b u).events := by
  simp only [simpleLBResolver.diffPublish]
  split
  · cases u <;> simp
  · simp

theorem watch_diffPublish_no_done (s : simpleLBWatcherResolver) (b : List Address)
    (u : Option GoError) : Event.done ∉ (s.diffPublish b u).events := by
  simp only [simpleLBWatcherResolver.diffPublish]
  split
  · cases u <;> simp
  · simp

theorem updateAddresses_no_done (s : simpleLBResolver) (env : CycleEnv) :
    Event.done ∉ (s.updateAddresses env).events := by
  have h := retryLoop_no_done env.retry s.serviceName (3 : Int).toNat 0 second
  change Event.done ∉ (retryWithJitter env.retry 3 second s.serviceName).1 at h
  unfold simpleLBResolver.updateAddresses
  generalize retryWithJitter env.retry 3 second s.serviceName = r at h ⊢
  obtain ⟨evs, out⟩ := r
  simp only at h
  cases out with
  | panicked => simpa [simpleLBResolver.afterRetry] using h
  | returned addresses err =>
    cases err with
    | none =>
      simpa [simpleLBResolver.afterRetry, h] using poll_diffPublish_no_done s addresses _
    | some e => simp [simpleLBResolver.afterRetry, h]

theorem tickLoop_no_done (envs : List CycleEnv) :
    ∀ (s : simpleLBResolver), Event.done ∉ (s.tickLoop envs).2.1.flatten := by
  induction envs with
  | nil => intro s; simp [simpleLBResolver.tickLoop]
  | cons env envs ih =>
    intro s
    have h1 := updateAddresses_no_done s env
    have h2 := ih (s.updateAddresses env).state
    by_cases hp : (s.updateAddresses env).panicked = true
    · simpa [simpleLBResolver.tickLoop, hp] using h1
    · simp only [simpleLBResolver.tickLoop, hp, Bool.false_eq_true, if_false,
        List.flatten_cons, List.mem_append, not_or]
      exact ⟨h1, h2⟩

theorem poll_run_trace_done (s : simpleLBResolver) (first : CycleEnv) (ticks : List CycleEnv) :
    (s.run first ticks).trace = (s.run first ticks).steps.flatten ++ [.done] ∧
    Event.done ∉ (s.run first ticks).steps.flatten := by
  have h1 := updateAddresses_no_done s first
  have h2 := tickLoop_no_done ticks (s.updateAddresses first).state
  by_cases hp : (s.updateAddresses first).panicked = true
  · simpa [RunResult.trace, simpleLBResolver.run, hp] using h1
  · by_cases hi : s.interval ≤ 0
    · simpa [RunResult.trace, simpleLBResolver.run, hp, hi] using h1
    · simp only [RunResult.trace, simpleLBResolver.run, hp, hi, Bool.false_eq_true, if_false,
        List.flatten_cons, List.mem_append, not_or, true_and]
      exact ⟨h1, h2⟩

theorem watch_consume_no_done (ds : List Delivery) :
    ∀ (s : simpleLBWatcherResolver), Event.done ∉ (s.consume ds).2.flatten := by
  induction ds with
  | nil => intro s; simp [simpleLBWatcherResolver.consume]
  | cons d ds ih =>
    obtain ⟨b, u⟩ := d
    intro s
    simp only [simpleLBWatcherResolver.consume, List.flatten_cons, List.mem_append, not_or]
    exact ⟨watch_diffPublish_no_done s b u, ih _⟩

theorem watch_reconnectLoop_no_done (script : List WatchAttempt) :
    ∀ (s : simpleLBWatcherResolver),
      Event.done ∉ ((s.reconnectLoop script).2.map AttemptRecord.events).flatten := by
  induction script with
  | nil => intro s; simp [simpleLBWatcherResolver.reconnectLoop]
  | cons a script ih =>
    intro s
    cases a with
    | openFailed err c =>
      cases c with
      | true => simp [simpleLBWatcherResolver.reconnectLoop, AttemptRecord.events]
      | false =>
        simpa [simpleLBWatcherResolver.reconnectLoop, AttemptRecord.events] using ih s
    | opened ds fin =>
      have hc := watch_consume_no_done ds s
      cases fin with
      | cancelled =>
        simpa [simpleLBWatcherResolver.reconnectLoop, AttemptRecord.events] using hc
      | closed =>
        have := ih (s.consume ds).1
        simp only [simpleLBWatcherResolver.reconnectLoop, AttemptRecord.events, List.map_cons,
          List.flatten_cons, List.mem_append, not_or]
        exact ⟨⟨⟨by simp, hc⟩, by simp⟩, this⟩

theorem Close_of_done_last (pre : List Event) (h : Event.done ∉ pre) :
    Close (pre ++ [Event.done]) = some [] ∧ (pre ++ [Event.done]).count Event.done = 1 := by
  induction pre with
  | nil => exact ⟨by simp [Close], by simp⟩
  | cons x pre ih =>
    have hx : x ≠ Event.done := fun hx => h (by simp [hx])
    have hpre : Event.done ∉ pre := fun hm => h (List.mem_cons_of_mem _ hm)
    obtain ⟨h1, h2⟩ := ih hpre
    refine ⟨?_, ?_⟩
    · have hb : (x != Event.done) = true := by simpa using hx
      simpa [Close, List.dropWhile, hb] using h1
    · rw [List.cons_append, List.count_cons_of_ne hx.symm]
      exact h2

/-! ## Cancellation inside a poll cycle -/

theorem updateAddresses_of_failed (s : simpleLBResolver) (env : CycleEnv)
    (addresses : List Address) (err : GoError)
    (h : (retryWithJitter env.retry 3 second s.serviceName).2 = .returned addresses (some err)) :
    reportErrorCalls (s.updateAddresses env).events = [err] ∧
    updateStateCalls (s.updateAddresses env).events = [] ∧
    (s.updateAddresses env).state = s := by
  unfold simpleLBResolver.updateAddresses
  have hno := retryLoop_no_sink_call env.retry s.serviceName (3 : Int).toNat 0 second
  change updateStateCalls (retryWithJitter env.retry 3 second s.serviceName).1 = [] ∧
    reportErrorCalls (retryWithJitter env.retry 3 second s.serviceName).1 = [] at hno
  generalize retryWithJitter env.retry 3 second s.serviceName = r at hno h ⊢
  obtain ⟨evs, out⟩ := r
  simp only at h hno
  subst h
  simp [simpleLBResolver.afterRetry, updateStateCalls_append, reportErrorCalls_append, hno,
    updateStateCalls, reportErrorCalls]

theorem poll_run_single (s : simpleLBResolver) (env : CycleEnv) :
    (s.run env []).trace = (s.updateAddresses env).events ++ [.done] := by
  by_cases hp : (s.updateAddresses env).panicked = true
  · simp [RunResult.trace, simpleLBResolver.run, hp]
  · by_cases hi : s.interval ≤ 0
    · simp [RunResult.trace, simpleLBResolver.run, hp, hi]
    · simp [RunResult.trace, simpleLBResolver.run, simpleLBResolver.tickLoop, hp, hi]

/-- C11 does not hold of the code: the poll engine for "test-service" whose puller fails and whose
context is cancelled during the backoff wait after the first failed pull gets `ctx.Err()`
back from `retryWithJitter` and passes it to `cc.ReportError` like any other error, before
the task exits. The other ways out on a cancellation make no such call: the tick loop that
finds the context done after a cycle, and the watch engine that finds it done on an open
stream or during the delay after a failed `Watch`, report nothing for the cancellation. -/
theorem C11_cancelled_cycle_calls_ReportError :
    (retryWithJitter (exCancelAt 0) 3 second "test-service").2 =
      .returned [] (some "context canceled") ∧
    reportErrorCalls (simpleLBResolver.updateAddresses exPoll
      { retry := exCancelAt 0, updateResult := none }).events = ["context canceled"] ∧
    (simpleLBResolver.run exPoll { retry := exCancelAt 0, updateResult := none } []).trace =
      [.pull "test-service", .cancelledWait 1000000000, .logError "can not pull addresses",
        .reportError "context canceled", .done] ∧
    reportErrorCalls (simpleLBResolver.run exPoll (exCycle ["A", "B"] none) []).trace = [] ∧
    (simpleLBWatcherResolver.run exWatch [.opened [] .cancelled]).trace =
      [.watch "test-service", .done] ∧
    reportErrorCalls (simpleLBWatcherResolver.run exWatch
      [.openFailed "unreachable" true]).trace = ["unreachable"] :=
  ⟨by decide, by decide, by decide, by decide, by decide, by decide⟩

/-- Every poll cycle whose backoff wait after the failed attempt `i` is cut short by the
cancellation makes exactly one `ReportError` call, carrying the error of the context, makes
no `UpdateState` call and leaves the resolver as it was; when the task exits after that
cycle, these are the sink calls of its trace. -/
theorem cancelled_cycle_reports (s : simpleLBResolver) (env : CycleEnv) (i : Nat) (w : Int)
    (hw : (chosenWaits (retryWithJitter env.retry 3 second s.serviceName).1)[i]? = some w)
    (hcancel : env.retry.cancelled i = true) :
    reportErrorCalls (s.updateAddresses env).events = [env.retry.ctxErr] ∧
    updateStateCalls (s.updateAddresses env).events = [] ∧
    (s.updateAddresses env).state = s ∧
    reportErrorCalls (s.run env []).trace = [env.retry.ctxErr] ∧
    updateStateCalls (s.run env []).trace = [] := by
  have hret := (retryLoop_cancelled env.retry s.serviceName i (3 : Int).toNat 0 second w hw
    (by simpa using hcancel)).1
  obtain ⟨h1, h2, h3⟩ := updateAddresses_of_failed s env [] env.retry.ctxErr hret
  refine ⟨h1, h2, h3, ?_, ?_⟩
  · rw [poll_run_single, reportErrorCalls_append, h1]
    simp [reportErrorCalls]
  · rw [poll_run_single, updateStateCalls_append, h2]
    simp [updateStateCalls]

/-- The same on a cycle cancelled during the wait after its second failed pull. -/
theorem cancelled_cycle_reports_example :
    reportErrorCalls (simpleLBResolver.updateAddresses exPoll
      { retry := exCancelAt 1, updateResult := none }).events = ["context canceled"] ∧
    updateStateCalls (simpleLBResolver.updateAddresses exPoll
      { retry := exCancelAt 1, updateResult := none }).events = [] := by
  have h := cancelled_cycle_reports exPoll { retry := exCancelAt 1, updateResult := none }
    1 2000000000 (by decide) rfl
  exact ⟨h.1, h.2.1⟩

/-! ## Close -/

theorem watch_run_trace_done (s : simpleLBWatcherResolver) (script : List WatchAttempt) :
    (s.run script).trace = ((s.run script).passes.map AttemptRecord.events).flatten ++ [.done] ∧
    Event.done ∉ ((s.run script).passes.map AttemptRecord.events).flatten :=
  ⟨rfl, watch_reconnectLoop_no_done script s⟩

/-- C12: in every trace of either background task the send on `doneCh` occurs exactly once
and is the last event, so no `UpdateState` or `ReportError` call follows it; `Close`, which
returns only when it has received that signal, returns, and the task does nothing after
`Close` has returned. -/
theorem C12_close_ordering (sp : simpleLBResolver) (first : CycleEnv) (ticks : List CycleEnv)
    (sw : simpleLBWatcherResolver) (script : List WatchAttempt) :
    ((∃ pre, (sp.run first ticks).trace = pre ++ [Event.done] ∧ Event.done ∉ pre) ∧
      (sp.run first ticks).trace.count Event.done = 1 ∧
      Close (sp.run first ticks).trace = some [] ∧
      (Close (sp.run first ticks).trace).map sinkCalls = some []) ∧
    ((∃ pre, (sw.run script).trace = pre ++ [Event.done] ∧ Event.done ∉ pre) ∧
      (sw.run script).trace.count Event.done = 1 ∧
      Close (sw.run script).trace = some [] ∧
      (Close (sw.run script).trace).map sinkCalls = some []) := by
  obtain ⟨hp1, hp2⟩ := poll_run_trace_done sp first ticks
  obtain ⟨hw1, hw2⟩ := watch_run_trace_done sw script
  obtain ⟨hpc, hpn⟩ := Close_of_done_last _ hp2
  obtain ⟨hwc, hwn⟩ := Close_of_done_last _ hw2
  refine ⟨⟨⟨_, hp1, hp2⟩, ?_, ?_, ?_⟩, ⟨⟨_, hw1, hw2⟩, ?_, ?_, ?_⟩⟩
  · rw [hp1]; exact hpn
  · rw [hp1]; exact hpc
  · rw [hp1, hpc]; rfl
  · rw [hw1]; exact hwn
  · rw [hw1]; exact hwc
  · rw [hw1, hwc]; rfl

/-! ## The reconnection loop -/

theorem watch_consume_serviceName (ds : List Delivery) :
    ∀ (s : simpleLBWatcherResolver), (s.consume ds).1.serviceName = s.serviceName := by
  induction ds with
  | nil => intro s; rfl
  | cons d ds ih =>
    obtain ⟨b, u⟩ := d
    intro s
    have h1 : (s.diffPublish b u).state.serviceName = s.serviceName := by
      rw [watch_diffPublish_state]; split <;> rfl
    simpa [simpleLBWatcherResolver.consume, h1] using ih (s.diffPublish b u).state

/-- Every pass of the reconnection loop begins with a call of `Watch` for the service name of
the resolver. -/
theorem watch_first_event (s : simpleLBWatcherResolver) (a : WatchAttempt)
    (rest : List WatchAttempt) :
    ∃ post, ((s.reconnectLoop (a :: rest)).2.map AttemptRecord.events).flatten =
      Event.watch s.serviceName :: post := by
  cases a with
  | openFailed err c =>
    cases c with
    | true =>
      exact ⟨[.logError "failed to start watching addresses", .reportError err], by
        simp [simpleLBWatcherResolver.reconnectLoop, AttemptRecord.events]⟩
    | false =>
      exact ⟨.logError "failed to start watching addresses" :: .reportError err ::
        .sleep second :: ((s.reconnectLoop rest).2.map AttemptRecord.events).flatten, by
        simp [simpleLBWatcherResolver.reconnectLoop, AttemptRecord.events]⟩
  | opened ds fin =>
    cases fin with
    | cancelled =>
      exact ⟨(s.consume ds).2.flatten, by
        simp [simpleLBWatcherResolver.reconnectLoop, AttemptRecord.events]⟩
    | closed =>
      exact ⟨(s.consume ds).2.flatten ++
        .logWarn "address channel closed, attempting to reconnect..." :: .sleep second ::
          (((s.consume ds).1.reconnectLoop rest).2.map AttemptRecord.events).flatten, by
        simp [simpleLBWatcherResolver.reconnectLoop, AttemptRecord.events]⟩

/-- C13: when `Watch` returns the error `err`, the pass calls `ReportError` exactly once, with
`err`, calls no `UpdateState` and hands the resolver on unchanged. If the context is
cancelled during the delay of one second the task exits; otherwise the delay runs to its end
and the next thing the task does is a call of `Watch` for the same service name, unless it
finds the context done at the check that opens the next pass and exits. -/
theorem C13_watch_open_failure (s : simpleLBWatcherResolver) (err : GoError)
    (a : WatchAttempt) (rest : List WatchAttempt) :
    (∀ c, ∃ p ps, (s.reconnectLoop (.openFailed err c :: rest)).2 = p :: ps ∧
      reportErrorCalls p.events = [err] ∧ updateStateCalls p.events = [] ∧
      sourceCalls p.events = [.watch s.serviceName] ∧
      ps = (if c then [] else (s.reconnectLoop rest).2) ∧
      (s.reconnectLoop (.openFailed err c :: rest)).1 =
        (if c then s else (s.reconnectLoop rest).1)) ∧
    (s.run (.openFailed err true :: rest)).trace =
      [.watch s.serviceName, .logError "failed to start watching addresses",
        .reportError err, .done] ∧
    (s.run (.openFailed err true :: rest)).state = s ∧
    (∃ post, (s.run (.openFailed err false :: a :: rest)).trace =
      [.watch s.serviceName, .logError "failed to start watching addresses",
        .reportError err, .sleep second, .watch s.serviceName] ++ post) ∧
    (s.run [.openFailed err false]).trace =
      [.watch s.serviceName, .logError "failed to start watching addresses",
        .reportError err, .sleep second, .done] ∧
    (s.run [.openFailed err false]).state = s := by
  refine ⟨?_, ?_, ?_, ?_, ?_, ?_⟩
  · intro c
    cases c with
    | true =>
      refine ⟨⟨[.watch s.serviceName, .logError "failed to start watching addresses",
        .reportError err], [], []⟩, [], ?_, ?_, ?_, ?_, ?_, ?_⟩
      · simp [simpleLBWatcherResolver.reconnectLoop]
      · simp [AttemptRecord.events, reportErrorCalls]
      · simp [AttemptRecord.events, updateStateCalls]
      · simp [AttemptRecord.events, sourceCalls]
      · rfl
      · simp [simpleLBWatcherResolver.reconnectLoop]
    | false =>
      refine ⟨⟨[.watch s.serviceName, .logError "failed to start watching addresses",
        .reportError err, .sleep second], [], []⟩, (s.reconnectLoop rest).2,
        ?_, ?_, ?_, ?_, ?_, ?_⟩
      · simp [simpleLBWatcherResolver.reconnectLoop]
      · simp [AttemptRecord.events, reportErrorCalls]
      · simp [AttemptRecord.events, updateStateCalls]
      · simp [AttemptRecord.events, sourceCalls]
      · simp
      · simp [simpleLBWatcherResolver.reconnectLoop]
  · simp [simpleLBWatcherResolver.run, WatchRunResult.trace,
      simpleLBWatcherResolver.reconnectLoop, AttemptRecord.events]
  · simp [simpleLBWatcherResolver.run, simpleLBWatcherResolver.reconnectLoop]
  · obtain ⟨post, hpost⟩ := watch_first_event s a rest
    refine ⟨post ++ [.done], ?_⟩
    simp [simpleLBWatcherResolver.run, WatchRunResult.trace,
      simpleLBWatcherResolver.reconnectLoop, AttemptRecord.events, hpost]
  · simp [simpleLBWatcherResolver.run, WatchRunResult.trace,
      simpleLBWatcherResolver.reconnectLoop, AttemptRecord.events]
  · simp [simpleLBWatcherResolver.run, simpleLBWatcherResolver.reconnectLoop]

/-- C14: when the address channel is closed and the context is not cancelled, the task
calls neither `ReportError` nor `UpdateState` for the closure, leaves `lastAddress` as the
last batch left it, sleeps the settle delay of one second, and then calls `Watch` again for
the same service name. -/
theorem C14_watch_reconnect_on_close (s : simpleLBWatcherResolver) (ds : List Delivery)
    (a : WatchAttempt) (rest : List WatchAttempt) :
    (∃ post, (s.run (.opened ds .closed :: a :: rest)).trace =
      [.watch s.serviceName] ++ (s.consume ds).2.flatten ++
        [.logWarn "address channel closed, attempting to reconnect...", .sleep second,
          .watch s.serviceName] ++ post) ∧
    (∃ p ps, (s.reconnectLoop (.opened ds .closed :: a :: rest)).2 = p :: ps ∧
      p.batchEvents = (s.consume ds).2 ∧
      p.closeEvents =
        [.logWarn "address channel closed, attempting to reconnect...", .sleep second] ∧
      sinkCalls p.closeEvents = [] ∧
      ps = ((s.consume ds).1.reconnectLoop (a :: rest)).2) ∧
    (s.run [.opened ds .closed]).state.lastAddress = (s.consume ds).1.lastAddress ∧
    (s.run [.opened [] .closed]).state = s := by
  refine ⟨?_, ?_, ?_, ?_⟩
  · obtain ⟨post, hpost⟩ := watch_first_event (s.consume ds).1 a rest
    rw [watch_consume_serviceName] at hpost
    refine ⟨post ++ [.done], ?_⟩
    simp [simpleLBWatcherResolver.run, WatchRunResult.trace,
      simpleLBWatcherResolver.reconnectLoop, AttemptRecord.events, hpost]
  · refine ⟨⟨[.watch s.serviceName], (s.consume ds).2,
      [.logWarn "address channel closed, attempting to reconnect...", .sleep second]⟩,
      ((s.consume ds).1.reconnectLoop (a :: rest)).2, ?_, rfl, rfl, ?_, rfl⟩
    · simp [simpleLBWatcherResolver.reconnectLoop]
    · simp [sinkCalls]
  · simp [simpleLBWatcherResolver.run, simpleLBWatcherResolver.reconnectLoop]
  · simp [simpleLBWatcherResolver.run, simpleLBWatcherResolver.reconnectLoop,
      simpleLBWatcherResolver.consume]

/-- C15 fails on the settle delay: after a closed stream the task runs
`time.Sleep(time.Second)`, which no cancellation cuts short. Whatever happens to the context
once the stream is closed, the trace of the task has the whole sleep of one second before its
exit, whereas the delay after a failed `Watch`, when cancelled, is followed by the exit at
once. -/
theorem C15_settle_delay_not_cancellable (s : simpleLBWatcherResolver) (ds : List Delivery)
    (err : GoError) :
    (s.run [.opened ds .closed]).trace =
      [.watch s.serviceName] ++ (s.consume ds).2.flatten ++
        [.logWarn "address channel closed, attempting to reconnect...", .sleep second, .done] ∧
    (simpleLBWatcherResolver.run exWatch [.opened [] .closed]).trace =
      [.watch "test-service", .logWarn "address channel closed, attempting to reconnect...",
        .sleep 1000000000, .done] ∧
    (s.run [.openFailed err true]).trace =
      [.watch s.serviceName, .logError "failed to start watching addresses",
        .reportError err, .done] := by
  refine ⟨?_, by decide, ?_⟩
  · simp [simpleLBWatcherResolver.run, WatchRunResult.trace,
      simpleLBWatcherResolver.reconnectLoop, AttemptRecord.events]
  · simp [simpleLBWatcherResolver.run, WatchRunResult.trace,
      simpleLBWatcherResolver.reconnectLoop, AttemptRecord.events]

/-! ## Errors do not end the task -/

theorem watch_reconnectLoop_all_passes (script : List WatchAttempt)
    (hnc : ∀ a ∈ script, a.isCancelled = false) :
    ∀ (s : simpleLBWatcherResolver), (s.reconnectLoop script).2.length = script.length := by
  induction script with
  | nil => intro s; simp [simpleLBWatcherResolver.reconnectLoop]
  | cons a script ih =>
    intro s
    have hrest : ∀ a ∈ script, a.isCancelled = false := fun x hx =>
      hnc x (List.mem_cons_of_mem _ hx)
    have ha := hnc a (List.mem_cons_self _ _)
    cases a with
    | openFailed err c =>
      simp only [WatchAttempt.isCancelled] at ha
      subst ha
      simpa [simpleLBWatcherResolver.reconnectLoop] using ih hrest s
    | opened ds fin =>
      cases fin with
      | cancelled => simp [WatchAttempt.isCancelled] at ha
      | closed => simpa [simpleLBWatcherResolver.reconnectLoop] using ih hrest _

theorem tickLoop_cons (s : simpleLBResolver) (env : CycleEnv) (rest : List CycleEnv) :
    (s.tickLoop (env :: rest)).2.1 =
      (s.updateAddresses env).events :: ((s.updateAddresses env).state.tickLoop rest).2.1 := by
  simp [simpleLBResolver.tickLoop, updateAddresses_not_panicked s env]

theorem updateAddresses_reports_rejected (s : simpleLBResolver) (env : CycleEnv)
    (b : List Address) (e : GoError)
    (h : (retryWithJitter env.retry 3 second s.serviceName).2 = .returned b none)
    (hch : changed s.lastAddress b = true) (hfail : env.updateResult = some e) :
    reportErrorCalls (s.updateAddresses env).events = [e] := by
  rw [(updateAddresses_of_acquired s env b h).2.1, reportErrorCalls_append,
    poll_diffPublish_reports, if_pos hch, hfail]
  simp [retryWithJitter, (retryLoop_no_sink_call _ _ _ _ _).2]

/-- C16 as stated fails: with an interval of 0 the call `time.NewTicker(s.interval)` panics
after the initial cycle, so the poll task ends although its context is not cancelled: the
tick that the script still holds is never processed. -/
theorem C16_errors_never_fatal_counterexample :
    (simpleLBResolver.run { exPoll with interval := 0 } (exCycle ["A"] none)
      [exCycle ["B"] none]).panicked = true ∧
    (simpleLBResolver.run { exPoll with interval := 0 } (exCycle ["A"] none)
      [exCycle ["B"] none]).steps.length = 1 ∧
    updateStateCalls (simpleLBResolver.run { exPoll with interval := 0 } (exCycle ["A"] none)
      [exCycle ["B"] none]).trace = [stateOf ["A"]] :=
  ⟨by decide, by decide, by decide⟩

/-- C16, amended: provided the interval of the poll engine is positive, no runtime error ends
a background task. The poll task performs every cycle of its script and does not panic, and
the watch task performs every pass of a script that holds no cancellation, so the tasks end
only when the context is done. A cycle whose retry fails reports that error once and the
loop goes on from the same resolver; a failed `UpdateState` is reported once and the loop
goes on; a failed `Watch` is reported once and the reconnection loop goes on. -/
theorem C16_errors_reported_never_fatal (sp : simpleLBResolver) (first : CycleEnv)
    (ticks : List CycleEnv) (sw : simpleLBWatcherResolver) (script : List WatchAttempt)
    (hint : 0 < sp.interval) (hnc : ∀ a ∈ script, a.isCancelled = false) :
    ((sp.run first ticks).panicked = false ∧
      (sp.run first ticks).steps.length = ticks.length + 1) ∧
    (sw.run script).passes.length = script.length ∧
    (∀ (s : simpleLBResolver) (env : CycleEnv) (addresses : List Address) (e : GoError)
        (rest : List CycleEnv),
      (retryWithJitter env.retry 3 second s.serviceName).2 = .returned addresses (some e) →
      reportErrorCalls (s.updateAddresses env).events = [e] ∧
      (s.updateAddresses env).panicked = false ∧
      (s.tickLoop (env :: rest)).2.1 = (s.updateAddresses env).events :: (s.tickLoop rest).2.1) ∧
    (∀ (s : simpleLBResolver) (env : CycleEnv) (b : List Address) (e : GoError)
        (rest : List CycleEnv),
      (retryWithJitter env.retry 3 second s.serviceName).2 = .returned b none →
      changed s.lastAddress b = true → env.updateResult = some e →
      reportErrorCalls (s.updateAddresses env).events = [e] ∧
      (s.updateAddresses env).panicked = false ∧
      (s.tickLoop (env :: rest)).2.1 =
        (s.updateAddresses env).events :: ((s.updateAddresses env).state.tickLoop rest).2.1) ∧
    (∀ (s : simpleLBWatcherResolver) (err : GoError) (rest : List WatchAttempt),
      ∃ p, (s.reconnectLoop (.openFailed err false :: rest)).2 = p :: (s.reconnectLoop rest).2 ∧
        reportErrorCalls p.events = [err]) ∧
    (∀ (s : simpleLBWatcherResolver) (b : List Address) (e : GoError) (rest : List Delivery),
      changed s.lastAddress b = true →
      reportErrorCalls (s.diffPublish b (some e)).events = [e] ∧
      (s.consume ((b, some e) :: rest)).2 =
        (s.diffPublish b (some e)).events ::
          ((s.diffPublish b (some e)).state.consume rest).2) := by
  refine ⟨poll_run_all_processed sp first ticks hint,
    watch_reconnectLoop_all_passes script hnc sw, ?_, ?_, ?_, ?_⟩
  · intro s env addresses e rest h
    obtain ⟨h1, _, h3⟩ := updateAddresses_of_failed s env addresses e h
    refine ⟨h1, updateAddresses_not_panicked s env, ?_⟩
    rw [tickLoop_cons, h3]
  · intro s env b e rest h hch hfail
    exact ⟨updateAddresses_reports_rejected s env b e h hch hfail,
      updateAddresses_not_panicked s env, tickLoop_cons s env rest⟩
  · intro s err rest
    refine ⟨⟨[.watch s.serviceName, .logError "failed to start watching addresses",
      .reportError err, .sleep second], [], []⟩, ?_, ?_⟩
    · simp [simpleLBWatcherResolver.reconnectLoop]
    · simp [AttemptRecord.events, reportErrorCalls]
  · intro s b e rest hch
    refine ⟨?_, ?_⟩
    · rw [watch_diffPublish_reports, if_pos hch]; rfl
    · simp [simpleLBWatcherResolver.consume]

/-- C16 on a poll run whose first cycle exhausts its retries and whose second has its
`UpdateState` rejected, and on a watch run whose first `Watch` fails and whose stream has its
`UpdateState` rejected: neither task panics and both go through their whole script. -/
theorem C16_errors_reported_never_fatal_witness :
    ((simpleLBResolver.run exPoll { retry := exDown 0, updateResult := none }
        [exCycle ["A"] (some "rejected")]).panicked = false ∧
      (simpleLBResolver.run exPoll { retry := exDown 0, updateResult := none }
        [exCycle ["A"] (some "rejected")]).steps.length = 1 + 1) ∧
    (simpleLBWatcherResolver.run exWatch
      [.openFailed "watch failed" false, .opened [(["A"], some "rejected")] .closed]).passes.length
      = 2 := by
  have h := C16_errors_reported_never_fatal exPoll { retry := exDown 0, updateResult := none }
    [exCycle ["A"] (some "rejected")] exWatch
    [.openFailed "watch failed" false, .opened [(["A"], some "rejected")] .closed]
    (by decide) (by simp [WatchAttempt.isCancelled])
  exact ⟨h.1, h.2.1⟩

/-! ## The two diff-and-publish steps -/

theorem poll_diffPublish_sinkCalls (s : simpleLBResolver) (b : List Address)
    (u : Option GoError) :
    sinkCalls (s.diffPublish b u).events =
      if changed s.lastAddress b then
        Event.updateState (stateOf b) :: (u.toList.map Event.reportError)
      else [] := by
  simp only [simpleLBResolver.diffPublish, changed]
  split <;> [skip; rfl]
  cases u <;> rfl

theorem watch_diffPublish_sinkCalls (s : simpleLBWatcherResolver) (b : List Address)
    (u : Option GoError) :
    sinkCalls (s.diffPublish b u).events =
      if changed s.lastAddress b then
        Event.updateState (stateOf b) :: (u.toList.map Event.reportError)
      else [] := by
  simp only [simpleLBWatcherResolver.diffPublish, changed]
  split <;> [skip; rfl]
  cases u <;> rfl

/-- C17: from the same `lastAddress`, on the same batch and with the same result of
`UpdateState`, the step of the poll engine after the acquisition and the step of the watch
engine on a batch make the same sink calls in the same order (`UpdateState` with the state of
the batch, then `ReportError` with the error if `UpdateState` failed; none if the batch brings
no change) and leave the same `lastAddress`. -/
theorem C17_shared_diff_publish (sp : simpleLBResolver) (sw : simpleLBWatcherResolver)
    (b : List Address) (u : Option GoError) (h : sp.lastAddress = sw.lastAddress) :
    sinkCalls (sp.diffPublish b u).events = sinkCalls (sw.diffPublish b u).events ∧
    sinkCalls (sp.diffPublish b u).events =
      (if changed sp.lastAddress b then
        Event.updateState (stateOf b) :: (u.toList.map Event.reportError)
      else []) ∧
    (sp.diffPublish b u).state.lastAddress = (sw.diffPublish b u).state.lastAddress ∧
    (sp.diffPublish b u).state.lastAddress =
      (if changed sp.lastAddress b then b else sp.lastAddress) := by
  refine ⟨?_, poll_diffPublish_sinkCalls sp b u, ?_, ?_⟩
  · rw [poll_diffPublish_sinkCalls, watch_diffPublish_sinkCalls, h]
  · rw [poll_diffPublish_state, watch_diffPublish_state, h]
    split <;> simp [h]
  · rw [poll_diffPublish_state]
    split <;> rfl

/-- C17 on the batch `[A]` whose `UpdateState` is rejected, from an empty `lastAddress`. -/
theorem C17_shared_diff_publish_witness :
    sinkCalls (simpleLBResolver.diffPublish exPoll ["A"] (some "rejected")).events =
      sinkCalls (simpleLBWatcherResolver.diffPublish exWatch ["A"] (some "rejected")).events ∧
    sinkCalls (simpleLBResolver.diffPublish exPoll ["A"] (some "rejected")).events =
      [.updateState (stateOf ["A"]), .reportError "rejected"] := by
  have h := C17_shared_diff_publish exPoll exWatch ["A"] (some "rejected") rfl
  exact ⟨h.1, h.2.1.trans (by decide)⟩

/-! ## The Kubernetes puller -/

theorem foldl_append_flatMap {α β : Type} (h : α → List β) (l : List α) :
    ∀ acc : List β, l.foldl (fun acc x => acc ++ h x) acc = acc ++ l.flatMap h := by
  induction l with
  | nil => intro acc; simp
  | cons x l ih => intro acc; simp [ih]

theorem foldl_append_singleton_map {α β : Type} (f : α → β) (l : List α) (acc : List β) :
    l.foldl (fun acc x => acc ++ [f x]) acc = acc ++ l.map f := by
  rw [foldl_append_flatMap (fun x => [f x]) l acc]
  congr 1
  induction l with
  | nil => rfl
  | cons x l ih => simp [List.flatMap_cons, ih]

theorem extractAddresses_eq_flattened (endpoints : Endpoints) :
    extractAddresses endpoints = flattenedEndpoints endpoints := by
  unfold extractAddresses flattenedEndpoints
  have haddr : ∀ subset : EndpointSubset,
      (fun (addresses : List Address) (addr : EndpointAddress) =>
        if subset.Ports.length > 0 then
          subset.Ports.foldl
            (fun addresses port => addresses ++ [addr.IP ++ ":" ++ toString port.Port])
            addresses
        else addresses ++ [addr.IP]) =
      (fun addresses addr => addresses ++
        (if subset.Ports = [] then [addr.IP]
         else subset.Ports.map (fun port => addr.IP ++ ":" ++ toString port.Port))) := by
    intro subset
    funext addresses addr
    cases hp : subset.Ports with
    | nil => simp
    | cons p ps =>
      rw [← hp, foldl_append_singleton_map]
      simp [hp]
  have hsub : (fun (addresses : List Address) (subset : EndpointSubset) =>
      subset.Addresses.foldl
        (fun addresses addr =>
          if subset.Ports.length > 0 then
            subset.Ports.foldl
              (fun addresses port => addresses ++ [addr.IP ++ ":" ++ toString port.Port])
              addresses
          else addresses ++ [addr.IP]) addresses) =
      (fun addresses subset => addresses ++ subset.Addresses.flatMap (fun addr =>
        if subset.Ports = [] then [addr.IP]
        else subset.Ports.map (fun port => addr.IP ++ ":" ++ toString port.Port))) := by
    funext addresses subset
    rw [haddr subset, foldl_append_flatMap]
  rw [hsub, foldl_append_flatMap]
  simp

theorem flattened_subset_length (subset : EndpointSubset) :
    (subset.Addresses.flatMap (fun addr =>
      if subset.Ports = [] then [addr.IP]
      else subset.Ports.map (fun port => addr.IP ++ ":" ++ toString port.Port))).length =
      subset.Addresses.length * max 1 subset.Ports.length := by
  induction subset.Addresses with
  | nil => simp
  | cons a as ih =>
    rw [List.flatMap_cons, List.length_append, ih, List.length_cons, Nat.succ_mul]
    cases hp : subset.Ports with
    | nil => simp; omega
    | cons p ps => simp; omega

theorem flattened_length (subsets : List EndpointSubset) :
    (flattenedEndpoints ⟨subsets⟩).length =
      (subsets.map (fun subset => subset.Addresses.length * max 1 subset.Ports.length)).sum := by
  unfold flattenedEndpoints
  induction subsets with
  | nil => rfl
  | cons s ss ih =>
    simp only [List.flatMap_cons, List.length_append, List.map_cons, List.sum_cons]
    rw [flattened_subset_length]
    simp only at ih
    rw [ih]

/-- C18: `extractAddresses` returns, subsets in order and the addresses of a subset in order,
one entry `IP:port` per port of the subset in port order when the subset has a port, and the
single entry `IP` when it has none; its length is the sum over the subsets of
`|Addresses| * max(1, |Ports|)`, it is empty for an object without subsets, and
`K8sAddressPuller.Pull` returns that list with a nil error when `Get` succeeds and no
addresses with an error when `Get` fails. -/
theorem C18_endpoint_flattening (endpoints : Endpoints) (serviceName : String)
    (err : GoError) :
    extractAddresses endpoints = flattenedEndpoints endpoints ∧
    (extractAddresses endpoints).length =
      (endpoints.Subsets.map
        (fun subset => subset.Addresses.length * max 1 subset.Ports.length)).sum ∧
    extractAddresses ⟨[]⟩ = [] ∧
    K8sAddressPuller.Pull (.ok endpoints) serviceName = (extractAddresses endpoints, none) ∧
    (K8sAddressPuller.Pull (.error err) serviceName).1 = [] ∧
    (K8sAddressPuller.Pull (.error err) serviceName).2 ≠ none ∧
    extractAddresses ⟨[⟨[⟨"10.0.0.1"⟩, ⟨"10.0.0.2"⟩], [⟨8080⟩]⟩]⟩ =
      ["10.0.0.1:8080", "10.0.0.2:8080"] ∧
    extractAddresses ⟨[⟨[⟨"10.0.0.1"⟩], []⟩]⟩ = ["10.0.0.1"] := by
  refine ⟨extractAddresses_eq_flattened endpoints, ?_, rfl, rfl, rfl,
    by simp [K8sAddressPuller.Pull], by decide, by decide⟩
  rw [extractAddresses_eq_flattened]
  exact flattened_length endpoints.Subsets

/-! ## The jitter bound -/

theorem backoffAt_eq (initial : Int) (h2 : 2 ≤ initial) :
    ∀ i : Nat, initial * 2 ^ i < 2 ^ 63 → backoffAt initial i = initial * 2 ^ i := by
  intro i
  induction i with
  | zero => intro _; simp [backoffAt]
  | succ i ih =>
    intro hfit
    have hpow : initial * 2 ^ (i + 1) = initial * 2 ^ i * 2 := by ring
    have hpos : (1 : Int) ≤ 2 ^ i := one_le_pow₀ (by decide)
    have hge : initial ≤ initial * 2 ^ i := le_mul_of_one_le_right (by omega) hpos
    have hprev : initial * 2 ^ i < 2 ^ 63 := by omega
    rw [backoffAt, ih hprev, hpow]
    exact wrap64_of_fit _ (by omega) (by omega)

theorem jitterBound_pos (initial : Int) (h2 : 2 ≤ initial) (i : Nat)
    (hfit : initial * 2 ^ i < 2 ^ 63) : 0 < jitterBound initial i := by
  have hpos : (1 : Int) ≤ 2 ^ i := one_le_pow₀ (by decide)
  have hge : initial ≤ initial * 2 ^ i := le_mul_of_one_le_right (by omega) hpos
  rw [jitterBound, backoffAt_eq initial h2 i hfit]
  obtain ⟨hdiv, hp⟩ := tdiv_two_of_two_le (initial * 2 ^ i) (by omega)
  rw [hdiv]
  exact hp

/-- On a puller that fails at every call, without cancellation, the loop panics exactly when
it reaches an attempt whose jitter bound is not positive. -/
theorem retryLoop_panic_iff (env : RetryEnv) (name : String) (initial : Int)
    (hfail : ∀ j, ∃ e, env.pull j = .fail e) (hc : ∀ j, env.cancelled j = false) :
    ∀ (left i : Nat), (retryLoop env name left i (backoffAt initial i)).2 = .panicked ↔
      ∃ j, i ≤ j ∧ j < i + left ∧ jitterBound initial j ≤ 0 := by
  intro left
  induction left with
  | zero =>
    intro i
    simp only [retryLoop]
    constructor
    · intro h; exact absurd h (by simp)
    · rintro ⟨j, h1, h2, _⟩; omega
  | succ left ih =>
    intro i
    obtain ⟨e, he⟩ := hfail i
    unfold retryLoop
    simp only [he]
    by_cases hb : jitterBound initial i ≤ 0
    · have hnone : Int63n (env.rand i) (Int.tdiv (backoffAt initial i) 2) = none := by
        simp only [Int63n]
        exact if_pos hb
      simp only [hnone]
      exact ⟨fun _ => ⟨i, le_refl _, by omega, hb⟩, fun _ => trivial⟩
    · have hsome := Int63n_of_pos (env.rand i) (Int.tdiv (backoffAt initial i) 2)
        (not_le.mp hb)
      simp only [hsome, hc i, Bool.false_eq_true, if_false]
      have hih := ih (i + 1)
      simp only [backoffAt] at hih
      rw [hih]
      constructor
      · rintro ⟨j, h1, h2, h3⟩
        exact ⟨j, by omega, by omega, h3⟩
      · rintro ⟨j, h1, h2, h3⟩
        rcases Nat.eq_or_lt_of_le h1 with heq | hlt
        · subst heq; exact absurd h3 hb
        · exact ⟨j, by omega, by omega, h3⟩

set_option maxRecDepth 8192

/-- C23 as stated fails: with an initial delay of one nanosecond, which is positive, the
jitter bound of the first failed attempt is `0` and `rand.Int63n` panics; with an initial
delay of one second the 64-bit doubling makes the bound of the attempt of index 34 negative,
and a call with 35 attempts panics. -/
theorem C23_retry_parameters_counterexample :
    (0 : Int) < 1 ∧ jitterBound 1 0 = 0 ∧ Int63n 7 (jitterBound 1 0) = none ∧
    (retryWithJitter (exDown 7) 1 1 "svc").2 = .panicked ∧
    jitterBound second 34 = -633437444854775808 ∧
    (retryWithJitter (exDown 7) 35 second "svc").2 = .panicked :=
  ⟨by decide, by decide, by decide, by decide, by rfl, by decide⟩

/-- C23, amended: for `attempts >= 1`, an initial delay of at least 2ns and
`initial * 2^(attempts-1)` within `int64`, the delay at the attempt `i < attempts` is
`initial * 2^i`, the jitter bound passed to `rand.Int63n` at that attempt is strictly
positive, and no call of `retryWithJitter` panics, whatever the puller, the draws and the
cancellation do. In general, on a puller that always fails and without cancellation, the call
panics exactly when some attempt `i < attempts` has a jitter bound that is not positive. -/
theorem C23_retry_parameters_safe (attempts initial : Int) (h1 : 1 ≤ attempts)
    (h2 : 2 ≤ initial) (h3 : initial * 2 ^ (attempts.toNat - 1) < 2 ^ 63) :
    (∀ i : Nat, (i : Int) < attempts →
      backoffAt initial i = initial * 2 ^ i ∧ 0 < jitterBound initial i) ∧
    (∀ (env : RetryEnv) (name : String),
      (retryWithJitter env attempts initial name).2 ≠ .panicked) ∧
    (∀ (env : RetryEnv) (name : String) (attempts0 initial0 : Int),
      (∀ j, ∃ e, env.pull j = .fail e) → (∀ j, env.cancelled j = false) →
      ((retryWithJitter env attempts0 initial0 name).2 = .panicked ↔
        ∃ i : Nat, (i : Int) < attempts0 ∧ jitterBound initial0 i ≤ 0)) := by
  refine ⟨?_, ?_, ?_⟩
  · intro i hi
    have hle : i ≤ attempts.toNat - 1 := by omega
    have hpow : (2 : Int) ^ i ≤ 2 ^ (attempts.toNat - 1) :=
      pow_le_pow_right₀ (by decide) hle
    have hfit : initial * 2 ^ i < 2 ^ 63 :=
      lt_of_le_of_lt (mul_le_mul_of_nonneg_left hpow (by omega)) h3
    exact ⟨backoffAt_eq initial h2 i hfit, jitterBound_pos initial h2 i hfit⟩
  · intro env name
    exact retryLoop_no_panic env name attempts.toNat 0 initial h2 h3
  · intro env name attempts0 initial0 hfail hc
    have h := retryLoop_panic_iff env name initial0 hfail hc attempts0.toNat 0
    simp only [backoffAt] at h
    rw [retryWithJitter, h]
    constructor
    · rintro ⟨j, _, hj, hb⟩
      exact ⟨j, by omega, hb⟩
    · rintro ⟨j, hj, hb⟩
      exact ⟨j, Nat.zero_le _, by omega, hb⟩

/-- C23 at the values that the poll engine passes, 3 attempts and one second: the three
jitter bounds are positive. -/
theorem C23_retry_parameters_safe_witness :
    (backoffAt second 2 = second * 2 ^ 2 ∧ 0 < jitterBound second 2) ∧
    (retryWithJitter (exDown 7) 3 second "svc").2 ≠ .panicked := by
  have h := C23_retry_parameters_safe 3 second (by decide) (by decide) (by decide)
  exact ⟨h.1 2 (by decide), h.2.1 (exDown 7) "svc"⟩

/-! ## The wait after the last attempt -/

theorem retryLoop_all_fail_trace (env : RetryEnv) (name : String) (initial : Int)
    (hc : ∀ j, env.cancelled j = false) :
    ∀ (left i : Nat), (∀ j, i ≤ j → j < i + left → ∃ e, env.pull j = .fail e) →
      (∀ j, i ≤ j → j < i + left → 0 < jitterBound initial j) →
      (retryLoop env name left i (backoffAt initial i)).1 =
        (List.range' i left).flatMap (fun j =>
          [Event.pull name,
           Event.wait (wrap64 (backoffAt initial j +
             (env.rand j : Int) % jitterBound initial j))]) ∧
      (retryLoop env name left i (backoffAt initial i)).2 =
        .returned [] (some errRetryExhausted) := by
  intro left
  induction left with
  | zero => intro i _ _; simp [retryLoop]
  | succ left ih =>
    intro i hfail hpos
    obtain ⟨e, he⟩ := hfail i (le_refl _) (by omega)
    have hb := hpos i (le_refl _) (by omega)
    have hsome := Int63n_of_pos (env.rand i) (Int.tdiv (backoffAt initial i) 2) hb
    have hih := ih (i + 1) (fun j h1 h2 => hfail j (by omega) (by omega))
      (fun j h1 h2 => hpos j (by omega) (by omega))
    simp only [backoffAt] at hih
    unfold retryLoop
    simp only [he, hsome, hc i, Bool.false_eq_true, if_false, hih.1, hih.2, and_true]
    rw [List.range'_succ, List.flatMap_cons]
    rfl

theorem waits_pull_wait (name : String) (f : Nat → Int) (l : List Nat) :
    (waits (l.flatMap (fun j => [Event.pull name, Event.wait (f j)]))).length = l.length ∧
    pullCalls (l.flatMap (fun j => [Event.pull name, Event.wait (f j)])) = l.length := by
  induction l with
  | nil => simp [waits, pullCalls]
  | cons x l ih =>
    rw [List.flatMap_cons]
    change (waits (Event.pull name :: Event.wait (f x) ::
        l.flatMap (fun j => [Event.pull name, Event.wait (f j)]))).length = (x :: l).length ∧
      pullCalls (Event.pull name :: Event.wait (f x) ::
        l.flatMap (fun j => [Event.pull name, Event.wait (f j)])) = (x :: l).length
    simp only [waits, pullCalls, List.length_cons, ih.1, ih.2, and_self]

/-- A cancellation during the wait after the failed attempt of index `i + m`, the loop being
entered at index `i`. -/
theorem retryLoop_cancel_at (env : RetryEnv) (name : String) (initial : Int) :
    ∀ (m left i : Nat), m < left →
      (∀ j, i ≤ j → j ≤ i + m → ∃ e, env.pull j = .fail e) →
      (∀ j, i ≤ j → j ≤ i + m → 0 < jitterBound initial j) →
      (∀ j, i ≤ j → j < i + m → env.cancelled j = false) →
      env.cancelled (i + m) = true →
      (retryLoop env name left i (backoffAt initial i)).2 = .returned [] (some env.ctxErr) ∧
      pullCalls (retryLoop env name left i (backoffAt initial i)).1 = m + 1 ∧
      (waits (retryLoop env name left i (backoffAt initial i)).1).length = m := by
  intro m
  induction m with
  | zero =>
    intro left i hlt hfail hpos _ hcancel
    obtain ⟨l, rfl⟩ : ∃ l, left = l + 1 := ⟨left - 1, by omega⟩
    obtain ⟨e, he⟩ := hfail i (le_refl _) (by omega)
    have hsome := Int63n_of_pos (env.rand i) (Int.tdiv (backoffAt initial i) 2)
      (hpos i (le_refl _) (by omega))
    simp only [Nat.add_zero] at hcancel
    unfold retryLoop
    simp [he, hsome, hcancel, pullCalls, waits]
  | succ m ih =>
    intro left i hlt hfail hpos hnc hcancel
    obtain ⟨l, rfl⟩ : ∃ l, left = l + 1 := ⟨left - 1, by omega⟩
    obtain ⟨e, he⟩ := hfail i (le_refl _) (by omega)
    have hsome := Int63n_of_pos (env.rand i) (Int.tdiv (backoffAt initial i) 2)
      (hpos i (le_refl _) (by omega))
    have hih := ih l (i + 1) (by omega) (fun j h1 h2 => hfail j (by omega) (by omega))
      (fun j h1 h2 => hpos j (by omega) (by omega))
      (fun j h1 h2 => hnc j (by omega) (by omega))
      (by rw [← hcancel]; congr 1; omega)
    simp only [backoffAt] at hih
    unfold retryLoop
    simp only [he, hsome, hnc i (le_refl _) (by omega), Bool.false_eq_true, if_false]
    exact ⟨hih.1, by simp [pullCalls, hih.2.1], by simp [waits, hih.2.2]⟩

/-- C25 as stated fails: with one attempt and an initial delay of one nanosecond the call
makes no wait at all after its failed pull and does not return the exhaustion error, because
the jitter bound is `0` and `rand.Int63n` panics. -/
theorem C25_wait_after_last_attempt_counterexample :
    (∀ i, (exDown 3).pull i = .fail "unreachable") ∧
    (∀ i, (exDown 3).cancelled i = false) ∧
    waits (retryWithJitter (exDown 3) 1 1 "svc").1 = [] ∧
    chosenWaits (retryWithJitter (exDown 3) 1 1 "svc").1 = [] ∧
    (retryWithJitter (exDown 3) 1 1 "svc").2 = .panicked :=
  ⟨fun _ => rfl, fun _ => rfl, by decide, by decide, by decide⟩

/-- C25, amended: for `attempts >= 1`, an initial delay of at least 2ns and
`initial * 2^(attempts-1)` within `int64`, on a puller that fails at every attempt: without
cancellation the trace of `retryWithJitter` is, for each attempt `0 .. attempts-1` in turn,
one `Pull` followed by one backoff wait, the last attempt included, so it makes exactly
`attempts` waits before it returns the exhaustion error; and when the context is cancelled
during the wait that follows the last failed attempt, it returns the error of the context
instead, after `attempts` pulls. -/
theorem C25_wait_after_last_attempt (env : RetryEnv) (attempts initial : Int) (name : String)
    (h1 : 1 ≤ attempts) (h2 : 2 ≤ initial) (h3 : initial * 2 ^ (attempts.toNat - 1) < 2 ^ 63)
    (hfail : ∀ i : Nat, (i : Int) < attempts → ∃ e, env.pull i = .fail e) :
    ((∀ i, env.cancelled i = false) →
      (retryWithJitter env attempts initial name).1 =
        (List.range attempts.toNat).flatMap (fun i =>
          [Event.pull name,
           Event.wait (wrap64 (backoffAt initial i +
             (env.rand i : Int) % jitterBound initial i))]) ∧
      (retryWithJitter env attempts initial name).2 = .returned [] (some errRetryExhausted) ∧
      ((waits (retryWithJitter env attempts initial name).1).length : Int) = attempts ∧
      (pullCalls (retryWithJitter env attempts initial name).1 : Int) = attempts) ∧
    ((∀ i : Nat, (i : Int) + 1 < attempts → env.cancelled i = false) →
      env.cancelled (attempts.toNat - 1) = true →
      (retryWithJitter env attempts initial name).2 = .returned [] (some env.ctxErr) ∧
      (pullCalls (retryWithJitter env attempts initial name).1 : Int) = attempts ∧
      ((waits (retryWithJitter env attempts initial name).1).length : Int) + 1 = attempts) := by
  have hnat : (attempts.toNat : Int) = attempts := Int.toNat_of_nonneg (by omega)
  have hpos : ∀ j : Nat, j < attempts.toNat → 0 < jitterBound initial j := by
    intro j hj
    have hpow : (2 : Int) ^ j ≤ 2 ^ (attempts.toNat - 1) :=
      pow_le_pow_right₀ (by decide) (by omega)
    exact jitterBound_pos initial h2 j
      (lt_of_le_of_lt (mul_le_mul_of_nonneg_left hpow (by omega)) h3)
  constructor
  · intro hc
    have h := retryLoop_all_fail_trace env name initial hc attempts.toNat 0
      (fun j _ hj => hfail j (by omega)) (fun j _ hj => hpos j (by omega))
    simp only [backoffAt] at h
    have htrace : (retryWithJitter env attempts initial name).1 =
        (List.range attempts.toNat).flatMap (fun i =>
          [Event.pull name,
           Event.wait (wrap64 (backoffAt initial i +
             (env.rand i : Int) % jitterBound initial i))]) := by
      rw [retryWithJitter, h.1, List.range_eq_range']
    have hcount := waits_pull_wait name
      (fun i => wrap64 (backoffAt initial i + (env.rand i : Int) % jitterBound initial i))
      (List.range attempts.toNat)
    refine ⟨htrace, h.2, ?_, ?_⟩
    · rw [htrace, hcount.1, List.length_range, hnat]
    · rw [htrace, hcount.2, List.length_range, hnat]
  · intro hnc hcancel
    have h := retryLoop_cancel_at env name initial (attempts.toNat - 1) attempts.toNat 0
      (by omega) (fun j _ hj => hfail j (by omega)) (fun j _ hj => hpos j (by omega))
      (fun j _ hj => hnc j (by omega)) (by simpa using hcancel)
    simp only [backoffAt] at h
    refine ⟨h.1, ?_, ?_⟩
    · rw [retryWithJitter, h.2.1]; omega
    · rw [retryWithJitter, h.2.2]; omega

/-- C25 at 3 attempts and one second: three waits on permanent failure, and the error of the
context when the third wait is cut short. -/
theorem C25_wait_after_last_attempt_witness :
    (waits (retryWithJitter (exDown 0) 3 second "svc").1 =
        [1000000000, 2000000000, 4000000000] ∧
      (retryWithJitter (exDown 0) 3 second "svc").2 = .returned [] (some errRetryExhausted)) ∧
    (retryWithJitter (exCancelAt 2) 3 second "svc").2 =
      .returned [] (some "context canceled") := by
  have hd := (C25_wait_after_last_attempt (exDown 0) 3 second "svc" (by decide) (by decide)
    (by decide) (fun i _ => ⟨"unreachable", rfl⟩)).1 (fun _ => rfl)
  have hc := (C25_wait_after_last_attempt (exCancelAt 2) 3 second "svc" (by decide)
    (by decide) (by decide) (fun i _ => ⟨"unreachable", rfl⟩)).2
    (fun i hi => by
      have : i ≠ 2 := by omega
      simp [exCancelAt, this])
    rfl
  exact ⟨⟨by decide, hd.2.1⟩, hc.1⟩

/-! ## Empty batches -/

theorem changed_nil_nil : changed [] [] = false := rfl

theorem updateAddresses_serviceName (s : simpleLBResolver) (env : CycleEnv) :
    (s.updateAddresses env).state.serviceName = s.serviceName := by
  unfold simpleLBResolver.updateAddresses
  generalize retryWithJitter env.retry 3 second s.serviceName = r
  obtain ⟨evs, out⟩ := r
  cases out with
  | panicked => rfl
  | returned addresses err =>
    cases err with
    | some e => rfl
    | none =>
      simp only [simpleLBResolver.afterRetry, poll_diffPublish_state]
      split <;> rfl

/-- A poll cycle that starts from an empty `lastAddress` and acquires no address calls no
`UpdateState` and leaves `lastAddress` empty. -/
theorem updateAddresses_quiet (s : simpleLBResolver) (env : CycleEnv) (h0 : s.lastAddress = [])
    (hq : ∀ b, (retryWithJitter env.retry 3 second s.serviceName).2 = .returned b none →
      b = []) :
    updateStateCalls (s.updateAddresses env).events = [] ∧
    (s.updateAddresses env).state.lastAddress = [] := by
  have hupd : updateStateCalls (s.updateAddresses env).events = [] := by
    rcases updateAddresses_updates_cases s env with ⟨b, hb⟩ | hnone
    · rw [updateAddresses_updates_of_acquired s env b hb, hq b hb, h0, changed_nil_nil]
      rfl
    · exact hnone
  refine ⟨hupd, ?_⟩
  rcases poll_cycle_step s env with ⟨_, h2⟩ | ⟨b, h1, _⟩
  · rw [h2, h0]
  · rw [hupd] at h1
    exact absurd h1 (by simp)

theorem tickLoop_quiet (name : String) (envs : List CycleEnv)
    (hq : ∀ env ∈ envs, ∀ b,
      (retryWithJitter env.retry 3 second name).2 = .returned b none → b = []) :
    ∀ (s : simpleLBResolver), s.serviceName = name → s.lastAddress = [] →
      updateStateCalls (s.tickLoop envs).2.1.flatten = [] ∧
      (s.tickLoop envs).1.lastAddress = [] ∧ (s.tickLoop envs).1.serviceName = name := by
  induction envs with
  | nil => intro s hn h0; simp [simpleLBResolver.tickLoop, updateStateCalls, h0, hn]
  | cons env envs ih =>
    intro s hn h0
    subst hn
    obtain ⟨h1, h2⟩ := updateAddresses_quiet s env h0 (hq env (List.mem_cons_self _ _))
    obtain ⟨h3, h4, h5⟩ := ih (fun e he => hq e (List.mem_cons_of_mem _ he))
      (s.updateAddresses env).state (updateAddresses_serviceName s env) h2
    simp [simpleLBResolver.tickLoop, updateAddresses_not_panicked s env,
      updateStateCalls_append, h1, h3, h4, h5]

theorem tickLoop_append (pre rest : List CycleEnv) :
    ∀ (s : simpleLBResolver),
      (s.tickLoop (pre ++ rest)).2.1 =
        (s.tickLoop pre).2.1 ++ ((s.tickLoop pre).1.tickLoop rest).2.1 ∧
      ((s.tickLoop pre).2.1).length = pre.length := by
  induction pre with
  | nil => intro s; simp [simpleLBResolver.tickLoop]
  | cons env pre ih =>
    intro s
    obtain ⟨h1, h2⟩ := ih (s.updateAddresses env).state
    simp [simpleLBResolver.tickLoop, updateAddresses_not_panicked s env, h1, h2]

theorem watch_consume_quiet (ds : List Delivery) (hq : ∀ d ∈ ds, d.1 = []) :
    ∀ (s : simpleLBWatcherResolver), s.lastAddress = [] →
      updateStateCalls (s.consume ds).2.flatten = [] ∧ (s.consume ds).1.lastAddress = [] := by
  induction ds with
  | nil => intro s h0; simp [simpleLBWatcherResolver.consume, updateStateCalls, h0]
  | cons d ds ih =>
    obtain ⟨b, u⟩ := d
    intro s h0
    have hb : b = [] := hq (b, u) (List.mem_cons_self _ _)
    subst hb
    have hst : (s.diffPublish [] u).state = s := by
      rw [watch_diffPublish_state, h0, changed_nil_nil]; rfl
    have hupd : updateStateCalls (s.diffPublish [] u).events = [] := by
      rw [watch_diffPublish_updates, h0, changed_nil_nil]; rfl
    obtain ⟨h1, h2⟩ := ih (fun d hd => hq d (List.mem_cons_of_mem _ hd)) s h0
    simp [simpleLBWatcherResolver.consume, updateStateCalls_append, hst, hupd, h1, h2]

theorem watch_consume_append (pre rest : List Delivery) :
    ∀ (s : simpleLBWatcherResolver),
      (s.consume (pre ++ rest)).2 = (s.consume pre).2 ++ ((s.consume pre).1.consume rest).2 ∧
      ((s.consume pre).2).length = pre.length := by
  induction pre with
  | nil => intro s; simp [simpleLBWatcherResolver.consume]
  | cons d pre ih =>
    obtain ⟨b, u⟩ := d
    intro s
    obtain ⟨h1, h2⟩ := ih (s.diffPublish b u).state
    simp [simpleLBWatcherResolver.consume, h1, h2]

theorem watch_reconnectLoop_quiet (script : List WatchAttempt)
    (hq : ∀ a ∈ script, ∀ d ∈ a.batches, d.1 = []) :
    ∀ (s : simpleLBWatcherResolver), s.lastAddress = [] →
      updateStateCalls ((s.reconnectLoop script).2.map AttemptRecord.events).flatten = [] ∧
      (s.reconnectLoop script).1.lastAddress = [] := by
  induction script with
  | nil => intro s h0; simp [simpleLBWatcherResolver.reconnectLoop, updateStateCalls, h0]
  | cons a script ih =>
    intro s h0
    have hrest := ih (fun x hx => hq x (List.mem_cons_of_mem _ hx))
    cases a with
    | openFailed err c =>
      cases c with
      | true =>
        simp [simpleLBWatcherResolver.reconnectLoop, AttemptRecord.events, updateStateCalls, h0]
      | false =>
        obtain ⟨h1, h2⟩ := hrest s h0
        simp [simpleLBWatcherResolver.reconnectLoop, AttemptRecord.events, updateStateCalls, h1,
          h2]
    | opened ds fin =>
      have hds : ∀ d ∈ ds, d.1 = [] := fun d hd =>
        hq (.opened ds fin) (List.mem_cons_self _ _) d (by simpa [WatchAttempt.batches] using hd)
      obtain ⟨hc1, hc2⟩ := watch_consume_quiet ds hds s h0
      cases fin with
      | cancelled =>
        simp [simpleLBWatcherResolver.reconnectLoop, AttemptRecord.events, updateStateCalls,
          updateStateCalls_append, hc1, hc2]
      | closed =>
        obtain ⟨h1, h2⟩ := hrest (s.consume ds).1 hc2
        simp [simpleLBWatcherResolver.reconnectLoop, AttemptRecord.events, updateStateCalls,
          updateStateCalls_append, hc1, h1, h2]

theorem poll_run_quiet_prefix (s : simpleLBResolver) (first : CycleEnv)
    (pre rest : List CycleEnv) (h0 : s.lastAddress = [])
    (hq : ∀ env ∈ first :: pre, ∀ b,
      (retryWithJitter env.retry 3 second s.serviceName).2 = .returned b none → b = []) :
    updateStateCalls ((s.run first (pre ++ rest)).steps.take (pre.length + 1)).flatten = [] := by
  obtain ⟨h1, h2⟩ := updateAddresses_quiet s first h0 (hq first (List.mem_cons_self _ _))
  have hp := updateAddresses_not_panicked s first
  by_cases hi : s.interval ≤ 0
  · simp [simpleLBResolver.run, hp, hi, h1]
  · obtain ⟨ha, hl⟩ := tickLoop_append pre rest (s.updateAddresses first).state
    obtain ⟨h3, _, _⟩ := tickLoop_quiet s.serviceName pre
      (fun e he => hq e (List.mem_cons_of_mem _ he)) (s.updateAddresses first).state
      (updateAddresses_serviceName s first) h2
    simp only [simpleLBResolver.run, hp, hi, Bool.false_eq_true, if_false, ha,
      List.take_succ_cons, List.flatten_cons, updateStateCalls_append, h1, List.nil_append]
    rw [List.take_append_of_le_length (le_of_eq hl.symm), ← hl, List.take_length]
    exact h3

/-- C24: an engine that starts with an empty `lastAddress` makes no `UpdateState` call as
long as every batch it acquires is empty: the change test on two empty lists is false, a poll
run makes no such call in its cycles up to the first one that acquires an address, a stream
of the watch engine makes none for its batches up to the first one that holds an address,
and a whole run whose acquired batches are all empty makes none at all. -/
theorem C24_empty_first_result_not_published (sp : simpleLBResolver) (first : CycleEnv)
    (pre rest : List CycleEnv) (sw : simpleLBWatcherResolver) (script : List WatchAttempt)
    (dpre drest : List Delivery) (hp0 : sp.lastAddress = []) (hw0 : sw.lastAddress = [])
    (hqp : ∀ env ∈ first :: pre, ∀ b,
      (retryWithJitter env.retry 3 second sp.serviceName).2 = .returned b none → b = [])
    (hqw : ∀ a ∈ script, ∀ d ∈ a.batches, d.1 = [])
    (hqd : ∀ d ∈ dpre, d.1 = []) :
    changed [] [] = false ∧
    updateStateCalls ((sp.run first (pre ++ rest)).steps.take (pre.length + 1)).flatten = [] ∧
    updateStateCalls (sp.run first pre).trace = [] ∧
    updateStateCalls (sw.run script).trace = [] ∧
    updateStateCalls ((sw.consume (dpre ++ drest)).2.take dpre.length).flatten = [] := by
  refine ⟨rfl, poll_run_quiet_prefix sp first pre rest hp0 hqp, ?_, ?_, ?_⟩
  · have h := poll_run_quiet_prefix sp first pre [] hp0 hqp
    rw [List.append_nil] at h
    have hlen : (sp.run first pre).steps.length ≤ pre.length + 1 := by
      have hp := updateAddresses_not_panicked sp first
      by_cases hi : sp.interval ≤ 0
      · simp [simpleLBResolver.run, hp, hi]
      · simp [simpleLBResolver.run, hp, hi,
          (tickLoop_all_processed pre (sp.updateAddresses first).state).2]
    rw [List.take_of_length_le hlen] at h
    rw [(poll_run_trace_done sp first pre).1, updateStateCalls_append, h]
    rfl
  · rw [WatchRunResult.trace, updateStateCalls_append]
    have h := (watch_reconnectLoop_quiet script hqw sw hw0).1
    simp only [simpleLBWatcherResolver.run]
    rw [h]
    rfl
  · obtain ⟨ha, hl⟩ := watch_consume_append dpre drest sw
    rw [ha, List.take_append_of_le_length (le_of_eq hl.symm), ← hl, List.take_length]
    exact (watch_consume_quiet dpre hqd sw hw0).1

/-- C24 on a poll run and a watch stream whose first two batches are empty and whose third is
`[A]`: no `UpdateState` call for the first two. -/
theorem C24_empty_first_result_witness :
    updateStateCalls ((simpleLBResolver.run exPoll (exCycle [] none)
      ([exCycle [] none] ++ [exCycle ["A"] none])).steps.take (1 + 1)).flatten = [] ∧
    updateStateCalls ((simpleLBWatcherResolver.consume exWatch
      ([([], none), ([], none)] ++ [(["A"], none)])).2.take 2).flatten = [] := by
  have h := C24_empty_first_result_not_published exPoll (exCycle [] none) [exCycle [] none]
    [exCycle ["A"] none] exWatch [.opened [([], none)] .closed] [([], none), ([], none)]
    [(["A"], none)] rfl rfl
    (by
      intro env henv b hb
      simp only [List.mem_cons, List.mem_singleton, List.not_mem_nil, or_false, or_self]
        at henv
      subst henv
      have hret : (retryWithJitter (exCycle [] none).retry 3 second exPoll.serviceName).2 =
          .returned [] none := by decide
      rw [hret] at hb
      injection hb with hb1 _
      exact hb1.symm)
    (by simp [WatchAttempt.batches])
    (by simp)
  exact ⟨h.2.1, h.2.2.2.2⟩

/-! ## The interval of the poll engine -/

/-- C26: the poll task panics exactly when its interval is not strictly positive. `Build`
does not look at the interval: for every non-empty host it returns a resolver that carries
the interval of the builder, also an interval of 0 as in `TestSimpleLB`, and starts the task.
With an interval that is not positive the task makes its initial cycle, and nothing but that
cycle, before the panic of `time.NewTicker`: no tick of the script is processed. -/
theorem C26_poll_interval_precondition (s : simpleLBResolver) (first : CycleEnv)
    (ticks : List CycleEnv) (b : SimpleLBBuilder) (host : String) (cc : Nat) :
    ((s.run first ticks).panicked = false ↔ 0 < s.interval) ∧
    (host ≠ "" → ∃ r, (b.Build host cc).resolver = some r ∧ r.interval = b.interval ∧
      (b.Build host cc).err = none ∧ (b.Build host cc).events = [.spawn]) ∧
    (s.interval ≤ 0 →
      (s.run first ticks).panicked = true ∧
      (s.run first ticks).steps = [(s.updateAddresses first).events] ∧
      (s.run first ticks).state = (s.updateAddresses first).state ∧
      (s.run first ticks).trace = (s.updateAddresses first).events ++ [.done]) ∧
    (0 < s.interval → (s.run first ticks).steps.length = ticks.length + 1) ∧
    (SimpleLBBuilder.Build { puller := b.puller, interval := 0 } "test-service" cc).err = none := by
  have hp := updateAddresses_not_panicked s first
  refine ⟨?_, ?_, ?_, ?_, by simp [SimpleLBBuilder.Build]⟩
  · constructor
    · intro h
      by_contra hi
      have hi2 : s.interval ≤ 0 := not_lt.mp hi
      simp [simpleLBResolver.run, hp, hi2] at h
    · intro hi
      exact (poll_run_all_processed s first ticks hi).1
  · intro hh
    simp [SimpleLBBuilder.Build, hh]
  · intro hi
    simp [simpleLBResolver.run, RunResult.trace, hp, hi]
  · intro hi
    exact (poll_run_all_processed s first ticks hi).2

/-- C26 on the resolver that `Build` makes in `TestSimpleLB`, with interval 0: the task makes
its initial cycle and panics. -/
theorem C26_poll_interval_precondition_witness :
    (simpleLBResolver.run { exPoll with interval := 0 } (exCycle ["A"] none)
      [exCycle ["B"] none]).panicked = true ∧
    (simpleLBResolver.run { exPoll with interval := 0 } (exCycle ["A"] none)
      [exCycle ["B"] none]).steps =
      [(simpleLBResolver.updateAddresses { exPoll with interval := 0 }
        (exCycle ["A"] none)).events] := by
  have h := (C26_poll_interval_precondition { exPoll with interval := 0 } (exCycle ["A"] none)
    [exCycle ["B"] none] { puller := 2, interval := 0 } "test-service" 1).2.2.1 (by decide)
  exact ⟨h.1, h.2.1⟩

/-! ## Update suppression over a whole run -/

theorem acquiredBatch_eq_some (name : String) (env : CycleEnv) (b : List Address) :
    acquiredBatch name env = some b ↔
      (retryWithJitter env.retry 3 second name).2 = .returned b none := by
  unfold acquiredBatch
  generalize (retryWithJitter env.retry 3 second name).2 = out
  cases out with
  | panicked => simp
  | returned addresses err =>
    cases err with
    | none => simp
    | some e => simp

theorem updateAddresses_of_not_acquired (s : simpleLBResolver) (env : CycleEnv)
    (h : acquiredBatch s.serviceName env = none) :
    updateStateCalls (s.updateAddresses env).events = [] ∧
    (s.updateAddresses env).state.lastAddress = s.lastAddress := by
  rcases updateAddresses_updates_cases s env with ⟨b, hb⟩ | hu
  · rw [(acquiredBatch_eq_some _ _ _).2 hb] at h
    cases h
  · rcases poll_cycle_step s env with h1 | ⟨b, h2, _⟩
    · exact h1
    · rw [hu] at h2
      cases h2

theorem poll_tickLoop_suppression (name : String) (envs : List CycleEnv) :
    ∀ (s : simpleLBResolver) (prev : List Address), s.serviceName = name →
      s.lastAddress.toFinset = prev.toFinset →
      ((envs.zip (s.tickLoop envs).2.1).filter
          (fun p => (acquiredBatch name p.1).isSome)).map
          (fun p => (updateStateCalls p.2).length) =
        List.zipWith (fun p b => if p.toFinset = b.toFinset then 0 else 1)
          (prev :: envs.filterMap (acquiredBatch name)) (envs.filterMap (acquiredBatch name)) ∧
      (∀ p ∈ envs.zip (s.tickLoop envs).2.1,
        acquiredBatch name p.1 = none → updateStateCalls p.2 = []) ∧
      ((s.tickLoop envs).2.1.map (fun evs => (updateStateCalls evs).length)).sum =
        (List.zipWith (fun p b => if p.toFinset = b.toFinset then 0 else 1)
          (prev :: envs.filterMap (acquiredBatch name))
          (envs.filterMap (acquiredBatch name))).sum := by
  induction envs with
  | nil => intro s prev _ _; simp [simpleLBResolver.tickLoop]
  | cons env envs ih =>
    intro s prev hname hinv
    subst hname
    have hname1 := updateAddresses_serviceName s env
    rw [tickLoop_cons]
    cases hacq : acquiredBatch s.serviceName env with
    | none =>
      obtain ⟨hu, hl⟩ := updateAddresses_of_not_acquired s env hacq
      obtain ⟨ih1, ih2, ih3⟩ := ih (s.updateAddresses env).state prev hname1 (by rw [hl, hinv])
      refine ⟨?_, ?_, ?_⟩
      · simpa [List.filter_cons, List.filterMap_cons, hacq] using ih1
      · intro p hp hn
        rw [List.zip_cons_cons, List.mem_cons] at hp
        rcases hp with hp | hp
        · subst hp
          exact hu
        · exact ih2 p hp hn
      · simpa [List.filterMap_cons, hacq, hu] using ih3
    | some b =>
      have hb := (acquiredBatch_eq_some _ _ _).1 hacq
      obtain ⟨hst, _, _⟩ := updateAddresses_of_acquired s env b hb
      have hupd := updateAddresses_updates_of_acquired s env b hb
      have hch : changed s.lastAddress b = true ↔ ¬ prev.toFinset = b.toFinset := by
        rw [changed_eq_true_iff, hinv]
      have hinv1 : (s.updateAddresses env).state.lastAddress.toFinset = b.toFinset := by
        rw [hst, poll_diffPublish_state]
        by_cases hc : changed s.lastAddress b = true
        · simp [hc]
        · simp only [hc]
          by_contra hne
          exact hc ((changed_eq_true_iff _ _).2 hne)
      have hcount : (updateStateCalls (s.updateAddresses env).events).length =
          if prev.toFinset = b.toFinset then 0 else 1 := by
        rw [hupd]
        by_cases hc : prev.toFinset = b.toFinset
        · have : ¬ changed s.lastAddress b = true := fun h => hch.1 h hc
          simp [hc, this]
        · simp [hc, hch.2 hc]
      obtain ⟨ih1, ih2, ih3⟩ := ih (s.updateAddresses env).state b hname1 hinv1
      refine ⟨?_, ?_, ?_⟩
      · simp only [List.zip_cons_cons, List.filter_cons, hacq, Option.isSome_some, if_true,
          List.map_cons, List.filterMap_cons, zipWith_pred_cons, ih1, hcount]
      · intro p hp hn
        rw [List.zip_cons_cons, List.mem_cons] at hp
        rcases hp with hp | hp
        · subst hp
          rw [hacq] at hn
          cases hn
        · exact ih2 p hp hn
      · simp only [List.map_cons, List.sum_cons, List.filterMap_cons, hacq, zipWith_pred_cons,
          ih3, hcount]

theorem poll_run_steps (s : simpleLBResolver) (first : CycleEnv) (ticks : List CycleEnv) :
    (s.run first ticks).steps = (s.tickLoop (s.performedCycles first ticks)).2.1 ∧
    (s.run first ticks).exit = [.done] := by
  have hp := updateAddresses_not_panicked s first
  by_cases hi : s.interval ≤ 0
  · simp [simpleLBResolver.run, simpleLBResolver.performedCycles, simpleLBResolver.tickLoop,
      hp, hi]
  · simp [simpleLBResolver.run, simpleLBResolver.performedCycles, simpleLBResolver.tickLoop,
      hp, hi]

theorem poll_run_suppression (s : simpleLBResolver) (first : CycleEnv)
    (ticks : List CycleEnv) (h0 : s.lastAddress = []) :
    (s.run first ticks).steps.length = (s.performedCycles first ticks).length ∧
    (((s.performedCycles first ticks).zip (s.run first ticks).steps).filter
        (fun p => (acquiredBatch s.serviceName p.1).isSome)).map
        (fun p => (updateStateCalls p.2).length) =
      List.zipWith (fun p b => if p.toFinset = b.toFinset then 0 else 1)
        ([] :: (s.performedCycles first ticks).filterMap (acquiredBatch s.serviceName))
        ((s.performedCycles first ticks).filterMap (acquiredBatch s.serviceName)) ∧
    (∀ p ∈ (s.performedCycles first ticks).zip (s.run first ticks).steps,
      acquiredBatch s.serviceName p.1 = none → updateStateCalls p.2 = []) ∧
    (updateStateCalls (s.run first ticks).trace).length =
      (List.zip ([] :: (s.performedCycles first ticks).filterMap (acquiredBatch s.serviceName))
        ((s.performedCycles first ticks).filterMap (acquiredBatch s.serviceName))).countP
        (fun pb => decide (pb.1.toFinset ≠ pb.2.toFinset)) := by
  obtain ⟨hsteps, hexit⟩ := poll_run_steps s first ticks
  obtain ⟨h1, h2, h3⟩ := poll_tickLoop_suppression s.serviceName (s.performedCycles first ticks)
    s [] rfl (by rw [h0])
  refine ⟨?_, ?_, ?_, ?_⟩
  · rw [hsteps]
    exact (tickLoop_all_processed _ s).2
  · rw [hsteps]
    exact h1
  · rw [hsteps]
    exact h2
  · rw [RunResult.trace, updateStateCalls_append, hexit, List.length_append,
      length_updateStateCalls_flatten, hsteps, h3, sum_zipWith_indicator]
    simp [updateStateCalls]

theorem watch_reconnectLoop_suppression (script : List WatchAttempt) :
    ∀ (s : simpleLBWatcherResolver) (prev : List Address),
      s.lastAddress.toFinset = prev.toFinset →
      (((s.reconnectLoop script).2.map AttemptRecord.batchEvents).flatten.map
          (fun evs => (updateStateCalls evs).length)) =
        List.zipWith (fun p b => if p.toFinset = b.toFinset then 0 else 1)
          (prev :: (receivedBatches script).map Prod.fst)
          ((receivedBatches script).map Prod.fst) := by
  induction script with
  | nil => intro s prev _; simp [simpleLBWatcherResolver.reconnectLoop, receivedBatches]
  | cons a script ih =>
    intro s prev hinv
    cases a with
    | openFailed err c =>
      cases c with
      | true => simp [simpleLBWatcherResolver.reconnectLoop, receivedBatches]
      | false =>
        simpa [simpleLBWatcherResolver.reconnectLoop, receivedBatches] using ih s prev hinv
    | opened ds fin =>
      obtain ⟨prev1, h1, _, h3⟩ := watch_consume_suppression ds s prev hinv
      cases fin with
      | cancelled =>
        have := h3 []
        simp only [List.append_nil, List.zipWith_nil_right] at this
        simp only [simpleLBWatcherResolver.reconnectLoop, receivedBatches, List.map_cons,
          List.map_nil, List.flatten_cons, List.flatten_nil, List.append_nil, this]
      | closed =>
        have := ih (s.consume ds).1 prev1 h1
        simp only [simpleLBWatcherResolver.reconnectLoop, List.map_cons, List.flatten_cons,
          List.map_append, receivedBatches, h3, this]

theorem watch_run_suppression (s : simpleLBWatcherResolver) (script : List WatchAttempt)
    (h0 : s.lastAddress = []) :
    (s.run script).batchSteps.map (fun evs => (updateStateCalls evs).length) =
      List.zipWith (fun p b => if p.toFinset = b.toFinset then 0 else 1)
        ([] :: (receivedBatches script).map Prod.fst)
        ((receivedBatches script).map Prod.fst) ∧
    (updateStateCalls (s.run script).trace).length =
      (List.zip ([] :: (receivedBatches script).map Prod.fst)
        ((receivedBatches script).map Prod.fst)).countP
        (fun pb => decide (pb.1.toFinset ≠ pb.2.toFinset)) := by
  have h := watch_reconnectLoop_suppression script s [] (by rw [h0])
  refine ⟨h, ?_⟩
  rw [WatchRunResult.trace, updateStateCalls_append, List.length_append]
  simp only [simpleLBWatcherResolver.run]
  rw [updateStateCalls_passes _ (watch_reconnectLoop_frame script s),
    length_updateStateCalls_flatten, h, sum_zipWith_indicator]
  simp [updateStateCalls]

/-- C2: started with an empty `lastAddress`, an engine calls `UpdateState` for the `k`-th
batch it successfully acquires exactly when that batch differs as a set from the one
acquired before it (from the empty set for the first), and then once. This holds for the
poll engine over the cycles of any run, where a cycle that acquires nothing calls
`UpdateState` not at all, and for the watch engine over the batches it receives on any
number of streams, whether a stream ends by being closed or by the cancellation of the
context. So the number of `UpdateState` calls of a run is the number of batches that
differ as a set from their predecessor. -/
theorem C2_update_suppression (sp : simpleLBResolver) (first : CycleEnv)
    (ticks : List CycleEnv) (sw : simpleLBWatcherResolver) (script : List WatchAttempt)
    (hp0 : sp.lastAddress = []) (hw0 : sw.lastAddress = []) :
    ((sp.run first ticks).steps.length = (sp.performedCycles first ticks).length ∧
    (((sp.performedCycles first ticks).zip (sp.run first ticks).steps).filter
        (fun p => (acquiredBatch sp.serviceName p.1).isSome)).map
        (fun p => (updateStateCalls p.2).length) =
      List.zipWith (fun p b => if p.toFinset = b.toFinset then 0 else 1)
        ([] :: (sp.performedCycles first ticks).filterMap (acquiredBatch sp.serviceName))
        ((sp.performedCycles first ticks).filterMap (acquiredBatch sp.serviceName)) ∧
    (∀ p ∈ (sp.performedCycles first ticks).zip (sp.run first ticks).steps,
      acquiredBatch sp.serviceName p.1 = none → updateStateCalls p.2 = []) ∧
    (updateStateCalls (sp.run first ticks).trace).length =
      (List.zip ([] :: (sp.performedCycles first ticks).filterMap (acquiredBatch sp.serviceName))
        ((sp.performedCycles first ticks).filterMap (acquiredBatch sp.serviceName))).countP
        (fun pb => decide (pb.1.toFinset ≠ pb.2.toFinset))) ∧
    ((sw.run script).batchSteps.map (fun evs => (updateStateCalls evs).length) =
      List.zipWith (fun p b => if p.toFinset = b.toFinset then 0 else 1)
        ([] :: (receivedBatches script).map Prod.fst)
        ((receivedBatches script).map Prod.fst) ∧
    (updateStateCalls (sw.run script).trace).length =
      (List.zip ([] :: (receivedBatches script).map Prod.fst)
        ((receivedBatches script).map Prod.fst)).countP
        (fun pb => decide (pb.1.toFinset ≠ pb.2.toFinset))) :=
  ⟨poll_run_suppression sp first ticks hp0, watch_run_suppression sw script hw0⟩

/-- C2 on the batches `{A,B}`, `{A,B}`, `{A,B,C}`: one call for the first, none for the
second, one for the third, two in all. In the poll engine a cycle whose three pulls fail
comes between the first two; in the watch engine the three batches come on one stream that
the cancellation of the context ends, and on two streams of which the first is closed. -/
theorem C2_update_suppression_witness :
    ((((simpleLBResolver.performedCycles exPoll (exCycle ["A", "B"] none)
        [{ retry := exDown 0, updateResult := none }, exCycle ["B", "A"] none,
          exCycle ["A", "B", "C"] none]).zip
        (simpleLBResolver.run exPoll (exCycle ["A", "B"] none)
          [{ retry := exDown 0, updateResult := none }, exCycle ["B", "A"] none,
            exCycle ["A", "B", "C"] none]).steps).filter
        (fun p => (acquiredBatch exPoll.serviceName p.1).isSome)).map
        (fun p => (updateStateCalls p.2).length) = [1, 0, 1] ∧
      (updateStateCalls (simpleLBResolver.run exPoll (exCycle ["A", "B"] none)
        [{ retry := exDown 0, updateResult := none }, exCycle ["B", "A"] none,
          exCycle ["A", "B", "C"] none]).trace).length = 2) ∧
    ((simpleLBWatcherResolver.run exWatch
        [.opened [(["A", "B"], none), (["B", "A"], none), (["A", "B", "C"], none)]
          .cancelled]).batchSteps.map
        (fun evs => (updateStateCalls evs).length) = [1, 0, 1] ∧
      (updateStateCalls (simpleLBWatcherResolver.run exWatch
        [.opened [(["A", "B"], none), (["B", "A"], none), (["A", "B", "C"], none)]
          .cancelled]).trace).length = 2) ∧
    ((simpleLBWatcherResolver.run exWatch
        [.opened [(["A", "B"], none), (["B", "A"], none)] .closed,
          .opened [(["A", "B", "C"], none)] .cancelled]).batchSteps.map
        (fun evs => (updateStateCalls evs).length) = [1, 0, 1] ∧
      (updateStateCalls (simpleLBWatcherResolver.run exWatch
        [.opened [(["A", "B"], none), (["B", "A"], none)] .closed,
          .opened [(["A", "B", "C"], none)] .cancelled]).trace).length = 2) := by
  have h := C2_update_suppression exPoll (exCycle ["A", "B"] none)
    [{ retry := exDown 0, updateResult := none }, exCycle ["B", "A"] none,
      exCycle ["A", "B", "C"] none] exWatch
    [.opened [(["A", "B"], none), (["B", "A"], none), (["A", "B", "C"], none)] .cancelled]
    rfl rfl
  have h2 := C2_update_suppression exPoll (exCycle ["A", "B"] none) [] exWatch
    [.opened [(["A", "B"], none), (["B", "A"], none)] .closed,
      .opened [(["A", "B", "C"], none)] .cancelled]
    rfl rfl
  exact ⟨⟨h.1.2.1.trans (by decide), h.1.2.2.2.trans (by decide)⟩,
    ⟨h.2.1.trans (by decide), h.2.2.trans (by decide)⟩,
    ⟨h2.2.1.trans (by decide), h2.2.2.trans (by decide)⟩⟩

end SimpleLB

namespace Daogen

/-! ## The struct parser -/

theorem fieldMetadata_eq (Get : String → String → String) (ToSnakeCase : String → String)
    (field : Field) (name : String) :
    fieldMetadata Get ToSnakeCase field name =
      { FieldName := name
        FieldType := extractTypeString field.Type_
        ColumnName :=
          if tagValue Get field "sql-col" != "" then tagValue Get field "sql-col"
          else ToSnakeCase name
        IsIdentifier := tagValue Get field "sql-identifier" == "true"
        IsMandatory := tagValue Get field "sql-insert" == "true"
        IsUpdatable := tagValue Get field "sql-update" == "true"
        IsSkipped := tagValue Get field "sql-skip" == "true" } := by
  unfold fieldMetadata tagValue
  cases field.Tag with
  | none => simp
  | some value =>
    simp only
    by_cases h : Get (Trim value backquote) "sql-col" = ""
    · simp [h]
    · simp [h]

theorem names_loop_aux (Get : String → String → String) (ToSnakeCase : String → String)
    (f : Field) (names : List String) :
    names.flatMap (fun name =>
        if !(fieldMetadata Get ToSnakeCase f name).IsSkipped then
          [fieldMetadata Get ToSnakeCase f name]
        else []) =
      ((names.map (fun name => (f, name))).filter
        (fun p => tagValue Get p.1 "sql-skip" != "true")).map
        (fun p =>
          ({ FieldName := p.2
             FieldType := extractTypeString p.1.Type_
             ColumnName :=
               if tagValue Get p.1 "sql-col" != "" then tagValue Get p.1 "sql-col"
               else ToSnakeCase p.2
             IsIdentifier := tagValue Get p.1 "sql-identifier" == "true"
             IsMandatory := tagValue Get p.1 "sql-insert" == "true"
             IsUpdatable := tagValue Get p.1 "sql-update" == "true"
             IsSkipped := false } : FieldMetadata)) := by
  induction names with
  | nil => rfl
  | cons n ns ih =>
    simp only [List.flatMap_cons, List.map_cons, List.filter_cons, ih]
    rw [fieldMetadata_eq]
    by_cases hs : tagValue Get f "sql-skip" = "true"
    · simp [hs]
    · simp [hs]

theorem names_loop (Get : String → String → String) (ToSnakeCase : String → String)
    (field : Field) :
    field.Names.flatMap (fun name =>
        if !(fieldMetadata Get ToSnakeCase field name).IsSkipped then
          [fieldMetadata Get ToSnakeCase field name]
        else []) =
      describedFields Get ToSnakeCase [field] := by
  unfold describedFields
  simp only [List.flatMap_cons, List.flatMap_nil, List.append_nil]
  exact names_loop_aux Get ToSnakeCase field field.Names

theorem described_cons (Get : String → String → String) (ToSnakeCase : String → String)
    (field : Field) (fields : List Field) :
    describedFields Get ToSnakeCase (field :: fields) =
      describedFields Get ToSnakeCase [field] ++ describedFields Get ToSnakeCase fields := by
  simp [describedFields, List.flatMap_cons, List.filter_append, List.map_append]

theorem structFields_eq_described (Get : String → String → String)
    (ToSnakeCase : String → String) (fields : List Field) :
    structFields Get ToSnakeCase fields = describedFields Get ToSnakeCase fields := by
  unfold structFields
  have hstep : (fun (acc : List FieldMetadata) (field : Field) =>
      if (field.Names.length == 0) = true then acc
      else
        field.Names.foldl
          (fun acc name =>
            let fMeta := fieldMetadata Get ToSnakeCase field name
            if (!fMeta.IsSkipped) = true then acc ++ [fMeta] else acc)
          acc) =
      (fun acc field => acc ++ describedFields Get ToSnakeCase [field]) := by
    funext acc field
    have hinner : (fun (acc : List FieldMetadata) (name : String) =>
        let fMeta := fieldMetadata Get ToSnakeCase field name
        if (!fMeta.IsSkipped) = true then acc ++ [fMeta] else acc) =
        (fun acc name => acc ++
          (if !(fieldMetadata Get ToSnakeCase field name).IsSkipped then
            [fieldMetadata Get ToSnakeCase field name]
          else [])) := by
      funext acc name
      by_cases h : (fieldMetadata Get ToSnakeCase field name).IsSkipped = true <;> simp [h]
    rw [hinner, SimpleLB.foldl_append_flatMap, names_loop]
    by_cases hn : field.Names = []
    · simp [hn, describedFields]
    · have : ¬ (field.Names.length == 0) = true := by simpa using hn
      simp [this]
  rw [hstep, SimpleLB.foldl_append_flatMap, List.nil_append]
  induction fields with
  | nil => rfl
  | cons f fs ih => rw [List.flatMap_cons, ih, ← described_cons]

theorem ParseStruct_fold (Get : String → String → String) (ToSnakeCase : String → String)
    (structName tableName : String) (md : StructMetadata) (specs : List TypeSpec) :
    ∀ init : Option StructMetadata,
      specs.foldl
        (fun metadata ts =>
          if ts.Name != structName then metadata
          else
            match ts.Struct with
            | none => metadata
            | some fields =>
              some { StructName := structName
                     TableName := if tableName == "" then ToSnakeCase structName else tableName
                     Fields := structFields Get ToSnakeCase fields })
        init = some md →
      init = some md ∨
      ∃ ts fields, ts ∈ specs ∧ ts.Name = structName ∧ ts.Struct = some fields ∧
        md.Fields = structFields Get ToSnakeCase fields := by
  induction specs with
  | nil => intro init h; exact Or.inl h
  | cons ts specs ih =>
    intro init h
    rw [List.foldl_cons] at h
    rcases ih _ h with h1 | ⟨ts2, fields, hmem, hname, hstruct, hfields⟩
    · by_cases hn : ts.Name = structName
      · cases hs : ts.Struct with
        | none =>
          left
          simpa [hn, hs] using h1
        | some fields =>
          right
          refine ⟨ts, fields, List.mem_cons_self _ _, hn, hs, ?_⟩
          simp only [hn, bne_self_eq_false, Bool.false_eq_true, if_false, hs,
            Option.some.injEq] at h1
          rw [← h1]
      · left
        have : (ts.Name != structName) = true := by simpa using hn
        simpa [this] using h1
    · exact Or.inr ⟨ts2, fields, List.mem_cons_of_mem _ hmem, hname, hstruct, hfields⟩

/-- C20: when `ParseStruct` returns metadata, it has located a type specification of the wanted
name whose type is a struct, and the `Fields` of the metadata are, in declaration order, one
entry per declared name of that struct whose tag `sql-skip` is not "true" (none for an
embedded field, one per name for a declaration with several names); the `ColumnName` of an
entry is the tag `sql-col` when that is not empty and `ToSnakeCase` of the field name
otherwise, and `IsIdentifier`, `IsMandatory` and `IsUpdatable` are true exactly when the
tags `sql-identifier`, `sql-insert` and `sql-update` are "true". -/
theorem C20_struct_field_extraction (Get : String → String → String)
    (ToSnakeCase : String → String) (specs : List TypeSpec)
    (filename structName tableName : String) (md : StructMetadata)
    (h : ParseStruct Get ToSnakeCase (.ok specs) filename structName tableName = .ok md) :
    ∃ ts fields, ts ∈ specs ∧ ts.Name = structName ∧ ts.Struct = some fields ∧
      md.Fields = structFields Get ToSnakeCase fields ∧
      md.Fields = describedFields Get ToSnakeCase fields ∧
      md.Fields.map (fun m => m.FieldName) =
        ((fields.flatMap (fun field => field.Names.map (fun name => (field, name)))).filter
          (fun p => tagValue Get p.1 "sql-skip" != "true")).map (fun p => p.2) ∧
      (∀ m ∈ md.Fields, ∃ field ∈ fields, m.FieldName ∈ field.Names ∧
        tagValue Get field "sql-skip" ≠ "true" ∧
        m.ColumnName = (if tagValue Get field "sql-col" ≠ "" then tagValue Get field "sql-col"
          else ToSnakeCase m.FieldName) ∧
        (m.IsIdentifier = true ↔ tagValue Get field "sql-identifier" = "true") ∧
        (m.IsMandatory = true ↔ tagValue Get field "sql-insert" = "true") ∧
        (m.IsUpdatable = true ↔ tagValue Get field "sql-update" = "true")) := by
  have hfold : ∃ ts fields, ts ∈ specs ∧ ts.Name = structName ∧ ts.Struct = some fields ∧
      md.Fields = structFields Get ToSnakeCase fields := by
    unfold ParseStruct at h
    simp only at h
    split at h
    · exact absurd h (by simp)
    · rename_i m hm
      have hmd : m = md := by simpa using h
      subst hmd
      rcases ParseStruct_fold Get ToSnakeCase structName tableName m specs none hm with
        h1 | h2
      · exact absurd h1 (by simp)
      · exact h2
  obtain ⟨ts, fields, hmem, hname, hstruct, hfields⟩ := hfold
  have hdesc : md.Fields = describedFields Get ToSnakeCase fields := by
    rw [hfields, structFields_eq_described]
  refine ⟨ts, fields, hmem, hname, hstruct, hfields, hdesc, ?_, ?_⟩
  · rw [hdesc, describedFields, List.map_map]
    rfl
  · intro m hm
    rw [hdesc, describedFields] at hm
    simp only [List.mem_map, List.mem_filter, List.mem_flatMap] at hm
    obtain ⟨p, ⟨⟨field, hfield, hp⟩, hskip⟩, rfl⟩ := hm
    obtain ⟨name, hname2, rfl⟩ := hp
    refine ⟨field, hfield, hname2, by simpa using hskip, ?_, ?_, ?_, ?_⟩
    · by_cases hc : tagValue Get field "sql-col" = "" <;> simp [hc]
    · simp
    · simp
    · simp

/-- C20 on the struct `TestUser` of `TestParseStruct`: the field `Age`, tagged to be skipped,
is left out and the four others come in declaration order. -/
theorem C20_struct_field_extraction_witness :
    ∃ ts fields, ts ∈ [exTestUser] ∧ ts.Name = "TestUser" ∧ ts.Struct = some fields ∧
      exTestUserMetadata.Fields = describedFields exGet exSnake fields ∧
      exTestUserMetadata.Fields.map (fun m => m.FieldName) =
        ((fields.flatMap (fun field => field.Names.map (fun name => (field, name)))).filter
          (fun p => tagValue exGet p.1 "sql-skip" != "true")).map (fun p => p.2) := by
  obtain ⟨ts, fields, h1, h2, h3, _, h5, h6, _⟩ :=
    C20_struct_field_extraction exGet exSnake [exTestUser] "models.go" "TestUser" "users"
      exTestUserMetadata (by rfl)
  exact ⟨ts, fields, h1, h2, h3, h5, h6⟩

end Daogen

namespace RateLimiter

/-! ## The Redis token bucket -/

/-- C22: for a stored state `(t, l)`, one run of `tokenBucketScript` computes
`t1 = min(capacity, t + max(0, now - l) * rate)`, returns 1 exactly when `t1 >= 1` and 0
otherwise, and passes to `HMSET` the tokens `t1 - 1` when it returns 1 and `t1` when it
returns 0, with `last_refill = now`; a missing key runs as the state `(capacity, now)`; and
`RedisTokenBucket.Allow` returns `(true, nil)` exactly when the script returns 1, and
`(false, err)` when running the script fails. -/
theorem C22_redis_token_bucket_script {α : Type} (A : LuaArith α) (t l now rate capacity : α)
    (other : Option α) (n : Int) (err : GoError) :
    (∃ r, tokenBucketScript A (some t, some l) now rate capacity = .ok r ∧
      (r.allowed = 1 ↔
        A.ge (A.min capacity (A.add t (A.mul (A.max A.zero (A.sub now l)) rate))) A.one = true) ∧
      (r.allowed = 0 ↔
        A.ge (A.min capacity (A.add t (A.mul (A.max A.zero (A.sub now l)) rate))) A.one
          = false) ∧
      (r.allowed = 1 → r.tokens =
        A.sub (A.min capacity (A.add t (A.mul (A.max A.zero (A.sub now l)) rate))) A.one) ∧
      (r.allowed = 0 → r.tokens =
        A.min capacity (A.add t (A.mul (A.max A.zero (A.sub now l)) rate))) ∧
      r.last_refill = now ∧ r.expire = 3600 ∧
      (RedisTokenBucket.Allow (.ok r.allowed) = (true, none) ↔ r.allowed = 1)) ∧
    tokenBucketScript A (none, other) now rate capacity =
      tokenBucketScript A (some capacity, some now) now rate capacity ∧
    (RedisTokenBucket.Allow (.ok n) = (true, none) ↔ n = 1) ∧
    RedisTokenBucket.Allow (.ok n) = (n == 1, none) ∧
    RedisTokenBucket.Allow (.error err) = (false, some err) ∧
    tokenBucketScript exArith (none, none) 1705000000 10 5 =
      .ok { tokens := 4, last_refill := 1705000000, expire := 3600, allowed := 1 } := by
  have hallow : ∀ m : Int, (RedisTokenBucket.Allow (.ok m) = (true, none) ↔ m = 1) := by
    intro m
    simp [RedisTokenBucket.Allow]
  refine ⟨?_, rfl, hallow n, rfl, rfl, by rfl⟩
  · by_cases hge :
        A.ge (A.min capacity (A.add t (A.mul (A.max A.zero (A.sub now l)) rate))) A.one = true
    · refine ⟨_, by simp [tokenBucketScript, hge]; rfl, ?_⟩
      simp [hge, hallow]
    · refine ⟨_, by simp [tokenBucketScript, hge]; rfl, ?_⟩
      simp [hge, hallow]

end RateLimiter
